import Mathlib

set_option maxHeartbeats 1600000

/-!
Shallow embedding of the cart/inventory/order subsystem of the Telegram
mini-app storefront backend (`backend/app`): the variant-quantity ledger
(`utils.py`), the cart router (`routers/cart.py`), the order router
(`routers/orders.py`), the admin status endpoint (`routers/admin.py`) and the
bot webhook status callbacks (`routers/bot_webhook.py`).

Modelling conventions:
- MongoDB collections are Lean lists of documents; `find_one` is the first
  list element matching the filter, `update_one`/`find_one_and_update` rewrite
  the first matching element, `delete_one` removes it.
- `ObjectId` values are kept as their 24-hex-character string form; bson's
  `ObjectId.is_valid` is modelled as the 24-lowercase-hex check.
- `datetime.utcnow()` is a `Nat` (seconds); `timedelta(minutes=m)` is `m * 60`.
- Generated identifiers (`uuid4().hex`, `insert_one`'s fresh `_id`, GridFS
  file ids) are drawn from a single fresh counter `nextId` in the state.
- Monetary amounts are integers, so `round(x, 2)` is the identity.
- Python `int` is `Int` (arbitrary precision, no overflow).
-/

/-- bson `ObjectId.is_valid`, modelled for canonical ids: 24 hex characters
(lowercase letters only, matching `str(ObjectId)` output). -/
def isValidObjectId (s : String) : Bool :=
  s.length == 24 && s.toList.all (fun c => c.isDigit || ("abcdef".toList.contains c))

/-- `utils.as_object_id`: raises `ValueError` (here `none`) on an invalid id,
otherwise yields the canonical id. -/
def as_object_id (s : String) : Option String :=
  if isValidObjectId s then some s else none

/-- An embedded product variant (element of a product's `variants` array). -/
structure Variant where
  id : String
  name : String
  quantity : Int
  image : Option String
deriving Repr, DecidableEq

/-- A document of the `products` collection (`oid` is `_id` as a string). -/
structure ProductDoc where
  oid : String
  name : String
  price : Int
  image : Option String
  variants : List Variant
deriving Repr, DecidableEq

/-- A cart item as built by `add_to_cart` (`id` is the `uuid4().hex` token,
modelled as a fresh counter value). -/
structure CartItem where
  id : Nat
  product_id : String
  variant_id : Option String
  product_name : String
  variant_name : Option String
  quantity : Int
  price : Int
  image : Option String
deriving Repr, DecidableEq

/-- A document of the `carts` collection (`cid` is `_id`). -/
structure CartDoc where
  cid : Nat
  user_id : Int
  items : List CartItem
  total_amount : Int
  created_at : Option Nat
  updated_at : Option Nat
deriving Repr, DecidableEq

/-- A document of the `orders` collection (`oid` is `_id`). -/
structure OrderDoc where
  oid : Nat
  user_id : Int
  status : String
  items : List CartItem
  total_amount : Int
  can_edit_address : Bool
  delivery_address : String
  created_at : Nat
  updated_at : Nat
  receipt_file_id : Nat
deriving Repr, DecidableEq

/-- A document of the `customers` collection. -/
structure CustomerDoc where
  telegram_id : Int
  added_at : Nat
  last_cart_activity : Nat
deriving Repr, DecidableEq

/-- The persistent state: the MongoDB collections touched by the subsystem,
the GridFS receipt blobs, the fresh-id counter, and the store-status flag. -/
structure DB where
  products : List ProductDoc
  carts : List CartDoc
  orders : List OrderDoc
  customers : List CustomerDoc
  blobs : List Nat
  nextId : Nat
  storeSleeping : Bool
deriving Repr, DecidableEq

/-- `fastapi.HTTPException status_code detail`. -/
structure ApiError where
  status_code : Nat
  detail : String
deriving Repr, DecidableEq

/-- Python truthiness of an optional string field (`if item.get("variant_id")`):
`None` and the empty string are falsy. -/
def truthy : Option String → Bool
  | none => false
  | some s => s ≠ ""

/-! ## utils.py: the variant-quantity ledger -/

/-- The `$elemMatch` filter of `_update_variant_quantity`: the element's `id`
equals `variant_id` and, when a guard is present, its quantity is at least the
guard value. -/
def elemGuard (variant_id : String) (guard : Option Int) (v : Variant) : Bool :=
  v.id == variant_id && (match guard with | none => true | some g => g ≤ v.quantity)

/-- `$inc` through the positional `$` operator: add `diff` to the first array
element satisfying the `$elemMatch` filter; `none` when no element matches. -/
def incFirstMatch (variant_id : String) (guard : Option Int) (diff : Int) :
    List Variant → Option (List Variant)
  | [] => none
  | v :: vs =>
    if elemGuard variant_id guard v then
      some ({ v with quantity := v.quantity + diff } :: vs)
    else
      (incFirstMatch variant_id guard diff vs).map (v :: ·)

/-- `db.products.update_one(base_filter, {"$inc": ...})`: rewrite the first
product matching the whole filter (`_id` equal and some variant passing the
`$elemMatch`); `none` when no document matched (`modified_count == 0`). -/
def productsUpdateIncFirst (oid variant_id : String) (guard : Option Int) (diff : Int) :
    List ProductDoc → Option (List ProductDoc)
  | [] => none
  | p :: ps =>
    if p.oid == oid then
      match incFirstMatch variant_id guard diff p.variants with
      | some vs => some ({ p with variants := vs } :: ps)
      | none => (productsUpdateIncFirst oid variant_id guard diff ps).map (p :: ·)
    else
      (productsUpdateIncFirst oid variant_id guard diff ps).map (p :: ·)

/-- `utils._update_variant_quantity`: the single conditional update of the
ledger. Returns the `modified_count == 1` flag and the new state. -/
def update_variant_quantity (db : DB) (product_id variant_id : String)
    (quantity_diff : Int) (require_available : Bool) : Bool × DB :=
  if quantity_diff = 0 then (true, db)
  else
    match as_object_id product_id with
    | none => (false, db)
    | some product_oid =>
      let guard : Option Int :=
        if quantity_diff < 0 && require_available then some (-quantity_diff) else none
      match productsUpdateIncFirst product_oid variant_id guard quantity_diff db.products with
      | some ps => (true, { db with products := ps })
      | none => (false, db)

/-- `utils.decrement_variant_quantity`: guarded stock deduction. -/
def decrement_variant_quantity (db : DB) (product_id variant_id : String)
    (quantity : Int) : Bool × DB :=
  if quantity ≤ 0 then (true, db)
  else update_variant_quantity db product_id variant_id (-quantity) true

/-- `utils.restore_variant_quantity`: unconditional stock restore (the result
flag is discarded by the source). -/
def restore_variant_quantity (db : DB) (product_id variant_id : String)
    (quantity : Int) : DB :=
  if quantity ≤ 0 then db
  else (update_variant_quantity db product_id variant_id quantity false).2

/-! ## routers/cart.py -/

/-- `CART_EXPIRY_MINUTES` (cart lifetime in minutes). -/
def CART_EXPIRY_MINUTES : Nat := 10

/-- `db.carts.delete_one` on the `_id` filter: remove the first cart with the
given id. -/
def cartsDeleteOne (cid : Nat) : List CartDoc → List CartDoc
  | [] => []
  | c :: cs => if c.cid == cid then cs else c :: cartsDeleteOne cid cs

/-- Rewrite the first cart with the given id ($set of the whole document). -/
def cartsUpdateOne (cid : Nat) (newDoc : CartDoc) : List CartDoc → List CartDoc
  | [] => []
  | c :: cs => if c.cid == cid then newDoc :: cs else c :: cartsUpdateOne cid newDoc cs

/-- The restore loop shared by cart expiry and order cancellation: for every
item with a truthy `variant_id`, return its quantity to stock. -/
def restore_items (db : DB) (items : List CartItem) : DB :=
  items.foldl
    (fun acc item =>
      if truthy item.variant_id then
        restore_variant_quantity acc item.product_id (item.variant_id.getD "") item.quantity
      else acc)
    db

/-- `cleanup_expired_cart`: when the cart has items and has been idle for more
than `CART_EXPIRY_MINUTES`, restore every variant-bearing item to stock and
delete the cart, returning `true`; otherwise leave everything as is. -/
def cleanup_expired_cart (now : Nat) (db : DB) (cart : CartDoc) : Bool × DB :=
  if cart.items.isEmpty then (false, db)
  else
    let updated_at :=
      match cart.updated_at with
      | some t => t
      | none => cart.created_at.getD now
    let expiry_time := updated_at + CART_EXPIRY_MINUTES * 60
    if expiry_time < now then
      let db1 := restore_items db cart.items
      (true, { db1 with carts := cartsDeleteOne cart.cid db1.carts })
    else (false, db)

/-- The empty cart document inserted on first access or after expiry. -/
def freshCart (now : Nat) (user_id : Int) (cid : Nat) : CartDoc :=
  { cid := cid, user_id := user_id, items := [], total_amount := 0,
    created_at := some now, updated_at := some now }

/-- `get_cart_document`: fetch the user's cart, creating a fresh empty one
when absent or when the existing one was expired and cleaned up. -/
def get_cart_document (now : Nat) (db : DB) (user_id : Int) : CartDoc × DB :=
  match db.carts.find? (fun c => c.user_id == user_id) with
  | none =>
    let cart := freshCart now user_id db.nextId
    (cart, { db with carts := db.carts ++ [cart], nextId := db.nextId + 1 })
  | some cart =>
    let r := cleanup_expired_cart now db cart
    if r.1 then
      let cart2 := freshCart now user_id r.2.nextId
      (cart2, { r.2 with carts := r.2.carts ++ [cart2], nextId := r.2.nextId + 1 })
    else (cart, r.2)

/-- In-place mutation of the variant dict found by `next(...)`: the first
element whose `id` matches gets its quantity replaced. -/
def setFirstVariantQty (variant_id : String) (q : Int) : List Variant → List Variant
  | [] => []
  | v :: vs =>
    if v.id == variant_id then { v with quantity := q } :: vs
    else v :: setFirstVariantQty variant_id q vs

/-- `db.products.update_one` with a `$set` of the whole `variants` array:
rewrite the first product with the given `_id`. -/
def productsSetVariants (oid : String) (vs : List Variant) :
    List ProductDoc → List ProductDoc
  | [] => []
  | p :: ps =>
    if p.oid == oid then { p with variants := vs } :: ps
    else p :: productsSetVariants oid vs ps

/-- `cart.deduct_variant_quantity`: the add-to-cart-time stock deduction.
Reads the product, takes the first variant whose `id` matches, raises an
insufficient-stock error when its quantity is below the request, and otherwise
writes the whole `variants` array back with that element decremented.
`ValueError` from id parsing is swallowed (silent no-op). -/
def deduct_variant_quantity (db : DB) (product_id variant_id : String)
    (quantity : Int) : Except ApiError DB :=
  match as_object_id product_id with
  | none => .ok db
  | some product_oid =>
    match db.products.find? (fun p => p.oid == product_oid) with
    | none => .ok db
    | some product =>
      match product.variants.find? (fun v => v.id == variant_id) with
      | none => .ok db
      | some variant =>
        if variant.quantity < quantity then
          .error { status_code := 400, detail := "insufficient stock" }
        else
          let newVariants :=
            setFirstVariantQty variant_id (variant.quantity - quantity) product.variants
          .ok { db with products := productsSetVariants product_oid newVariants db.products }

/-- `recalculate_total`: `total_amount = round(sum(price * qty), 2)` (the
round is the identity on integer amounts). -/
def recalculate_total (cart : CartDoc) : CartDoc :=
  { cart with
    total_amount := (cart.items.map (fun it => it.price * it.quantity)).sum }

/-- Modelled from the spec: request payload of `POST /cart` (the pydantic
schemas module is absent from the sources; fields follow their use sites). -/
structure AddToCartRequest where
  user_id : Int
  product_id : String
  variant_id : Option String
  quantity : Int
deriving Repr, DecidableEq

/-- Modelled from the spec: request payload of `PATCH /cart/item`. -/
structure UpdateCartItemRequest where
  user_id : Int
  item_id : Nat
  quantity : Int
deriving Repr, DecidableEq

/-- Modelled from the spec: request payload of `DELETE /cart/item`. -/
structure RemoveFromCartRequest where
  user_id : Int
  item_id : Nat
deriving Repr, DecidableEq

/-- The in-memory mutation of the existing item found by `next(...)` in
`add_to_cart`: bump the quantity of the first item with the same
`(product_id, variant_id)` pair. -/
def bumpFirstItem (pid : String) (vid : Option String) (q : Int) :
    List CartItem → Option (List CartItem)
  | [] => none
  | it :: its =>
    if it.product_id == pid && it.variant_id == vid then
      some ({ it with quantity := it.quantity + q } :: its)
    else
      (bumpFirstItem pid vid q its).map (it :: ·)

/-- The `customers` upsert at the end of `add_to_cart`. -/
def upsertCustomer (now : Nat) (user_id : Int) (db : DB) : DB :=
  match db.customers.find? (fun c => c.telegram_id == user_id) with
  | some _ =>
    { db with
      customers :=
        db.customers.map
          (fun c =>
            if c.telegram_id == user_id then { c with last_cart_activity := now } else c) }
  | none =>
    { db with
      customers :=
        db.customers ++ [{ telegram_id := user_id, added_at := now, last_cart_activity := now }] }

/-- `POST /cart` (`add_to_cart`): validate the product, its variant list and
the requested variant and quantity, merge or append the cart item, deduct the
stock through `deduct_variant_quantity`, recompute the total and persist the
cart, then upsert the customer record. The returned state carries whatever
side effects had happened when an error aborted the handler. -/
def add_to_cart (now : Nat) (payload : AddToCartRequest) (db : DB) :
    DB × Except ApiError CartDoc :=
  match as_object_id payload.product_id with
  | none => (db, .error { status_code := 400, detail := "bad product id" })
  | some product_oid =>
    match db.products.find? (fun p => p.oid == product_oid) with
    | none => (db, .error { status_code := 404, detail := "product not found" })
    | some product =>
      if product.variants.isEmpty then
        (db, .error { status_code := 400, detail := "product has no variants" })
      else if !truthy payload.variant_id then
        (db, .error { status_code := 400, detail := "variant required" })
      else
        let vid := payload.variant_id.getD ""
        match product.variants.find? (fun v => v.id == vid) with
        | none => (db, .error { status_code := 404, detail := "variant not found" })
        | some variant =>
          let variant_price := product.price
          let variant_quantity := variant.quantity
          if variant_quantity < payload.quantity then
            (db, .error { status_code := 400, detail := "insufficient stock" })
          else
            let r := get_cart_document now db payload.user_id
            let cart := r.1
            let db1 := r.2
            let merged : List CartItem × DB :=
              match bumpFirstItem payload.product_id payload.variant_id payload.quantity
                  cart.items with
              | some items => (items, db1)
              | none =>
                (cart.items ++
                  [{ id := db1.nextId,
                     product_id := payload.product_id,
                     variant_id := payload.variant_id,
                     product_name := product.name,
                     variant_name := some variant.name,
                     quantity := payload.quantity,
                     price := variant_price,
                     image := variant.image }],
                 { db1 with nextId := db1.nextId + 1 })
            let cart2 := { cart with items := merged.1 }
            match deduct_variant_quantity merged.2 payload.product_id vid payload.quantity with
            | .error e => (merged.2, .error e)
            | .ok db2 =>
              let cart3 := recalculate_total { cart2 with updated_at := some now }
              let db3 := { db2 with carts := cartsUpdateOne cart3.cid cart3 db2.carts }
              let db4 := upsertCustomer now payload.user_id db3
              (db4, .ok cart3)

/-- Set the quantity of the first item with the given id (the in-place
mutation of the item found by `next(...)` in `update_cart_item`). -/
def setFirstItemQty (item_id : Nat) (q : Int) : List CartItem → List CartItem
  | [] => []
  | it :: its =>
    if it.id == item_id then { it with quantity := q } :: its
    else it :: setFirstItemQty item_id q its

/-- `PATCH /cart/item` (`update_cart_item`): locate the item, adjust stock by
the quantity difference (deduct on an increase after an availability check,
restore on a decrease; id-parse errors and missing products or variants are
silently skipped), then set the item quantity, recompute the total and
persist the cart. -/
def update_cart_item (now : Nat) (payload : UpdateCartItemRequest) (db : DB) :
    DB × Except ApiError CartDoc :=
  let r := get_cart_document now db payload.user_id
  let cart := r.1
  let db1 := r.2
  match cart.items.find? (fun it => it.id == payload.item_id) with
  | none => (db1, .error { status_code := 404, detail := "item not in cart" })
  | some item =>
    let old_quantity := item.quantity
    let quantity_diff := payload.quantity - old_quantity
    let adjusted : DB × Option ApiError :=
      if truthy item.variant_id && quantity_diff ≠ 0 then
        match as_object_id item.product_id with
        | none => (db1, none)
        | some product_oid =>
          match db1.products.find? (fun p => p.oid == product_oid) with
          | none => (db1, none)
          | some product =>
            let ivid := item.variant_id.getD ""
            match product.variants.find? (fun v => v.id == ivid) with
            | none => (db1, none)
            | some variant =>
              if 0 < quantity_diff then
                if variant.quantity < quantity_diff then
                  (db1, some { status_code := 400, detail := "insufficient stock" })
                else
                  match deduct_variant_quantity db1 item.product_id ivid quantity_diff with
                  | .ok db2 => (db2, none)
                  | .error e => (db1, some e)
              else
                (restore_variant_quantity db1 item.product_id ivid (-quantity_diff), none)
      else (db1, none)
    match adjusted.2 with
    | some e => (adjusted.1, .error e)
    | none =>
      let cart2 :=
        recalculate_total
          { cart with items := setFirstItemQty payload.item_id payload.quantity cart.items,
                      updated_at := some now }
      ({ adjusted.1 with carts := cartsUpdateOne cart2.cid cart2 adjusted.1.carts }, .ok cart2)

/-- `DELETE /cart/item` (`remove_from_cart`): restore the removed item's full
reserved quantity when it carries a variant id, drop every item with the given
id from the list, recompute the total and persist the cart. -/
def remove_from_cart (now : Nat) (payload : RemoveFromCartRequest) (db : DB) :
    DB × Except ApiError CartDoc :=
  let r := get_cart_document now db payload.user_id
  let cart := r.1
  let db1 := r.2
  match cart.items.find? (fun it => it.id == payload.item_id) with
  | none => (db1, .error { status_code := 404, detail := "item not in cart" })
  | some item_to_remove =>
    let db2 :=
      if truthy item_to_remove.variant_id then
        restore_variant_quantity db1 item_to_remove.product_id
          (item_to_remove.variant_id.getD "") item_to_remove.quantity
      else db1
    let cart2 :=
      recalculate_total
        { cart with items := cart.items.filter (fun it => !(it.id == payload.item_id)),
                    updated_at := some now }
    ({ db2 with carts := cartsUpdateOne cart2.cid cart2 db2.carts }, .ok cart2)

/-- `GET /cart` (`get_cart`): run the expiry cleanup on the user's cart when
one exists, then fetch (or lazily create) the cart document. -/
def get_cart_endpoint (now : Nat) (user_id : Int) (db : DB) : DB × CartDoc :=
  let db1 :=
    match db.carts.find? (fun c => c.user_id == user_id) with
    | some cart => (cleanup_expired_cart now db cart).2
    | none => db
  let r := get_cart_document now db1 user_id
  (r.2, r.1)

/-! ## Order statuses and routers/orders.py -/

/-- Modelled from the spec: the `OrderStatus` enumeration lives in the absent
pydantic schemas module; its values follow the spec's state list
new, processing, accepted, shipped, done, plus canceled. -/
def OrderStatus.NEW : String := "new"

/-- Modelled from the spec: see `OrderStatus.NEW`. -/
def OrderStatus.PROCESSING : String := "processing"

/-- Modelled from the spec: see `OrderStatus.NEW`. -/
def OrderStatus.ACCEPTED : String := "accepted"

/-- Modelled from the spec: see `OrderStatus.NEW`. -/
def OrderStatus.SHIPPED : String := "shipped"

/-- Modelled from the spec: see `OrderStatus.NEW`. -/
def OrderStatus.DONE : String := "done"

/-- Modelled from the spec: see `OrderStatus.NEW`. -/
def OrderStatus.CANCELED : String := "canceled"

/-- `orders.get_cart`: the user's cart, or `None` when absent or item-less. -/
def orders_get_cart (db : DB) (user_id : Int) : Option CartDoc :=
  match db.carts.find? (fun c => c.user_id == user_id) with
  | none => none
  | some cart => if cart.items.isEmpty then none else some cart

/-- Modelled from the spec: `ensure_store_is_awake` is imported by the order
router from `utils` but absent from the sources; per the spec's Store Status
component it rejects order placement while the store is in sleep mode. -/
def ensure_store_is_awake (db : DB) : Except ApiError Unit :=
  if db.storeSleeping then .error { status_code := 503, detail := "store sleeping" }
  else .ok ()

/-- Modelled from the spec: the order-placement request; `receipt_ok` stands
for the uploaded receipt passing `_save_payment_receipt`'s MIME-type,
non-emptiness and size checks (byte-level I/O is not modelled). -/
structure CreateOrderRequest where
  user_id : Int
  name : String
  phone : String
  address : String
  comment : Option String
  receipt_ok : Bool
deriving Repr, DecidableEq

/-- `_save_payment_receipt`: validate the upload, store the blob in GridFS and
return its file id. -/
def save_payment_receipt (db : DB) (req : CreateOrderRequest) :
    DB × Except ApiError Nat :=
  if !req.receipt_ok then
    (db, .error { status_code := 400, detail := "bad receipt file" })
  else
    let fid := db.nextId
    ({ db with blobs := db.blobs ++ [fid], nextId := db.nextId + 1 }, .ok fid)

/-- The defensive re-validation loop of `create_order`: an error is raised iff
some cart item with a truthy `variant_id`, a parseable product id, an existing
product and an existing variant has a negative variant quantity. -/
def negativeStockCheckTrips (db : DB) (items : List CartItem) : Bool :=
  items.any (fun it =>
    truthy it.variant_id &&
      (match as_object_id it.product_id with
       | none => false
       | some oid =>
         match db.products.find? (fun p => p.oid == oid) with
         | none => false
         | some product =>
           match product.variants.find? (fun v => v.id == it.variant_id.getD "") with
           | none => false
           | some variant => variant.quantity < 0))

/-- `POST /order` (`create_order`): require an awake store and a non-empty
cart, re-validate stock non-negativity without re-decrementing, store the
receipt blob, insert the order (status `processing`, frozen cart items,
`can_edit_address = true`), then delete the source cart. `insertFails` models
the order insertion raising: the stored blob is deleted and the error
propagates with the cart untouched. -/
def create_order (now : Nat) (req : CreateOrderRequest) (insertFails : Bool) (db : DB) :
    DB × Except ApiError OrderDoc :=
  match ensure_store_is_awake db with
  | .error e => (db, .error e)
  | .ok _ =>
    match orders_get_cart db req.user_id with
    | none => (db, .error { status_code := 400, detail := "cart is empty" })
    | some cart =>
      if negativeStockCheckTrips db cart.items then
        (db, .error { status_code := 400, detail := "item no longer available" })
      else
        match save_payment_receipt db req with
        | (db1, .error e) => (db1, .error e)
        | (db1, .ok fid) =>
          if insertFails then
            ({ db1 with blobs := db1.blobs.filter (fun b => !(b == fid)) },
             .error { status_code := 500, detail := "order insert failed" })
          else
            let order : OrderDoc :=
              { oid := db1.nextId,
                user_id := req.user_id,
                status := OrderStatus.PROCESSING,
                items := cart.items,
                total_amount := cart.total_amount,
                can_edit_address := true,
                delivery_address := req.address,
                created_at := now,
                updated_at := now,
                receipt_file_id := fid }
            let db2 := { db1 with orders := db1.orders ++ [order], nextId := db1.nextId + 1 }
            let db3 := { db2 with carts := cartsDeleteOne cart.cid db2.carts }
            (db3, .ok order)

/-- Modelled from the spec: request payload of `PATCH /order/.../address`. -/
structure UpdateAddressRequest where
  address : String
deriving Repr, DecidableEq

/-- Rewrite the first order with the given id (the `find_one_and_update`
`$set`). -/
def ordersUpdateOne (oid : Nat) (newDoc : OrderDoc) : List OrderDoc → List OrderDoc
  | [] => []
  | o :: os => if o.oid == oid then newDoc :: os else o :: ordersUpdateOne oid newDoc os

/-- `PATCH /order/.../address` (`update_order_address`): 404 unless the order
exists and belongs to the caller; a domain error unless the status is in the
editable set (`processing` only); otherwise set the address. -/
def update_order_address (now : Nat) (order_id : Nat) (current_user : Int)
    (payload : UpdateAddressRequest) (db : DB) : DB × Except ApiError OrderDoc :=
  match db.orders.find? (fun o => o.oid == order_id) with
  | none => (db, .error { status_code := 404, detail := "order not found" })
  | some doc =>
    if !(doc.user_id == current_user) then
      (db, .error { status_code := 404, detail := "order not found" })
    else if !(doc.status == OrderStatus.PROCESSING) then
      (db, .error { status_code := 400, detail := "address can no longer be edited" })
    else
      let updated :=
        { doc with delivery_address := payload.address, updated_at := now,
                   can_edit_address := true }
      ({ db with orders := ordersUpdateOne order_id updated db.orders }, .ok updated)

/-! ## routers/admin.py (status endpoint) and routers/bot_webhook.py -/

/-- `PATCH /admin/order/.../status` (`update_order_status`): when the order is
being canceled from a non-canceled state, first restore every variant-bearing
item to stock, then write the new status, `updated_at` and the recomputed
`can_edit_address`; no transition is ever rejected. -/
def update_order_status (now : Nat) (order_id : Nat) (new_status : String) (db : DB) :
    DB × Except ApiError OrderDoc :=
  match db.orders.find? (fun o => o.oid == order_id) with
  | none => (db, .error { status_code := 404, detail := "order not found" })
  | some old_doc =>
    let old_status := old_doc.status
    let db1 :=
      if new_status == OrderStatus.CANCELED && !(old_status == OrderStatus.CANCELED) then
        restore_items db old_doc.items
      else db
    let can_edit :=
      new_status == OrderStatus.NEW || new_status == OrderStatus.PROCESSING
    match db1.orders.find? (fun o => o.oid == order_id) with
    | none => (db1, .error { status_code := 404, detail := "order not found" })
    | some cur =>
      let updated :=
        { cur with status := new_status, updated_at := now, can_edit_address := can_edit }
      ({ db1 with orders := ordersUpdateOne order_id updated db1.orders }, .ok updated)

/-- The structured content of a bot-webhook callback (the `callback_data`
string formats `status|{id}|{status}`, `accept_order_{id}` and
`cancel_order_{id}`, already split at their separators). -/
inductive BotCallback where
  | status (order_id : Nat) (new_status : String)
  | accept (order_id : Nat)
  | cancel (order_id : Nat)
deriving Repr, DecidableEq

/-- The webhook handler's outcome: an order update, or an answered callback
with no order change. -/
inductive BotOutcome where
  | updated (doc : OrderDoc)
  | rejected (msg : String)
deriving Repr, DecidableEq

/-- The valid-status set checked by the `status|` callback branch. -/
def validStatuses : List String :=
  [OrderStatus.NEW, OrderStatus.PROCESSING, OrderStatus.ACCEPTED,
   OrderStatus.SHIPPED, OrderStatus.DONE, OrderStatus.CANCELED]

/-- `POST /bot/webhook` (`handle_bot_webhook`), order-callback logic: admins
only; the `status|` branch validates the status, no-ops when it equals the
current one, restores stock when canceling a non-canceled order and writes the
status; the legacy `accept_order_` branch unconditionally marks the order
accepted; the legacy `cancel_order_` branch refuses shipped, done and already
canceled orders, otherwise restores every variant-bearing item and cancels. -/
def handle_bot_webhook (now : Nat) (is_admin : Bool) (cb : BotCallback) (db : DB) :
    DB × BotOutcome :=
  if !is_admin then (db, .rejected "not an admin")
  else
    match cb with
    | .status order_id new_status =>
      match db.orders.find? (fun o => o.oid == order_id) with
      | none => (db, .rejected "order not found")
      | some doc =>
        if !(validStatuses.contains new_status) then (db, .rejected "invalid status")
        else if doc.status == new_status then (db, .rejected "status unchanged")
        else
          let db1 :=
            if new_status == OrderStatus.CANCELED && !(doc.status == OrderStatus.CANCELED)
            then restore_items db doc.items
            else db
          let can_edit :=
            new_status == OrderStatus.NEW || new_status == OrderStatus.PROCESSING
          match db1.orders.find? (fun o => o.oid == order_id) with
          | none => (db1, .rejected "update failed")
          | some cur =>
            let updated :=
              { cur with status := new_status, updated_at := now,
                         can_edit_address := can_edit }
            ({ db1 with orders := ordersUpdateOne order_id updated db1.orders },
             .updated updated)
    | .accept order_id =>
      match db.orders.find? (fun o => o.oid == order_id) with
      | none => (db, .rejected "order not found")
      | some cur =>
        let updated :=
          { cur with status := OrderStatus.ACCEPTED, updated_at := now,
                     can_edit_address := false }
        ({ db with orders := ordersUpdateOne order_id updated db.orders },
         .updated updated)
    | .cancel order_id =>
      match db.orders.find? (fun o => o.oid == order_id) with
      | none => (db, .rejected "order not found")
      | some doc =>
        if doc.status == OrderStatus.SHIPPED || doc.status == OrderStatus.DONE ||
            doc.status == OrderStatus.CANCELED then
          (db, .rejected "order can no longer be canceled")
        else
          let db1 := restore_items db doc.items
          match db1.orders.find? (fun o => o.oid == order_id) with
          | none => (db1, .rejected "update failed")
          | some cur =>
            let updated :=
              { cur with status := OrderStatus.CANCELED, updated_at := now,
                         can_edit_address := false }
            ({ db1 with orders := ordersUpdateOne order_id updated db1.orders },
             .updated updated)

/-! ## The cart/order operations as a transition system -/

/-- One invocation of a cart/order endpoint, carrying the wall-clock instant
(`datetime.utcnow()`) at which it runs and, for order creation, whether the
order insertion raises. -/
inductive Op where
  | getCart (now : Nat) (user_id : Int)
  | addItem (now : Nat) (payload : AddToCartRequest)
  | updateItem (now : Nat) (payload : UpdateCartItemRequest)
  | removeItem (now : Nat) (payload : RemoveFromCartRequest)
  | createOrder (now : Nat) (req : CreateOrderRequest) (insertFails : Bool)
  | adminSetStatus (now : Nat) (order_id : Nat) (new_status : String)
  | botCallback (now : Nat) (is_admin : Bool) (cb : BotCallback)
  | updateAddress (now : Nat) (order_id : Nat) (user : Int) (payload : UpdateAddressRequest)
deriving Repr, DecidableEq

/-- The state reached after an endpoint invocation (error responses keep the
side effects that had already been persisted when the handler aborted). -/
def applyOp (db : DB) : Op → DB
  | .getCart now user_id => (get_cart_endpoint now user_id db).1
  | .addItem now payload => (add_to_cart now payload db).1
  | .updateItem now payload => (update_cart_item now payload db).1
  | .removeItem now payload => (remove_from_cart now payload db).1
  | .createOrder now req insertFails => (create_order now req insertFails db).1
  | .adminSetStatus now order_id new_status => (update_order_status now order_id new_status db).1
  | .botCallback now is_admin cb => (handle_bot_webhook now is_admin cb db).1
  | .updateAddress now order_id user payload =>
    (update_order_address now order_id user payload db).1

/-- Run a sequence of endpoint invocations. -/
def runOps (db : DB) (ops : List Op) : DB :=
  ops.foldl applyOp db

/-! ## Stock-conservation measures -/

/-- Summed quantity of the variants with id `vid` in a variant array. -/
def varSum (vs : List Variant) (vid : String) : Int :=
  ((vs.filter (fun v => v.id == vid)).map Variant.quantity).sum

/-- Stored stock of the variant key `(pid, vid)` in a products list. -/
def stockL (ps : List ProductDoc) (pid vid : String) : Int :=
  ((ps.filter (fun p => p.oid == pid)).map (fun p => varSum p.variants vid)).sum

/-- Stored stock of the variant key `(pid, vid)`: the summed quantity of every
variant with id `vid` embedded in every product with id `pid`. -/
def stockQty (db : DB) (pid vid : String) : Int :=
  stockL db.products pid vid

/-- Whether a cart or order item reserves the variant key `(pid, vid)`. -/
def itemMatchesKey (pid vid : String) (it : CartItem) : Bool :=
  it.product_id == pid && it.variant_id == some vid

/-- Quantity of the variant key reserved by a list of items. -/
def itemsQty (items : List CartItem) (pid vid : String) : Int :=
  ((items.filter (itemMatchesKey pid vid)).map CartItem.quantity).sum

/-- Quantity of the variant key reserved across every persisted cart. -/
def cartsQty (db : DB) (pid vid : String) : Int :=
  (db.carts.map (fun c => itemsQty c.items pid vid)).sum

/-- Quantity of the variant key frozen in non-canceled orders. -/
def ordersQty (db : DB) (pid vid : String) : Int :=
  ((db.orders.filter (fun o => !(o.status == OrderStatus.CANCELED))).map
    (fun o => itemsQty o.items pid vid)).sum

/-- The conserved total of a variant key: stored stock plus cart reservations
plus non-canceled order reservations. -/
def totalQty (db : DB) (pid vid : String) : Int :=
  stockQty db pid vid + cartsQty db pid vid + ordersQty db pid vid

/-- A cart expired in the sense of the specification's wording: idle for more
than ten minutes at instant `now`. -/
def cartExpired (now : Nat) (c : CartDoc) : Bool :=
  (c.updated_at.getD (c.created_at.getD now)) + CART_EXPIRY_MINUTES * 60 < now

/-- Reserved quantity counting only carts that are not expired at `now` (the
specification's phrasing of the conservation law). -/
def cartsQtyNonExpired (db : DB) (now : Nat) (pid vid : String) : Int :=
  ((db.carts.filter (fun c => !cartExpired now c)).map
    (fun c => itemsQty c.items pid vid)).sum

/-- The claimed conserved total with only non-expired carts counted. -/
def totalQtyNonExpired (db : DB) (now : Nat) (pid vid : String) : Int :=
  stockQty db pid vid + cartsQtyNonExpired db now pid vid + ordersQty db pid vid

/-- A successful restore target in a products list: the key's product id
parses and the first product carrying that id embeds a variant with that id. -/
def hitsL (ps : List ProductDoc) (pid vid : String) : Bool :=
  ((as_object_id pid).bind (fun oid => ps.find? (fun p => p.oid == oid))).elim false
    (fun p => p.variants.any (fun v => v.id == vid))

/-- A successful restore target: the key's product id parses and the first
product carrying that id embeds a variant with that id, so that
`restore_variant_quantity` actually credits the key. -/
def restoreHits (db : DB) (pid vid : String) : Bool :=
  hitsL db.products pid vid

/-- Auxiliary well-formedness of a state, preserved by every operation and
holding in any freshly-seeded deployment: distinct cart ids, distinct item ids
within each cart, counter-fresh generated ids, positive item quantities, and
every variant-bearing cart or order item referencing a live variant. -/
def Wf (db : DB) : Prop :=
  (db.carts.map CartDoc.cid).Nodup ∧
  (∀ c ∈ db.carts, (c.items.map CartItem.id).Nodup) ∧
  (∀ c ∈ db.carts, c.cid < db.nextId) ∧
  (∀ c ∈ db.carts, ∀ it ∈ c.items, it.id < db.nextId) ∧
  (∀ c ∈ db.carts, ∀ it ∈ c.items, 0 < it.quantity) ∧
  (∀ o ∈ db.orders, ∀ it ∈ o.items, 0 < it.quantity) ∧
  (∀ c ∈ db.carts, ∀ it ∈ c.items,
    truthy it.variant_id → restoreHits db it.product_id (it.variant_id.getD "") = true) ∧
  (∀ o ∈ db.orders, ∀ it ∈ o.items,
    truthy it.variant_id → restoreHits db it.product_id (it.variant_id.getD "") = true)

instance (db : DB) : Decidable (Wf db) := by
  unfold Wf; infer_instance

/-- Whether the operation, applied at `db`, writes a non-canceled status onto
an order whose current status is `canceled` (the one transition the admin and
bot entry points permit that re-animates a canceled order). -/
def revivesCanceled (db : DB) : Op → Bool
  | .adminSetStatus _ order_id new_status =>
    (match db.orders.find? (fun o => o.oid == order_id) with
     | none => false
     | some o => o.status == OrderStatus.CANCELED && !(new_status == OrderStatus.CANCELED))
  | .botCallback _ is_admin cb =>
    is_admin &&
      (match cb with
       | .status order_id new_status =>
         (match db.orders.find? (fun o => o.oid == order_id) with
          | none => false
          | some o =>
            validStatuses.contains new_status && !(o.status == new_status) &&
              o.status == OrderStatus.CANCELED)
       | .accept order_id =>
         (match db.orders.find? (fun o => o.oid == order_id) with
          | none => false
          | some o => o.status == OrderStatus.CANCELED)
       | .cancel _ => false)
  | _ => false

/-- Modelled from the spec: the pydantic request schemas (absent from the
sources) validate requested quantities; an operation is well-formed when its
requested quantity is positive. -/
def posOp : Op → Bool
  | .addItem _ payload => decide (0 < payload.quantity)
  | .updateItem _ payload => decide (0 < payload.quantity)
  | _ => true

/-- A trace whose requests carry positive quantities and that never applies a
status update moving an order out of `canceled`. -/
def safeTrace (db : DB) : List Op → Bool
  | [] => true
  | op :: ops => posOp op && !revivesCanceled db op && safeTrace (applyOp db op) ops

/-! ## Lemmas: products-array surgery -/

theorem varSum_cons (v : Variant) (vs : List Variant) (w : String) :
    varSum (v :: vs) w = (if v.id == w then v.quantity else 0) + varSum vs w := by
  by_cases h : (v.id == w) = true <;> simp [varSum, List.filter_cons, h]

theorem stockL_cons (p : ProductDoc) (ps : List ProductDoc) (pid vid : String) :
    stockL (p :: ps) pid vid =
      (if p.oid == pid then varSum p.variants vid else 0) + stockL ps pid vid := by
  by_cases h : (p.oid == pid) = true <;> simp [stockL, List.filter_cons, h]

theorem incFirstMatch_ids (vid : String) (g : Option Int) (diff : Int) :
    ∀ vs vs', incFirstMatch vid g diff vs = some vs' →
      vs'.map Variant.id = vs.map Variant.id := by
  intro vs
  induction vs with
  | nil => intro vs' h; simp [incFirstMatch] at h
  | cons v rest ih =>
    intro vs' h
    by_cases hg : elemGuard vid g v
    · simp [incFirstMatch, hg] at h
      subst h; simp
    · simp [incFirstMatch, hg] at h
      obtain ⟨tail, htail, rfl⟩ := h
      simp [ih tail htail]

theorem incFirstMatch_varSum (vid : String) (g : Option Int) (diff : Int) :
    ∀ vs vs', incFirstMatch vid g diff vs = some vs' →
      ∀ w, varSum vs' w = varSum vs w + (if vid == w then diff else 0) := by
  intro vs
  induction vs with
  | nil => intro vs' h; simp [incFirstMatch] at h
  | cons v rest ih =>
    intro vs' h w
    by_cases hg : elemGuard vid g v
    · have hid : v.id = vid := by
        have := hg
        simp [elemGuard] at this
        exact this.1
      simp [incFirstMatch, hg] at h
      subst h
      rw [varSum_cons, varSum_cons]
      by_cases hw : (vid == w) = true
      · have : v.id == w := by rw [hid]; exact hw
        simp [this, hw]
        ring
      · have : (v.id == w) = false := by
          rw [hid]; simpa using hw
        simp [this, hw]
    · simp [incFirstMatch, hg] at h
      obtain ⟨tail, htail, rfl⟩ := h
      rw [varSum_cons, varSum_cons, ih tail htail w]
      ring

theorem incFirstMatch_isSome (vid : String) (diff : Int) :
    ∀ vs : List Variant, vs.any (fun v => v.id == vid) = true →
      ∃ vs', incFirstMatch vid none diff vs = some vs' := by
  intro vs
  induction vs with
  | nil => intro h; simp at h
  | cons v rest ih =>
    intro h
    by_cases hg : elemGuard vid none v
    · exact ⟨{ v with quantity := v.quantity + diff } :: rest, by simp [incFirstMatch, hg]⟩
    · have hv : (v.id == vid) = false := by
        by_contra hc
        simp only [Bool.not_eq_false] at hc
        exact hg (by simp [elemGuard, hc])
      have hrest : rest.any (fun v => v.id == vid) = true := by
        simpa [List.any_cons, hv] using h
      obtain ⟨tail, htail⟩ := ih hrest
      exact ⟨v :: tail, by simp [incFirstMatch, hg, htail]⟩

theorem productsUpdateIncFirst_sig (oid vid : String) (g : Option Int) (diff : Int) :
    ∀ ps ps', productsUpdateIncFirst oid vid g diff ps = some ps' →
      ps'.map (fun p => (p.oid, p.variants.map Variant.id)) =
        ps.map (fun p => (p.oid, p.variants.map Variant.id)) := by
  intro ps
  induction ps with
  | nil => intro ps' h; simp [productsUpdateIncFirst] at h
  | cons p rest ih =>
    intro ps' h
    by_cases hp : (p.oid == oid) = true
    · rw [productsUpdateIncFirst, if_pos hp] at h
      cases hvs : incFirstMatch vid g diff p.variants with
      | some vs =>
        rw [hvs] at h
        simp at h
        subst h
        simp [incFirstMatch_ids vid g diff p.variants vs hvs]
      | none =>
        rw [hvs] at h
        simp at h
        obtain ⟨tail, htail, rfl⟩ := h
        simp [ih tail htail]
    · rw [productsUpdateIncFirst, if_neg hp] at h
      simp at h
      obtain ⟨tail, htail, rfl⟩ := h
      simp [ih tail htail]

theorem productsUpdateIncFirst_stockL (oid vid : String) (g : Option Int) (diff : Int) :
    ∀ ps ps', productsUpdateIncFirst oid vid g diff ps = some ps' →
      ∀ p0 v0, stockL ps' p0 v0 =
        stockL ps p0 v0 + (if oid == p0 && vid == v0 then diff else 0) := by
  intro ps
  induction ps with
  | nil => intro ps' h; simp [productsUpdateIncFirst] at h
  | cons p rest ih =>
    intro ps' h p0 v0
    by_cases hp : (p.oid == oid) = true
    · rw [productsUpdateIncFirst, if_pos hp] at h
      cases hvs : incFirstMatch vid g diff p.variants with
      | some vs =>
        rw [hvs] at h
        simp at h
        subst h
        rw [stockL_cons, stockL_cons]
        have hpo : p.oid = oid := by simpa using hp
        by_cases hpp : (oid == p0) = true
        · have : (p.oid == p0) = true := by rw [hpo]; exact hpp
          simp only [this, if_true, hpp, Bool.true_and]
          rw [incFirstMatch_varSum vid g diff p.variants vs hvs v0]
          by_cases hvv : (vid == v0) = true <;> (simp [hvv]; try ring)
        · have : (p.oid == p0) = false := by
            rw [hpo]; simpa using hpp
          simp [this, hpp]
      | none =>
        rw [hvs] at h
        simp at h
        obtain ⟨tail, htail, rfl⟩ := h
        rw [stockL_cons, stockL_cons, ih tail htail p0 v0]
        ring
    · rw [productsUpdateIncFirst, if_neg hp] at h
      simp at h
      obtain ⟨tail, htail, rfl⟩ := h
      rw [stockL_cons, stockL_cons, ih tail htail p0 v0]
      ring

theorem as_object_id_eq (s : String) : as_object_id s = none ∨ as_object_id s = some s := by
  unfold as_object_id
  split
  · exact Or.inr rfl
  · exact Or.inl rfl


theorem find?_cons_eq {α : Type} (p : α → Bool) (a : α) (l : List α) :
    (a :: l).find? p = if p a then some a else l.find? p := by
  by_cases h : p a = true
  · rw [if_pos h]
    exact List.find?_cons_of_pos l h
  · rw [if_neg h]
    exact List.find?_cons_of_neg l (by simpa using h)

theorem updateInc_isSome (oid vid : String) (q : Int) :
    ∀ ps : List ProductDoc, ∀ p, ps.find? (fun x => x.oid == oid) = some p →
      p.variants.any (fun v => v.id == vid) = true →
      ∃ ps', productsUpdateIncFirst oid vid none q ps = some ps' := by
  intro ps
  induction ps with
  | nil => intro p h _; simp at h
  | cons hd rest ih =>
    intro p h hany
    rw [find?_cons_eq] at h
    by_cases hp : (hd.oid == oid) = true
    · rw [if_pos hp] at h
      cases h
      obtain ⟨vs', hvs⟩ := incFirstMatch_isSome vid q hd.variants hany
      exact ⟨{ hd with variants := vs' } :: rest, by simp [productsUpdateIncFirst, hp, hvs]⟩
    · rw [if_neg hp] at h
      obtain ⟨tail, htail⟩ := ih p h hany
      refine ⟨hd :: tail, ?_⟩
      rw [productsUpdateIncFirst, if_neg hp, htail]
      rfl

/-- Every branch of the conditional update only rewrites `products`. -/
theorem update_variant_quantity_shape (db : DB) (p v : String) (d : Int) (ra : Bool) :
    ∃ ps, (update_variant_quantity db p v d ra).2 = { db with products := ps } := by
  unfold update_variant_quantity
  split
  · exact ⟨db.products, rfl⟩
  · cases hx : as_object_id p with
    | none => exact ⟨db.products, rfl⟩
    | some oid =>
      simp only
      cases hu : productsUpdateIncFirst oid v
          (if d < 0 && ra then some (-d) else none) d db.products with
      | none => exact ⟨db.products, rfl⟩
      | some ps => exact ⟨ps, rfl⟩

theorem restore_variant_quantity_shape (db : DB) (p v : String) (q : Int) :
    ∃ ps, restore_variant_quantity db p v q = { db with products := ps } := by
  unfold restore_variant_quantity
  split
  · exact ⟨db.products, rfl⟩
  · exact update_variant_quantity_shape db p v q false

theorem restore_items_cons (db : DB) (it : CartItem) (its : List CartItem) :
    restore_items db (it :: its) =
      restore_items
        (if truthy it.variant_id then
          restore_variant_quantity db it.product_id (it.variant_id.getD "") it.quantity
        else db) its := by
  by_cases h : truthy it.variant_id <;> simp [restore_items, List.foldl_cons, h]

theorem restore_items_shape (its : List CartItem) :
    ∀ db : DB, ∃ ps, restore_items db its = { db with products := ps } := by
  induction its with
  | nil => intro db; exact ⟨db.products, rfl⟩
  | cons it rest ih =>
    intro db
    rw [restore_items_cons]
    by_cases h : truthy it.variant_id
    · rw [if_pos h]
      obtain ⟨ps0, h0⟩ := restore_variant_quantity_shape db it.product_id
        (it.variant_id.getD "") it.quantity
      obtain ⟨ps1, h1⟩ := ih (restore_variant_quantity db it.product_id
        (it.variant_id.getD "") it.quantity)
      rw [h1, h0]
      exact ⟨ps1, rfl⟩
    · rw [if_neg h]
      exact ih db

/-- The stock effect of a successful restore: the hit key gains exactly the
restored quantity and every other key is untouched. -/
theorem restore_stockL (db : DB) (pid vid : String) (q : Int)
    (hq : 0 < q) (hhit : hitsL db.products pid vid = true) :
    ∀ p0 v0, stockL (restore_variant_quantity db pid vid q).products p0 v0 =
      stockL db.products p0 v0 + (if pid == p0 && vid == v0 then q else 0) := by
  intro p0 v0
  rcases as_object_id_eq pid with hx | hx
  · rw [hitsL, hx] at hhit; simp at hhit
  · rw [hitsL, hx] at hhit
    simp only [Option.some_bind] at hhit
    cases hf : db.products.find? (fun p => p.oid == pid) with
    | none => rw [hf] at hhit; simp at hhit
    | some p =>
      rw [hf] at hhit
      simp only [Option.elim_some] at hhit
      obtain ⟨ps', hps⟩ := updateInc_isSome pid vid q db.products p hf hhit
      have hne : ¬ q = 0 := by omega
      have huv : update_variant_quantity db pid vid q false =
          (true, { db with products := ps' }) := by
        unfold update_variant_quantity
        rw [if_neg hne, hx]
        simp [hps]
      rw [restore_variant_quantity, if_neg (by omega), huv]
      simpa using productsUpdateIncFirst_stockL pid vid none q db.products ps' hps p0 v0

theorem anyId_congr (vid : String) :
    ∀ vs vs' : List Variant, vs.map Variant.id = vs'.map Variant.id →
      vs.any (fun v => v.id == vid) = vs'.any (fun v => v.id == vid) := by
  intro vs
  induction vs with
  | nil =>
    intro vs' hvs
    cases vs' with
    | nil => rfl
    | cons _ _ => simp at hvs
  | cons v vrest vih =>
    intro vs' hvs
    cases vs' with
    | nil => simp at hvs
    | cons w wrest =>
      simp only [List.map_cons, List.cons.injEq] at hvs
      obtain ⟨hid, hrest⟩ := hvs
      simp [List.any_cons, hid, vih wrest hrest]

/-- Restore-hit facts only depend on the product/variant id signature. -/
theorem hitsL_congr (pid vid : String) :
    ∀ ps ps' : List ProductDoc,
      ps.map (fun p => (p.oid, p.variants.map Variant.id)) =
        ps'.map (fun p => (p.oid, p.variants.map Variant.id)) →
      hitsL ps pid vid = hitsL ps' pid vid := by
  intro ps
  induction ps with
  | nil =>
    intro ps' h
    cases ps' with
    | nil => rfl
    | cons q qs => simp at h
  | cons p rest ih =>
    intro ps' h
    cases ps' with
    | nil => simp at h
    | cons q qs =>
      simp only [List.map_cons, List.cons.injEq, Prod.mk.injEq] at h
      obtain ⟨⟨hoid, hids⟩, htail⟩ := h
      rcases as_object_id_eq pid with hx | hx
      · rw [hitsL, hitsL, hx]
        rfl
      · rw [hitsL, hitsL, hx]
        simp only [Option.some_bind]
        rw [find?_cons_eq, find?_cons_eq]
        by_cases hp : (p.oid == pid) = true
        · have hq : (q.oid == pid) = true := by rw [← hoid]; exact hp
          rw [if_pos hp, if_pos hq]
          simp only [Option.elim_some]
          exact anyId_congr vid p.variants q.variants hids
        · have hq : (q.oid == pid) = false := by
            rw [← hoid]; simpa using hp
          rw [if_neg hp, if_neg (by simp [hq])]
          have := ih qs htail
          rw [hitsL, hitsL, hx] at this
          simpa using this

theorem setFirstVariantQty_ids (vid : String) (q : Int) :
    ∀ vs : List Variant, (setFirstVariantQty vid q vs).map Variant.id = vs.map Variant.id := by
  intro vs
  induction vs with
  | nil => rfl
  | cons v rest ih =>
    by_cases h : (v.id == vid) = true <;> simp [setFirstVariantQty, h, ih]

theorem setFirstVariantQty_varSum (vid : String) (q : Int) :
    ∀ vs v, vs.find? (fun x => x.id == vid) = some v →
      ∀ w, varSum (setFirstVariantQty vid q vs) w =
        varSum vs w + (if vid == w then q - v.quantity else 0) := by
  intro vs
  induction vs with
  | nil => intro v h; simp at h
  | cons hd rest ih =>
    intro v h w
    rw [find?_cons_eq] at h
    by_cases hp : (hd.id == vid) = true
    · rw [if_pos hp] at h
      cases h
      rw [setFirstVariantQty, if_pos hp, varSum_cons, varSum_cons]
      have hid : hd.id = vid := by simpa using hp
      by_cases hw : (vid == w) = true
      · have hw2 : (hd.id == w) = true := by rw [hid]; exact hw
        simp only [hw, hw2, if_true]
        ring
      · have hw2 : (hd.id == w) = false := by rw [hid]; simpa using hw
        simp [hw, hw2]
    · rw [if_neg hp] at h
      rw [setFirstVariantQty, if_neg hp, varSum_cons, varSum_cons, ih v h w]
      ring

theorem productsSetVariants_sig (oid : String) :
    ∀ ps p, ps.find? (fun x => x.oid == oid) = some p →
      ∀ newVs : List Variant, newVs.map Variant.id = p.variants.map Variant.id →
        (productsSetVariants oid newVs ps).map (fun x => (x.oid, x.variants.map Variant.id)) =
          ps.map (fun x => (x.oid, x.variants.map Variant.id)) := by
  intro ps
  induction ps with
  | nil => intro p h; simp at h
  | cons hd rest ih =>
    intro p h newVs hids
    rw [find?_cons_eq] at h
    by_cases hp : (hd.oid == oid) = true
    · rw [if_pos hp] at h
      cases h
      rw [productsSetVariants, if_pos hp]
      simp [hids]
    · rw [if_neg hp] at h
      rw [productsSetVariants, if_neg hp]
      simp [ih p h newVs hids]

theorem productsSetVariants_stockL (oid : String) :
    ∀ ps p, ps.find? (fun x => x.oid == oid) = some p →
      ∀ (newVs : List Variant) (p0 v0 : String),
        stockL (productsSetVariants oid newVs ps) p0 v0 =
          stockL ps p0 v0 +
            (if oid == p0 then varSum newVs v0 - varSum p.variants v0 else 0) := by
  intro ps
  induction ps with
  | nil => intro p h; simp at h
  | cons hd rest ih =>
    intro p h newVs p0 v0
    rw [find?_cons_eq] at h
    by_cases hp : (hd.oid == oid) = true
    · rw [if_pos hp] at h
      cases h
      rw [productsSetVariants, if_pos hp, stockL_cons, stockL_cons]
      have hpo : hd.oid = oid := by simpa using hp
      by_cases hpp : (oid == p0) = true
      · have h2 : (hd.oid == p0) = true := by rw [hpo]; exact hpp
        simp only [h2, if_true, hpp]
        ring
      · have h2 : (hd.oid == p0) = false := by rw [hpo]; simpa using hpp
        simp [h2, hpp]
    · rw [if_neg hp] at h
      rw [productsSetVariants, if_neg hp, stockL_cons, stockL_cons, ih p h newVs p0 v0]
      ring

/-- A successful add-to-cart-time deduction debits exactly the requested
quantity from the key it targets and leaves id signatures intact. -/
theorem deduct_spec (db : DB) (pid vid : String) (q : Int) (product : ProductDoc)
    (variant : Variant)
    (hx : as_object_id pid = some pid)
    (hfind : db.products.find? (fun p => p.oid == pid) = some product)
    (hvar : product.variants.find? (fun v => v.id == vid) = some variant)
    (hok : ¬ variant.quantity < q) :
    deduct_variant_quantity db pid vid q =
      .ok { db with
            products :=
              productsSetVariants pid
                (setFirstVariantQty vid (variant.quantity - q) product.variants)
                db.products } := by
  rw [deduct_variant_quantity, hx]
  simp only [hfind, hvar, if_neg hok]

/-- Insufficient first-match stock aborts the deduction with the
insufficient-stock error. -/
theorem deduct_insufficient (db : DB) (pid vid : String) (q : Int) (product : ProductDoc)
    (variant : Variant)
    (hx : as_object_id pid = some pid)
    (hfind : db.products.find? (fun p => p.oid == pid) = some product)
    (hvar : product.variants.find? (fun v => v.id == vid) = some variant)
    (hlow : variant.quantity < q) :
    deduct_variant_quantity db pid vid q =
      .error { status_code := 400, detail := "insufficient stock" } := by
  rw [deduct_variant_quantity, hx]
  simp only [hfind, hvar, if_pos hlow]

theorem update_variant_quantity_sig (db : DB) (p v : String) (d : Int) (ra : Bool) :
    ((update_variant_quantity db p v d ra).2).products.map
        (fun x => (x.oid, x.variants.map Variant.id)) =
      db.products.map (fun x => (x.oid, x.variants.map Variant.id)) := by
  unfold update_variant_quantity
  split
  · rfl
  · cases hx : as_object_id p with
    | none => rfl
    | some oid =>
      simp only
      cases hu : productsUpdateIncFirst oid v
          (if d < 0 && ra then some (-d) else none) d db.products with
      | none => rfl
      | some ps => exact productsUpdateIncFirst_sig oid v _ d db.products ps hu

theorem restore_variant_quantity_sig (db : DB) (p v : String) (q : Int) :
    (restore_variant_quantity db p v q).products.map
        (fun x => (x.oid, x.variants.map Variant.id)) =
      db.products.map (fun x => (x.oid, x.variants.map Variant.id)) := by
  unfold restore_variant_quantity
  split
  · rfl
  · exact update_variant_quantity_sig db p v q false

theorem restore_items_sig (its : List CartItem) :
    ∀ db : DB, (restore_items db its).products.map
        (fun x => (x.oid, x.variants.map Variant.id)) =
      db.products.map (fun x => (x.oid, x.variants.map Variant.id)) := by
  induction its with
  | nil => intro db; rfl
  | cons it rest ih =>
    intro db
    rw [restore_items_cons]
    by_cases h : truthy it.variant_id
    · rw [if_pos h, ih]
      exact restore_variant_quantity_sig db it.product_id (it.variant_id.getD "") it.quantity
    · rw [if_neg h]
      exact ih db

theorem itemsQty_cons (it : CartItem) (its : List CartItem) (p0 v0 : String) :
    itemsQty (it :: its) p0 v0 =
      (if itemMatchesKey p0 v0 it then it.quantity else 0) + itemsQty its p0 v0 := by
  by_cases h : itemMatchesKey p0 v0 it <;> simp [itemsQty, List.filter_cons, h]

theorem itemsQty_append (l1 l2 : List CartItem) (p0 v0 : String) :
    itemsQty (l1 ++ l2) p0 v0 = itemsQty l1 p0 v0 + itemsQty l2 p0 v0 := by
  simp [itemsQty, List.filter_append]

/-- The stock effect of the shared restore loop: under live restore targets and
positive quantities, every key gains exactly the quantity its matching items
carry (keys with an empty variant id are out of scope of the loop). -/
theorem restore_items_stockL (its : List CartItem) :
    ∀ db : DB,
      (∀ it ∈ its, truthy it.variant_id →
        hitsL db.products it.product_id (it.variant_id.getD "") = true) →
      (∀ it ∈ its, 0 < it.quantity) →
      ∀ p0 v0, v0 ≠ "" →
        stockL (restore_items db its).products p0 v0 =
          stockL db.products p0 v0 + itemsQty its p0 v0 := by
  induction its with
  | nil => intro db _ _ p0 v0 _; simp [restore_items, itemsQty]
  | cons it rest ih =>
    intro db hhits hpos p0 v0 hv0
    rw [restore_items_cons, itemsQty_cons]
    by_cases h : truthy it.variant_id
    · rw [if_pos h]
      set db1 := restore_variant_quantity db it.product_id (it.variant_id.getD "") it.quantity
        with hdb1
      have hsig : db1.products.map (fun x => (x.oid, x.variants.map Variant.id)) =
          db.products.map (fun x => (x.oid, x.variants.map Variant.id)) :=
        restore_variant_quantity_sig db it.product_id (it.variant_id.getD "") it.quantity
      have hrest : ∀ x ∈ rest, truthy x.variant_id →
          hitsL db1.products x.product_id (x.variant_id.getD "") = true := by
        intro x hx ht
        rw [hitsL_congr _ _ db1.products db.products hsig]
        exact hhits x (List.mem_cons_of_mem it hx) ht
      have hstep : ∀ q0 w0, stockL db1.products q0 w0 =
          stockL db.products q0 w0 +
            (if it.product_id == q0 && (it.variant_id.getD "") == w0 then it.quantity else 0) :=
        restore_stockL db it.product_id (it.variant_id.getD "") it.quantity
          (hpos it (List.mem_cons_self it rest))
          (hhits it (List.mem_cons_self it rest) h)
      rw [ih db1 hrest (fun x hx => hpos x (List.mem_cons_of_mem it hx)) p0 v0 hv0, hstep p0 v0]
      have hkey : (if it.product_id == p0 && (it.variant_id.getD "") == v0
            then it.quantity else 0) =
          (if itemMatchesKey p0 v0 it then it.quantity else 0) := by
        cases hvid : it.variant_id with
        | none => simp [truthy, hvid] at h
        | some w =>
          simp only [hvid, Option.getD_some]
          by_cases hw : (w == v0) = true
          · have : (it.variant_id == some v0) = true := by
              rw [hvid]
              simpa using hw
            simp [itemMatchesKey, hvid, hw, this]
          · have : (some w == some v0) = false := by simpa using hw
            simp [itemMatchesKey, hvid, hw, this]
      rw [hkey]
      ring
    · rw [if_neg h]
      have hzero : itemMatchesKey p0 v0 it = false := by
        cases hvid : it.variant_id with
        | none => simp [itemMatchesKey, hvid]
        | some w =>
          have hw : w = "" := by
            by_contra hw
            exact h (by simp [truthy, hvid, hw])
          subst hw
          have hne : some "" ≠ some v0 := by
            intro hc
            exact hv0 (Option.some.inj hc).symm
          have hfalse : (some "" == some v0) = false := beq_eq_false_iff_ne.mpr hne
          simp [itemMatchesKey, hvid, hfalse]
      rw [hzero, if_neg (by exact Bool.false_ne_true)]
      rw [ih db (fun x hx => hhits x (List.mem_cons_of_mem it hx))
        (fun x hx => hpos x (List.mem_cons_of_mem it hx)) p0 v0 hv0]
      ring

/-! ## Lemmas: cart and order collection surgery -/

theorem cartsSum_cons (c : CartDoc) (cs : List CartDoc) (p0 v0 : String) :
    ((c :: cs).map (fun x => itemsQty x.items p0 v0)).sum =
      itemsQty c.items p0 v0 + ((cs.map (fun x => itemsQty x.items p0 v0))).sum := by
  simp

theorem cartsSum_updateOne (newc : CartDoc) (p0 v0 : String) :
    ∀ (cs : List CartDoc) (c : CartDoc), (cs.map CartDoc.cid).Nodup → c ∈ cs →
      ((cartsUpdateOne c.cid newc cs).map (fun x => itemsQty x.items p0 v0)).sum =
        ((cs.map (fun x => itemsQty x.items p0 v0))).sum
          - itemsQty c.items p0 v0 + itemsQty newc.items p0 v0 := by
  intro cs
  induction cs with
  | nil => intro c _ hmem; simp at hmem
  | cons hd rest ih =>
    intro c hnd hmem
    simp only [List.map_cons, List.nodup_cons] at hnd
    obtain ⟨hhd, hrest⟩ := hnd
    rcases List.mem_cons.mp hmem with rfl | hmem2
    · rw [cartsUpdateOne, if_pos (by simp)]
      rw [cartsSum_cons, cartsSum_cons]
      ring
    · have hne : (hd.cid == c.cid) = false := by
        apply beq_eq_false_iff_ne.mpr
        intro hc
        exact hhd (hc ▸ List.mem_map_of_mem CartDoc.cid hmem2)
      rw [cartsUpdateOne, if_neg (by simp [hne])]
      rw [cartsSum_cons, cartsSum_cons, ih c hrest hmem2]
      ring

theorem cartsSum_deleteOne (p0 v0 : String) :
    ∀ (cs : List CartDoc) (c : CartDoc), (cs.map CartDoc.cid).Nodup → c ∈ cs →
      ((cartsDeleteOne c.cid cs).map (fun x => itemsQty x.items p0 v0)).sum =
        ((cs.map (fun x => itemsQty x.items p0 v0))).sum - itemsQty c.items p0 v0 := by
  intro cs
  induction cs with
  | nil => intro c _ hmem; simp at hmem
  | cons hd rest ih =>
    intro c hnd hmem
    simp only [List.map_cons, List.nodup_cons] at hnd
    obtain ⟨hhd, hrest⟩ := hnd
    rcases List.mem_cons.mp hmem with rfl | hmem2
    · rw [cartsDeleteOne, if_pos (by simp)]
      rw [cartsSum_cons]
      ring
    · have hne : (hd.cid == c.cid) = false := by
        apply beq_eq_false_iff_ne.mpr
        intro hc
        exact hhd (hc ▸ List.mem_map_of_mem CartDoc.cid hmem2)
      rw [cartsDeleteOne, if_neg (by simp [hne])]
      rw [cartsSum_cons, cartsSum_cons, ih c hrest hmem2]
      ring

theorem mem_cartsUpdateOne (cid : Nat) (newc : CartDoc) :
    ∀ cs x, x ∈ cartsUpdateOne cid newc cs → x = newc ∨ x ∈ cs := by
  intro cs
  induction cs with
  | nil => intro x hx; simp [cartsUpdateOne] at hx
  | cons hd rest ih =>
    intro x hx
    rw [cartsUpdateOne] at hx
    by_cases h : (hd.cid == cid) = true
    · rw [if_pos h] at hx
      rcases List.mem_cons.mp hx with rfl | hx2
      · exact Or.inl rfl
      · exact Or.inr (List.mem_cons_of_mem hd hx2)
    · rw [if_neg h] at hx
      rcases List.mem_cons.mp hx with rfl | hx2
      · exact Or.inr (List.mem_cons_self x rest)
      · rcases ih x hx2 with h1 | h2
        · exact Or.inl h1
        · exact Or.inr (List.mem_cons_of_mem hd h2)

theorem cartsDeleteOne_sublist (cid : Nat) : ∀ cs, List.Sublist (cartsDeleteOne cid cs) cs := by
  intro cs
  induction cs with
  | nil => simp [cartsDeleteOne]
  | cons hd rest ih =>
    rw [cartsDeleteOne]
    by_cases h : (hd.cid == cid) = true
    · rw [if_pos h]
      exact List.sublist_cons_of_sublist hd (List.Sublist.refl rest)
    · rw [if_neg h]
      exact List.Sublist.cons₂ hd ih

theorem cartsUpdateOne_map_cid (newc : CartDoc) :
    ∀ cs, (cartsUpdateOne newc.cid newc cs).map CartDoc.cid = cs.map CartDoc.cid := by
  intro cs
  induction cs with
  | nil => rfl
  | cons hd rest ih =>
    rw [cartsUpdateOne]
    by_cases h : (hd.cid == newc.cid) = true
    · rw [if_pos h]
      simp only [List.map_cons]
      have hcid : hd.cid = newc.cid := by simpa using h
      rw [← hcid]
    · rw [if_neg h]
      simp [ih]

theorem ordersSum_cons (o : OrderDoc) (os : List OrderDoc) (p0 v0 : String) :
    (((o :: os).filter (fun x => !(x.status == OrderStatus.CANCELED))).map
        (fun x => itemsQty x.items p0 v0)).sum =
      (if !(o.status == OrderStatus.CANCELED) then itemsQty o.items p0 v0 else 0) +
        ((os.filter (fun x => !(x.status == OrderStatus.CANCELED))).map
          (fun x => itemsQty x.items p0 v0)).sum := by
  by_cases h : (!(o.status == OrderStatus.CANCELED)) = true <;>
    simp [List.filter_cons, h]

theorem ordersSum_updateOne (newo : OrderDoc) (p0 v0 : String) :
    ∀ (os : List OrderDoc) (o : OrderDoc) (oid : Nat),
      os.find? (fun x => x.oid == oid) = some o →
      (((ordersUpdateOne oid newo os).filter
          (fun x => !(x.status == OrderStatus.CANCELED))).map
        (fun x => itemsQty x.items p0 v0)).sum =
        ((os.filter (fun x => !(x.status == OrderStatus.CANCELED))).map
          (fun x => itemsQty x.items p0 v0)).sum
          - (if !(o.status == OrderStatus.CANCELED) then itemsQty o.items p0 v0 else 0)
          + (if !(newo.status == OrderStatus.CANCELED) then itemsQty newo.items p0 v0 else 0) := by
  intro os
  induction os with
  | nil => intro o oid h; simp at h
  | cons hd rest ih =>
    intro o oid h
    rw [find?_cons_eq] at h
    by_cases hp : (hd.oid == oid) = true
    · rw [if_pos hp] at h
      cases h
      rw [ordersUpdateOne, if_pos hp, ordersSum_cons, ordersSum_cons]
      ring
    · rw [if_neg hp] at h
      rw [ordersUpdateOne, if_neg hp, ordersSum_cons, ordersSum_cons, ih o oid h]
      ring

theorem mem_ordersUpdateOne (oid : Nat) (newo : OrderDoc) :
    ∀ os x, x ∈ ordersUpdateOne oid newo os → x = newo ∨ x ∈ os := by
  intro os
  induction os with
  | nil => intro x hx; simp [ordersUpdateOne] at hx
  | cons hd rest ih =>
    intro x hx
    rw [ordersUpdateOne] at hx
    by_cases h : (hd.oid == oid) = true
    · rw [if_pos h] at hx
      rcases List.mem_cons.mp hx with rfl | hx2
      · exact Or.inl rfl
      · exact Or.inr (List.mem_cons_of_mem hd hx2)
    · rw [if_neg h] at hx
      rcases List.mem_cons.mp hx with rfl | hx2
      · exact Or.inr (List.mem_cons_self x rest)
      · rcases ih x hx2 with h1 | h2
        · exact Or.inl h1
        · exact Or.inr (List.mem_cons_of_mem hd h2)

/-- `cleanup_expired_cart` in closed form: the idle-time test is `cartExpired`. -/
theorem cleanup_eq (now : Nat) (db : DB) (cart : CartDoc) :
    cleanup_expired_cart now db cart =
      if cart.items.isEmpty then (false, db)
      else if cartExpired now cart then
        (true,
          { restore_items db cart.items with
            carts := cartsDeleteOne cart.cid (restore_items db cart.items).carts })
      else (false, db) := by
  unfold cleanup_expired_cart cartExpired
  cases cart.updated_at with
  | none => cases cart.created_at with
    | none => simp
    | some t => simp
  | some t => simp

/-- Deleting or inserting whole carts and restoring their items preserves the
conserved totals and the auxiliary invariants: the expiry cleanup is
stock-neutral. -/
theorem cleanup_preserves (now : Nat) (db : DB) (cart : CartDoc)
    (hwf : Wf db) (hmem : cart ∈ db.carts) :
    Wf (cleanup_expired_cart now db cart).2 ∧
    (∀ p0 v0, v0 ≠ "" →
      totalQty (cleanup_expired_cart now db cart).2 p0 v0 = totalQty db p0 v0) ∧
    (cleanup_expired_cart now db cart).2.products.map
        (fun x => (x.oid, x.variants.map Variant.id)) =
      db.products.map (fun x => (x.oid, x.variants.map Variant.id)) ∧
    (cleanup_expired_cart now db cart).2.orders = db.orders ∧
    (cleanup_expired_cart now db cart).2.nextId = db.nextId ∧
    ((cleanup_expired_cart now db cart).2.carts = db.carts ∨
      (cleanup_expired_cart now db cart).2.carts = cartsDeleteOne cart.cid db.carts) := by
  obtain ⟨w1, w2, w3, w4, w5, w6, w7, w8⟩ := hwf
  rw [cleanup_eq]
  by_cases he : cart.items.isEmpty = true
  · rw [if_pos he]
    exact ⟨⟨w1, w2, w3, w4, w5, w6, w7, w8⟩, fun _ _ _ => rfl, rfl, rfl, rfl, Or.inl rfl⟩
  · rw [if_neg he]
    by_cases ht : cartExpired now cart = true
    · rw [if_pos ht]
      obtain ⟨ps, hps⟩ := restore_items_shape cart.items db
      have hsig : (restore_items db cart.items).products.map
          (fun x => (x.oid, x.variants.map Variant.id)) =
          db.products.map (fun x => (x.oid, x.variants.map Variant.id)) :=
        restore_items_sig cart.items db
      have hcarts : (restore_items db cart.items).carts = db.carts := by rw [hps]
      have horders : (restore_items db cart.items).orders = db.orders := by rw [hps]
      have hnext : (restore_items db cart.items).nextId = db.nextId := by rw [hps]
      have hsub : List.Sublist (cartsDeleteOne cart.cid db.carts) db.carts :=
        cartsDeleteOne_sublist cart.cid db.carts
      have hsubmem : ∀ c, c ∈ cartsDeleteOne cart.cid db.carts → c ∈ db.carts :=
        fun c hc => hsub.mem hc
      refine ⟨⟨?_, ?_, ?_, ?_, ?_, ?_, ?_, ?_⟩, ?_, ?_, ?_, ?_, ?_⟩
      · simp only [hcarts]
        exact (List.Sublist.map CartDoc.cid hsub).nodup w1
      · intro c hc
        simp only [hcarts] at hc
        exact w2 c (hsubmem c hc)
      · intro c hc
        simp only [hcarts] at hc
        simp only [hnext]
        exact w3 c (hsubmem c hc)
      · intro c hc it hit
        simp only [hcarts] at hc
        simp only [hnext]
        exact w4 c (hsubmem c hc) it hit
      · intro c hc it hit
        simp only [hcarts] at hc
        exact w5 c (hsubmem c hc) it hit
      · intro o ho it hit
        simp only [horders] at ho
        exact w6 o ho it hit
      · intro c hc it hit htr
        simp only [hcarts] at hc
        unfold restoreHits
        simp only
        rw [hitsL_congr _ _ _ _ hsig]
        exact w7 c (hsubmem c hc) it hit htr
      · intro o ho it hit htr
        simp only [horders] at ho
        unfold restoreHits
        simp only
        rw [hitsL_congr _ _ _ _ hsig]
        exact w8 o ho it hit htr
      · intro p0 v0 hv0
        unfold totalQty stockQty cartsQty ordersQty
        simp only [hcarts, horders]
        rw [restore_items_stockL cart.items db
          (fun it hit htr => w7 cart hmem it hit htr)
          (fun it hit => w5 cart hmem it hit) p0 v0 hv0]
        rw [cartsSum_deleteOne p0 v0 db.carts cart w1 hmem]
        ring
      · exact hsig
      · exact horders
      · exact hnext
      · exact Or.inr (by rw [hcarts])
    · rw [if_neg ht]
      exact ⟨⟨w1, w2, w3, w4, w5, w6, w7, w8⟩, fun _ _ _ => rfl, rfl, rfl, rfl, Or.inl rfl⟩

/-- Inserting a counter-fresh empty cart keeps the auxiliary invariants. -/
theorem wf_insert_fresh (db : DB) (now : Nat) (uid : Int) (hwf : Wf db) :
    Wf { db with carts := db.carts ++ [freshCart now uid db.nextId],
                 nextId := db.nextId + 1 } := by
  obtain ⟨w1, w2, w3, w4, w5, w6, w7, w8⟩ := hwf
  refine ⟨?_, ?_, ?_, ?_, ?_, ?_, ?_, ?_⟩
  · simp only [List.map_append]
    rw [List.nodup_append]
    refine ⟨w1, by simp [freshCart], ?_⟩
    intro x hx
    simp only [List.mem_map] at hx
    obtain ⟨c, hc, rfl⟩ := hx
    simp only [List.map_cons, List.map_nil, freshCart, List.mem_singleton]
    intro hEq
    exact absurd hEq (Nat.ne_of_lt (w3 c hc))
  · intro c hc
    rcases List.mem_append.mp hc with h1 | h2
    · exact w2 c h1
    · rw [List.mem_singleton.mp h2]
      simp [freshCart]
  · intro c hc
    rcases List.mem_append.mp hc with h1 | h2
    · exact Nat.lt_succ_of_lt (w3 c h1)
    · rw [List.mem_singleton.mp h2]
      simp [freshCart]
  · intro c hc it hit
    rcases List.mem_append.mp hc with h1 | h2
    · exact Nat.lt_succ_of_lt (w4 c h1 it hit)
    · rw [List.mem_singleton.mp h2] at hit
      simp [freshCart] at hit
  · intro c hc it hit
    rcases List.mem_append.mp hc with h1 | h2
    · exact w5 c h1 it hit
    · rw [List.mem_singleton.mp h2] at hit
      simp [freshCart] at hit
  · exact w6
  · intro c hc it hit
    rcases List.mem_append.mp hc with h1 | h2
    · exact w7 c h1 it hit
    · rw [List.mem_singleton.mp h2] at hit
      simp [freshCart] at hit
  · exact w8

/-- Inserting an empty cart is stock-neutral. -/
theorem total_insert_fresh (db : DB) (now : Nat) (uid : Int) (p0 v0 : String) :
    totalQty { db with carts := db.carts ++ [freshCart now uid db.nextId],
                       nextId := db.nextId + 1 } p0 v0 = totalQty db p0 v0 := by
  unfold totalQty stockQty cartsQty ordersQty
  simp [freshCart, itemsQty]

/-- `get_cart_document` preserves the invariants and the conserved totals, and
hands back a cart that is persisted in the resulting state. -/
theorem gdoc_spec (now : Nat) (db : DB) (uid : Int) (hwf : Wf db) :
    Wf (get_cart_document now db uid).2 ∧
    (∀ p0 v0, v0 ≠ "" →
      totalQty (get_cart_document now db uid).2 p0 v0 = totalQty db p0 v0) ∧
    (get_cart_document now db uid).2.products.map
        (fun x => (x.oid, x.variants.map Variant.id)) =
      db.products.map (fun x => (x.oid, x.variants.map Variant.id)) ∧
    (get_cart_document now db uid).2.orders = db.orders ∧
    db.nextId ≤ (get_cart_document now db uid).2.nextId ∧
    (get_cart_document now db uid).1 ∈ (get_cart_document now db uid).2.carts := by
  unfold get_cart_document
  cases hf : db.carts.find? (fun c => c.user_id == uid) with
  | none =>
    simp only
    refine ⟨wf_insert_fresh db now uid hwf, fun p0 v0 _ => total_insert_fresh db now uid p0 v0,
      by simp, by simp, Nat.le_succ db.nextId, by simp⟩
  | some cart =>
    simp only
    have hmem : cart ∈ db.carts := List.mem_of_find?_eq_some hf
    obtain ⟨hwf1, htot1, hsig1, hord1, hnext1, hcartsCase⟩ :=
      cleanup_preserves now db cart hwf hmem
    by_cases hb : (cleanup_expired_cart now db cart).1 = true
    · rw [if_pos hb]
      set db1 := (cleanup_expired_cart now db cart).2 with hdb1
      refine ⟨wf_insert_fresh db1 now uid hwf1, ?_, ?_, ?_, ?_, by simp⟩
      · intro p0 v0 hv0
        rw [total_insert_fresh db1 now uid p0 v0]
        exact htot1 p0 v0 hv0
      · exact hsig1
      · exact hord1
      · exact le_trans (le_of_eq hnext1.symm) (Nat.le_succ _)
    · rw [if_neg hb]
      refine ⟨hwf1, htot1, hsig1, hord1, le_of_eq hnext1.symm, ?_⟩
      rcases hcartsCase with h1 | h2
      · rw [h1]; exact hmem
      · -- the cleanup returned false, so the state is unchanged
        have : (cleanup_expired_cart now db cart).2 = db := by
          rw [cleanup_eq] at hb ⊢
          by_cases he : cart.items.isEmpty = true
          · rw [if_pos he]
          · rw [if_neg he] at hb ⊢
            by_cases ht : cartExpired now cart = true
            · rw [if_pos ht] at hb
              simp at hb
            · rw [if_neg ht]
        rw [this]
        exact hmem

theorem hitsL_intro (ps : List ProductDoc) (pid vid : String) (p : ProductDoc)
    (hx : as_object_id pid = some pid)
    (hfind : ps.find? (fun x => x.oid == pid) = some p)
    (hany : p.variants.any (fun v => v.id == vid) = true) :
    hitsL ps pid vid = true := by
  rw [hitsL, hx]
  simp [hfind, hany]

theorem hitsL_elim (ps : List ProductDoc) (pid vid : String)
    (hx : as_object_id pid = some pid) (hhit : hitsL ps pid vid = true) :
    ∃ p, ps.find? (fun x => x.oid == pid) = some p ∧
      p.variants.any (fun v => v.id == vid) = true := by
  rw [hitsL, hx] at hhit
  simp only [Option.some_bind] at hhit
  cases hf : ps.find? (fun x => x.oid == pid) with
  | none => rw [hf] at hhit; simp at hhit
  | some p =>
    rw [hf] at hhit
    simp only [Option.elim_some] at hhit
    exact ⟨p, rfl, hhit⟩

theorem find?_some_eq {α : Type} (p : α → Bool) :
    ∀ (l : List α) (a : α), l.find? p = some a → p a = true := by
  intro l
  induction l with
  | nil => intro a h; simp at h
  | cons x xs ih =>
    intro a h
    rw [find?_cons_eq] at h
    by_cases hx : p x = true
    · rw [if_pos hx] at h
      cases h
      exact hx
    · rw [if_neg hx] at h
      exact ih a h

theorem any_of_find?_variant (vs : List Variant) (vid : String) (v : Variant)
    (h : vs.find? (fun x => x.id == vid) = some v) :
    vs.any (fun x => x.id == vid) = true := by
  rw [List.any_eq_true]
  exact ⟨v, List.mem_of_find?_eq_some h, find?_some_eq _ vs v h⟩

theorem find?_variant_of_any (vs : List Variant) (vid : String)
    (h : vs.any (fun x => x.id == vid) = true) :
    ∃ v, vs.find? (fun x => x.id == vid) = some v := by
  rw [List.any_eq_true] at h
  obtain ⟨v, hmem, hv⟩ := h
  cases hf : vs.find? (fun x => x.id == vid) with
  | none =>
    rw [List.find?_eq_none] at hf
    exact absurd hv (by simpa using hf v hmem)
  | some w => exact ⟨w, rfl⟩

/-- Add-to-cart's deduction under a live target: it either rejects with the
insufficient-stock error (state untouched) or debits exactly the requested
quantity from the targeted key, never a silent no-op. -/
theorem deduct_cases (db : DB) (pid vid : String) (q : Int)
    (hx : as_object_id pid = some pid)
    (hhit : hitsL db.products pid vid = true) :
    deduct_variant_quantity db pid vid q =
        .error { status_code := 400, detail := "insufficient stock" } ∨
    (∃ db', deduct_variant_quantity db pid vid q = .ok db' ∧
      db'.carts = db.carts ∧ db'.orders = db.orders ∧ db'.customers = db.customers ∧
      db'.blobs = db.blobs ∧ db'.nextId = db.nextId ∧
      db'.storeSleeping = db.storeSleeping ∧
      db'.products.map (fun x => (x.oid, x.variants.map Variant.id)) =
        db.products.map (fun x => (x.oid, x.variants.map Variant.id)) ∧
      ∀ p0 v0, stockL db'.products p0 v0 =
        stockL db.products p0 v0 + (if pid == p0 && vid == v0 then -q else 0)) := by
  obtain ⟨p, hfind, hany⟩ := hitsL_elim db.products pid vid hx hhit
  obtain ⟨v, hvar⟩ := find?_variant_of_any p.variants vid hany
  by_cases hlow : v.quantity < q
  · exact Or.inl (deduct_insufficient db pid vid q p v hx hfind hvar hlow)
  · refine Or.inr ⟨_, deduct_spec db pid vid q p v hx hfind hvar hlow, rfl, rfl, rfl, rfl,
      rfl, rfl, ?_, ?_⟩
    · exact productsSetVariants_sig pid db.products p hfind _
        (setFirstVariantQty_ids vid (v.quantity - q) p.variants)
    · intro p0 v0
      simp only
      rw [productsSetVariants_stockL pid db.products p hfind _ p0 v0,
        setFirstVariantQty_varSum vid (v.quantity - q) p.variants v hvar v0]
      by_cases hp0 : (pid == p0) = true
      · by_cases hv0 : (vid == v0) = true
        · simp only [hp0, hv0, Bool.and_self, if_true]
          ring
        · have hvf : (vid == v0) = false := by simpa using hv0
          simp only [hp0, hvf, Bool.true_and, Bool.false_eq_true, if_false, if_true]
          ring
      · have hpf : (pid == p0) = false := by simpa using hp0
        simp only [hpf, Bool.false_and, Bool.false_eq_true, if_false]

theorem bumpFirstItem_ids (pid : String) (vid : Option String) (q : Int) :
    ∀ its its', bumpFirstItem pid vid q its = some its' →
      its'.map CartItem.id = its.map CartItem.id := by
  intro its
  induction its with
  | nil => intro its' h; simp [bumpFirstItem] at h
  | cons it rest ih =>
    intro its' h
    rw [bumpFirstItem] at h
    by_cases hm : (it.product_id == pid && it.variant_id == vid) = true
    · rw [if_pos hm] at h
      cases h
      simp
    · rw [if_neg hm] at h
      simp only [Option.map_eq_some'] at h
      obtain ⟨tail, htail, rfl⟩ := h
      simp [ih tail htail]

theorem bumpFirstItem_mem (pid : String) (vid : Option String) (q : Int) :
    ∀ its its', bumpFirstItem pid vid q its = some its' →
      ∀ x ∈ its', (∃ y ∈ its, x = { y with quantity := y.quantity + q }) ∨ x ∈ its := by
  intro its
  induction its with
  | nil => intro its' h; simp [bumpFirstItem] at h
  | cons it rest ih =>
    intro its' h x hx
    rw [bumpFirstItem] at h
    by_cases hm : (it.product_id == pid && it.variant_id == vid) = true
    · rw [if_pos hm] at h
      cases h
      rcases List.mem_cons.mp hx with rfl | hx2
      · exact Or.inl ⟨it, List.mem_cons_self it rest, rfl⟩
      · exact Or.inr (List.mem_cons_of_mem it hx2)
    · rw [if_neg hm] at h
      simp only [Option.map_eq_some'] at h
      obtain ⟨tail, htail, rfl⟩ := h
      rcases List.mem_cons.mp hx with rfl | hx2
      · exact Or.inr (List.mem_cons_self x rest)
      · rcases ih tail htail x hx2 with ⟨y, hy, hxy⟩ | h2
        · exact Or.inl ⟨y, List.mem_cons_of_mem it hy, hxy⟩
        · exact Or.inr (List.mem_cons_of_mem it h2)

theorem bumpFirstItem_itemsQty (pid : String) (vid : Option String) (q : Int) :
    ∀ its its', bumpFirstItem pid vid q its = some its' →
      ∀ p0 v0, itemsQty its' p0 v0 =
        itemsQty its p0 v0 + (if pid == p0 && vid == some v0 then q else 0) := by
  intro its
  induction its with
  | nil => intro its' h; simp [bumpFirstItem] at h
  | cons it rest ih =>
    intro its' h p0 v0
    rw [bumpFirstItem] at h
    by_cases hm : (it.product_id == pid && it.variant_id == vid) = true
    · rw [if_pos hm] at h
      cases h
      rw [itemsQty_cons, itemsQty_cons]
      simp only [Bool.and_eq_true, beq_iff_eq] at hm
      obtain ⟨hmp, hmv⟩ := hm
      have hkey : itemMatchesKey p0 v0 { it with quantity := it.quantity + q } =
          itemMatchesKey p0 v0 it := rfl
      rw [hkey]
      by_cases hk : itemMatchesKey p0 v0 it = true
      · have hcond : (pid == p0 && vid == some v0) = true := by
          unfold itemMatchesKey at hk
          simp only [Bool.and_eq_true, beq_iff_eq] at hk
          obtain ⟨hk1, hk2⟩ := hk
          simp [← hmp, ← hmv, hk1, hk2]
        simp only [hk, hcond, if_true]
        ring
      · have hkf : itemMatchesKey p0 v0 it = false := by simpa using hk
        have hcond : (pid == p0 && vid == some v0) = false := by
          unfold itemMatchesKey at hkf
          rw [← hmp, ← hmv]
          exact hkf
        simp only [hkf, hcond, Bool.false_eq_true, if_false]
        ring
    · rw [if_neg hm] at h
      simp only [Option.map_eq_some'] at h
      obtain ⟨tail, htail, rfl⟩ := h
      rw [itemsQty_cons, itemsQty_cons, ih tail htail p0 v0]
      ring

theorem setFirstItemQty_ids (iid : Nat) (q : Int) :
    ∀ its, (setFirstItemQty iid q its).map CartItem.id = its.map CartItem.id := by
  intro its
  induction its with
  | nil => rfl
  | cons it rest ih =>
    rw [setFirstItemQty]
    by_cases h : (it.id == iid) = true
    · rw [if_pos h]; simp
    · rw [if_neg h]; simp [ih]

theorem setFirstItemQty_mem (iid : Nat) (q : Int) :
    ∀ its x, x ∈ setFirstItemQty iid q its →
      (∃ y ∈ its, x = { y with quantity := q }) ∨ x ∈ its := by
  intro its
  induction its with
  | nil => intro x hx; simp [setFirstItemQty] at hx
  | cons it rest ih =>
    intro x hx
    rw [setFirstItemQty] at hx
    by_cases h : (it.id == iid) = true
    · rw [if_pos h] at hx
      rcases List.mem_cons.mp hx with rfl | hx2
      · exact Or.inl ⟨it, List.mem_cons_self it rest, rfl⟩
      · exact Or.inr (List.mem_cons_of_mem it hx2)
    · rw [if_neg h] at hx
      rcases List.mem_cons.mp hx with rfl | hx2
      · exact Or.inr (List.mem_cons_self x rest)
      · rcases ih x hx2 with ⟨y, hy, hxy⟩ | h2
        · exact Or.inl ⟨y, List.mem_cons_of_mem it hy, hxy⟩
        · exact Or.inr (List.mem_cons_of_mem it h2)

theorem setFirstItemQty_itemsQty (iid : Nat) (q : Int) :
    ∀ its item, its.find? (fun x => x.id == iid) = some item →
      ∀ p0 v0, itemsQty (setFirstItemQty iid q its) p0 v0 =
        itemsQty its p0 v0 +
          (if itemMatchesKey p0 v0 item then q - item.quantity else 0) := by
  intro its
  induction its with
  | nil => intro item h; simp at h
  | cons it rest ih =>
    intro item h p0 v0
    rw [find?_cons_eq] at h
    by_cases hm : (it.id == iid) = true
    · rw [if_pos hm] at h
      cases h
      rw [setFirstItemQty, if_pos hm, itemsQty_cons, itemsQty_cons]
      have hkey : itemMatchesKey p0 v0 { it with quantity := q } =
          itemMatchesKey p0 v0 it := rfl
      rw [hkey]
      by_cases hk : itemMatchesKey p0 v0 it = true
      · simp only [hk, if_true]
        ring
      · have hkf : itemMatchesKey p0 v0 it = false := by simpa using hk
        simp only [hkf, Bool.false_eq_true, if_false]
        ring
    · rw [if_neg hm] at h
      rw [setFirstItemQty, if_neg hm, itemsQty_cons, itemsQty_cons, ih item h p0 v0]
      ring

theorem wf_nextId_mono (db : DB) (n : Nat) (hwf : Wf db) (hle : db.nextId ≤ n) :
    Wf { db with nextId := n } := by
  obtain ⟨w1, w2, w3, w4, w5, w6, w7, w8⟩ := hwf
  exact ⟨w1, w2, fun c hc => lt_of_lt_of_le (w3 c hc) hle,
    fun c hc it hit => lt_of_lt_of_le (w4 c hc it hit) hle, w5, w6, w7, w8⟩

theorem upsertCustomer_shape (now : Nat) (uid : Int) (db : DB) :
    ∃ cs, upsertCustomer now uid db = { db with customers := cs } := by
  unfold upsertCustomer
  cases db.customers.find? (fun c => c.telegram_id == uid) with
  | none => exact ⟨_, rfl⟩
  | some c => exact ⟨_, rfl⟩

/-- The conserved totals ignore the customers, blobs, counter and sleep flag. -/
theorem totalQty_congr (a b : DB) (hp : b.products = a.products) (hc : b.carts = a.carts)
    (ho : b.orders = a.orders) (p0 v0 : String) :
    totalQty b p0 v0 = totalQty a p0 v0 := by
  unfold totalQty stockQty cartsQty ordersQty
  rw [hp, hc, ho]

/-- `GET /cart` preserves the invariants and the conserved stock totals. -/
theorem getCart_preserves (now : Nat) (uid : Int) (db : DB) (hwf : Wf db) :
    Wf (get_cart_endpoint now uid db).1 ∧
    (∀ p0 v0, v0 ≠ "" →
      totalQty (get_cart_endpoint now uid db).1 p0 v0 = totalQty db p0 v0) := by
  unfold get_cart_endpoint
  cases hf : db.carts.find? (fun c => c.user_id == uid) with
  | none =>
    simp only
    obtain ⟨hwf2, htot2, _, _, _, _⟩ := gdoc_spec now db uid hwf
    exact ⟨hwf2, htot2⟩
  | some cart =>
    simp only
    have hmem : cart ∈ db.carts := List.mem_of_find?_eq_some hf
    obtain ⟨hwf1, htot1, _, _, _, _⟩ := cleanup_preserves now db cart hwf hmem
    obtain ⟨hwf2, htot2, _, _, _, _⟩ :=
      gdoc_spec now (cleanup_expired_cart now db cart).2 uid hwf1
    refine ⟨hwf2, ?_⟩
    intro p0 v0 hv0
    rw [htot2 p0 v0 hv0, htot1 p0 v0 hv0]

theorem some_beq_some {α : Type} [BEq α] (a b : α) :
    ((some a : Option α) == some b) = (a == b) := rfl

theorem variant_key_cond (variant_id : Option String) (htr : truthy variant_id = true)
    (v0 : String) : (variant_id == some v0) = ((variant_id.getD "") == v0) := by
  cases variant_id with
  | none => simp [truthy] at htr
  | some w => simp [some_beq_some]

/-- The persist phase of `add_to_cart` after a successful deduction: writing
the merged cart back and upserting the customer keeps the invariants and the
conserved totals. -/
theorem addItem_persist (db dbM db2 : DB) (now : Nat) (payload : AddToCartRequest)
    (cart : CartDoc) (itemsM : List CartItem)
    (hwfM : Wf dbM)
    (htotM : ∀ p0 v0, v0 ≠ "" → totalQty dbM p0 v0 = totalQty db p0 v0)
    (hmemM : cart ∈ dbM.carts)
    (hxv : as_object_id payload.product_id = some payload.product_id)
    (htr : truthy payload.variant_id = true)
    (hhitM : hitsL dbM.products payload.product_id (payload.variant_id.getD "") = true)
    (hded : deduct_variant_quantity dbM payload.product_id (payload.variant_id.getD "")
      payload.quantity = .ok db2)
    (hids : (itemsM.map CartItem.id).Nodup)
    (hidlt : ∀ it ∈ itemsM, it.id < dbM.nextId)
    (hpos : ∀ it ∈ itemsM, 0 < it.quantity)
    (hhits : ∀ it ∈ itemsM, truthy it.variant_id →
      hitsL dbM.products it.product_id (it.variant_id.getD "") = true)
    (hqty : ∀ p0 v0, itemsQty itemsM p0 v0 = itemsQty cart.items p0 v0 +
      (if payload.product_id == p0 && payload.variant_id == some v0
       then payload.quantity else 0)) :
    Wf (upsertCustomer now payload.user_id
        { db2 with
          carts := cartsUpdateOne
            (recalculate_total { cart with items := itemsM, updated_at := some now }).cid
            (recalculate_total { cart with items := itemsM, updated_at := some now })
            db2.carts }) ∧
    (∀ p0 v0, v0 ≠ "" →
      totalQty (upsertCustomer now payload.user_id
        { db2 with
          carts := cartsUpdateOne
            (recalculate_total { cart with items := itemsM, updated_at := some now }).cid
            (recalculate_total { cart with items := itemsM, updated_at := some now })
            db2.carts }) p0 v0 = totalQty db p0 v0) := by
  rcases deduct_cases dbM payload.product_id (payload.variant_id.getD "") payload.quantity
      hxv hhitM with herr | ⟨db2x, hok, hcarts2, hord2, hcust2, hblob2, hnext2, hsleep2,
        hsig2, hstock2⟩
  · rw [herr] at hded
    cases hded
  · rw [hok] at hded
    injection hded with hdb2
    subst hdb2
    obtain ⟨w1, w2, w3, w4, w5, w6, w7, w8⟩ := hwfM
    set cart3 := recalculate_total { cart with items := itemsM, updated_at := some now }
      with hcart3
    have hcid3 : cart3.cid = cart.cid := rfl
    have hitems3 : cart3.items = itemsM := rfl
    set db3 : DB :=
      { db2x with carts := cartsUpdateOne cart3.cid cart3 db2x.carts } with hdb3
    obtain ⟨cs4, hcs4⟩ := upsertCustomer_shape now payload.user_id db3
    have hmapcid : (cartsUpdateOne cart3.cid cart3 db2x.carts).map CartDoc.cid =
        dbM.carts.map CartDoc.cid := by
      rw [cartsUpdateOne_map_cid cart3 db2x.carts, hcarts2]
    have hmemCU : ∀ c ∈ cartsUpdateOne cart3.cid cart3 db2x.carts,
        c = cart3 ∨ c ∈ dbM.carts := by
      intro c hc
      rcases mem_cartsUpdateOne cart3.cid cart3 db2x.carts c hc with h1 | h2
      · exact Or.inl h1
      · exact Or.inr (hcarts2 ▸ h2)
    have hwf4 : Wf (upsertCustomer now payload.user_id db3) := by
      rw [hcs4]
      refine ⟨?_, ?_, ?_, ?_, ?_, ?_, ?_, ?_⟩
      · simpa [hmapcid] using w1
      · intro c hc
        rcases hmemCU c hc with rfl | h2
        · simpa [hitems3] using hids
        · exact w2 c h2
      · intro c hc
        rcases hmemCU c hc with rfl | h2
        · simp only [hnext2, hcid3]
          exact w3 cart hmemM
        · simp only [hnext2]
          exact w3 c h2
      · intro c hc it hit
        rcases hmemCU c hc with rfl | h2
        · simp only [hnext2]
          exact hidlt it (hitems3 ▸ hit)
        · simp only [hnext2]
          exact w4 c h2 it hit
      · intro c hc it hit
        rcases hmemCU c hc with rfl | h2
        · exact hpos it (hitems3 ▸ hit)
        · exact w5 c h2 it hit
      · intro o ho it hit
        simp only [hord2] at ho
        exact w6 o ho it hit
      · intro c hc it hit ht
        unfold restoreHits
        simp only
        rw [hitsL_congr _ _ _ _ hsig2]
        rcases hmemCU c hc with rfl | h2
        · exact hhits it (hitems3 ▸ hit) ht
        · exact w7 c h2 it hit ht
      · intro o ho it hit ht
        unfold restoreHits
        simp only
        rw [hitsL_congr _ _ _ _ hsig2]
        simp only [hord2] at ho
        exact w8 o ho it hit ht
    refine ⟨hwf4, ?_⟩
    intro p0 v0 hv0
    have ht4 : totalQty (upsertCustomer now payload.user_id db3) p0 v0 =
        totalQty db3 p0 v0 := by
      rw [hcs4]
      exact totalQty_congr db3 _ rfl rfl rfl p0 v0
    rw [ht4]
    unfold totalQty stockQty cartsQty ordersQty
    simp only [hdb3]
    rw [hstock2 p0 v0]
    rw [hcid3]
    rw [cartsSum_updateOne cart3 p0 v0 db2x.carts cart (by rw [hcarts2]; exact w1)
      (by rw [hcarts2]; exact hmemM)]
    have hq3 : itemsQty cart3.items p0 v0 = itemsQty cart.items p0 v0 +
        (if payload.product_id == p0 && payload.variant_id == some v0
         then payload.quantity else 0) := by
      rw [hitems3, hqty p0 v0]
    rw [hq3, hcarts2, hord2]
    have hcond : (payload.variant_id == some v0) = ((payload.variant_id.getD "") == v0) :=
      variant_key_cond payload.variant_id htr v0
    rw [hcond]
    have htM := htotM p0 v0 hv0
    unfold totalQty stockQty cartsQty ordersQty at htM
    by_cases hc1 : (payload.product_id == p0) = true
    · by_cases hc2 : ((payload.variant_id.getD "") == v0) = true
      · simp only [hc1, hc2, Bool.and_self, if_true]
        rw [← htM]
        ring
      · have hc2f : ((payload.variant_id.getD "") == v0) = false := by simpa using hc2
        simp only [hc1, hc2f, Bool.true_and, Bool.false_eq_true, if_false]
        rw [← htM]
        ring
    · have hc1f : (payload.product_id == p0) = false := by simpa using hc1
      simp only [hc1f, Bool.false_and, Bool.false_eq_true, if_false]
      rw [← htM]
      ring

theorem itemsQty_nil (p0 v0 : String) : itemsQty [] p0 v0 = 0 := rfl

/-- `POST /cart` preserves the invariants and the conserved stock totals. -/
theorem addItem_preserves (now : Nat) (payload : AddToCartRequest) (db : DB)
    (hwf : Wf db) (hq : 0 < payload.quantity) :
    Wf (add_to_cart now payload db).1 ∧
    (∀ p0 v0, v0 ≠ "" →
      totalQty (add_to_cart now payload db).1 p0 v0 = totalQty db p0 v0) := by
  unfold add_to_cart
  rcases as_object_id_eq payload.product_id with hx | hx
  · rw [hx]
    exact ⟨hwf, fun _ _ _ => rfl⟩
  · rw [hx]
    simp only
    cases hfind : db.products.find? (fun p => p.oid == payload.product_id) with
    | none => exact ⟨hwf, fun _ _ _ => rfl⟩
    | some product =>
    simp only
    by_cases hemp : product.variants.isEmpty = true
    · rw [if_pos hemp]
      exact ⟨hwf, fun _ _ _ => rfl⟩
    · rw [if_neg hemp]
      by_cases htr : truthy payload.variant_id = true
      · rw [if_neg (by simp [htr])]
        cases hvfind : product.variants.find?
            (fun v => v.id == payload.variant_id.getD "") with
        | none =>
          simp only [hvfind]
          exact ⟨hwf, by simp⟩
        | some variant =>
        simp only [hvfind]
        by_cases hlow : variant.quantity < payload.quantity
        · rw [if_pos hlow]
          exact ⟨hwf, fun _ _ _ => rfl⟩
        · rw [if_neg hlow]
          obtain ⟨hwf1, htot1, hsig1, hord1, hnext1, hmem1⟩ :=
            gdoc_spec now db payload.user_id hwf
          obtain ⟨u1, u2, u3, u4, u5, u6, u7, u8⟩ := hwf1
          have hhit0 : hitsL db.products payload.product_id
              (payload.variant_id.getD "") = true :=
            hitsL_intro db.products _ _ product hx hfind
              (any_of_find?_variant product.variants _ variant hvfind)
          have hhit1 : hitsL (get_cart_document now db payload.user_id).2.products
              payload.product_id (payload.variant_id.getD "") = true := by
            rw [hitsL_congr _ _ _ _ hsig1]
            exact hhit0
          cases hbump : bumpFirstItem payload.product_id payload.variant_id
              payload.quantity (get_cart_document now db payload.user_id).1.items with
          | some items2 =>
            simp only [hbump]
            cases hded : deduct_variant_quantity
                (get_cart_document now db payload.user_id).2 payload.product_id
                (payload.variant_id.getD "") payload.quantity with
            | error e =>
              simp only [hded]
              exact ⟨⟨u1, u2, u3, u4, u5, u6, u7, u8⟩, htot1⟩
            | ok db2 =>
              simp only [hded]
              refine addItem_persist db _ db2 now payload
                (get_cart_document now db payload.user_id).1 items2
                ⟨u1, u2, u3, u4, u5, u6, u7, u8⟩ htot1 hmem1 hx htr hhit1 hded
                ?_ ?_ ?_ ?_ ?_
              · rw [bumpFirstItem_ids payload.product_id payload.variant_id
                  payload.quantity _ items2 hbump]
                exact u2 _ hmem1
              · intro it hit
                rcases bumpFirstItem_mem payload.product_id payload.variant_id
                    payload.quantity _ items2 hbump it hit with ⟨y, hy, rfl⟩ | h2
                · exact u4 _ hmem1 y hy
                · exact u4 _ hmem1 it h2
              · intro it hit
                rcases bumpFirstItem_mem payload.product_id payload.variant_id
                    payload.quantity _ items2 hbump it hit with ⟨y, hy, rfl⟩ | h2
                · exact add_pos (u5 _ hmem1 y hy) hq
                · exact u5 _ hmem1 it h2
              · intro it hit ht
                rcases bumpFirstItem_mem payload.product_id payload.variant_id
                    payload.quantity _ items2 hbump it hit with ⟨y, hy, rfl⟩ | h2
                · exact u7 _ hmem1 y hy ht
                · exact u7 _ hmem1 it h2 ht
              · intro p0 v0
                exact bumpFirstItem_itemsQty payload.product_id payload.variant_id
                  payload.quantity _ items2 hbump p0 v0
          | none =>
            simp only [hbump]
            cases hded : deduct_variant_quantity
                { get_cart_document now db payload.user_id |>.2 with
                  nextId := (get_cart_document now db payload.user_id).2.nextId + 1 }
                payload.product_id (payload.variant_id.getD "") payload.quantity with
            | error e =>
              simp only [hded]
              refine ⟨wf_nextId_mono _ _ ⟨u1, u2, u3, u4, u5, u6, u7, u8⟩
                (Nat.le_succ _), ?_⟩
              intro p0 v0 hv0
              exact (totalQty_congr (get_cart_document now db payload.user_id).2 _
                rfl rfl rfl p0 v0).trans (htot1 p0 v0 hv0)
            | ok db2 =>
              simp only [hded]
              refine addItem_persist db _ db2 now payload
                (get_cart_document now db payload.user_id).1 _
                (wf_nextId_mono _ _ ⟨u1, u2, u3, u4, u5, u6, u7, u8⟩ (Nat.le_succ _))
                ?_ hmem1 hx htr hhit1 hded ?_ ?_ ?_ ?_ ?_
              · intro p0 v0 hv0
                exact (totalQty_congr (get_cart_document now db payload.user_id).2 _
                  rfl rfl rfl p0 v0).trans (htot1 p0 v0 hv0)
              · simp only [List.map_append]
                rw [List.nodup_append]
                refine ⟨u2 _ hmem1, by simp, ?_⟩
                intro x hxmem
                simp only [List.mem_map] at hxmem
                obtain ⟨it, hit, rfl⟩ := hxmem
                simp only [List.map_cons, List.map_nil, List.mem_singleton]
                intro hEq
                exact absurd hEq (Nat.ne_of_lt (u4 _ hmem1 it hit))
              · intro it hit
                rcases List.mem_append.mp hit with h1 | h2
                · exact Nat.lt_succ_of_lt (u4 _ hmem1 it h1)
                · rw [List.mem_singleton.mp h2]
                  exact Nat.lt_succ_self _
              · intro it hit
                rcases List.mem_append.mp hit with h1 | h2
                · exact u5 _ hmem1 it h1
                · rw [List.mem_singleton.mp h2]
                  exact hq
              · intro it hit ht
                rcases List.mem_append.mp hit with h1 | h2
                · exact u7 _ hmem1 it h1 ht
                · rw [List.mem_singleton.mp h2]
                  exact hhit1
              · intro p0 v0
                rw [itemsQty_append, itemsQty_cons, itemsQty_nil]
                have : itemMatchesKey p0 v0
                    { id := (get_cart_document now db payload.user_id).2.nextId,
                      product_id := payload.product_id,
                      variant_id := payload.variant_id,
                      product_name := product.name,
                      variant_name := some variant.name,
                      quantity := payload.quantity,
                      price := product.price,
                      image := variant.image } =
                    (payload.product_id == p0 && payload.variant_id == some v0) := rfl
                rw [this]
                ring
      · rw [if_pos (by simpa using htr)]
        exact ⟨hwf, fun _ _ _ => rfl⟩

theorem hitsL_valid (ps : List ProductDoc) (pid vid : String)
    (h : hitsL ps pid vid = true) : as_object_id pid = some pid := by
  rcases as_object_id_eq pid with hx | hx
  · rw [hitsL, hx] at h
    simp at h
  · exact hx

/-- Replacing the products by a signature-equal list keeps the invariants. -/
theorem wf_products_congr (db : DB) (ps : List ProductDoc)
    (hsig : ps.map (fun x => (x.oid, x.variants.map Variant.id)) =
      db.products.map (fun x => (x.oid, x.variants.map Variant.id)))
    (hwf : Wf db) : Wf { db with products := ps } := by
  obtain ⟨w1, w2, w3, w4, w5, w6, w7, w8⟩ := hwf
  refine ⟨w1, w2, w3, w4, w5, w6, ?_, ?_⟩
  · intro c hc it hit ht
    unfold restoreHits
    simp only
    rw [hitsL_congr _ _ _ _ hsig]
    exact w7 c hc it hit ht
  · intro o ho it hit ht
    unfold restoreHits
    simp only
    rw [hitsL_congr _ _ _ _ hsig]
    exact w8 o ho it hit ht

theorem filter_out_itemsQty (iid : Nat) :
    ∀ its item, (its.map CartItem.id).Nodup →
      its.find? (fun x => x.id == iid) = some item →
      ∀ p0 v0, itemsQty (its.filter (fun it => !(it.id == iid))) p0 v0 =
        itemsQty its p0 v0 - (if itemMatchesKey p0 v0 item then item.quantity else 0) := by
  intro its
  induction its with
  | nil => intro item _ h; simp at h
  | cons it rest ih =>
    intro item hnd h p0 v0
    simp only [List.map_cons, List.nodup_cons] at hnd
    obtain ⟨hhd, hrest⟩ := hnd
    rw [find?_cons_eq] at h
    by_cases hm : (it.id == iid) = true
    · rw [if_pos hm] at h
      cases h
      rw [List.filter_cons_of_neg (by simp [hm])]
      have hnone : ∀ x ∈ rest, (!(x.id == it.id)) = true := by
        intro x hx
        simp only [Bool.not_eq_eq_eq_not, Bool.not_true, beq_eq_false_iff_ne]
        intro hc
        exact hhd (hc ▸ List.mem_map_of_mem CartItem.id hx)
      have hid : it.id = iid := by simpa using hm
      have : rest.filter (fun x => !(x.id == iid)) = rest := by
        apply List.filter_eq_self.mpr
        intro x hx
        have := hnone x hx
        rw [hid] at this
        exact this
      rw [this, itemsQty_cons]
      ring
    · rw [if_neg hm] at h
      rw [List.filter_cons_of_pos (by simp [hm]), itemsQty_cons, itemsQty_cons,
        ih item hrest h p0 v0]
      ring

/-- Persisting a cart whose item list was rewritten in memory: the invariants
survive and the totals shift by exactly the item-list difference. -/
theorem persist_cart_spec (dbS : DB) (now : Nat) (cart : CartDoc) (itemsM : List CartItem)
    (hwfS : Wf dbS) (hmemS : cart ∈ dbS.carts)
    (hids : (itemsM.map CartItem.id).Nodup)
    (hidlt : ∀ it ∈ itemsM, it.id < dbS.nextId)
    (hpos : ∀ it ∈ itemsM, 0 < it.quantity)
    (hhits : ∀ it ∈ itemsM, truthy it.variant_id →
      hitsL dbS.products it.product_id (it.variant_id.getD "") = true) :
    Wf { dbS with
         carts := cartsUpdateOne
           (recalculate_total { cart with items := itemsM, updated_at := some now }).cid
           (recalculate_total { cart with items := itemsM, updated_at := some now })
           dbS.carts } ∧
    (∀ p0 v0,
      totalQty { dbS with
        carts := cartsUpdateOne
          (recalculate_total { cart with items := itemsM, updated_at := some now }).cid
          (recalculate_total { cart with items := itemsM, updated_at := some now })
          dbS.carts } p0 v0 =
        totalQty dbS p0 v0 - itemsQty cart.items p0 v0 + itemsQty itemsM p0 v0) := by
  obtain ⟨w1, w2, w3, w4, w5, w6, w7, w8⟩ := hwfS
  set cart2 := recalculate_total { cart with items := itemsM, updated_at := some now }
    with hcart2
  have hcid2 : cart2.cid = cart.cid := rfl
  have hitems2 : cart2.items = itemsM := rfl
  have hmemCU : ∀ c ∈ cartsUpdateOne cart2.cid cart2 dbS.carts,
      c = cart2 ∨ c ∈ dbS.carts :=
    fun c hc => mem_cartsUpdateOne cart2.cid cart2 dbS.carts c hc
  constructor
  · refine ⟨?_, ?_, ?_, ?_, ?_, w6, ?_, w8⟩
    · rw [cartsUpdateOne_map_cid cart2 dbS.carts]
      exact w1
    · intro c hc
      rcases hmemCU c hc with rfl | h2
      · simpa [hitems2] using hids
      · exact w2 c h2
    · intro c hc
      rcases hmemCU c hc with rfl | h2
      · simp only [hcid2]
        exact w3 cart hmemS
      · exact w3 c h2
    · intro c hc it hit
      rcases hmemCU c hc with rfl | h2
      · exact hidlt it (hitems2 ▸ hit)
      · exact w4 c h2 it hit
    · intro c hc it hit
      rcases hmemCU c hc with rfl | h2
      · exact hpos it (hitems2 ▸ hit)
      · exact w5 c h2 it hit
    · intro c hc it hit ht
      rcases hmemCU c hc with rfl | h2
      · exact hhits it (hitems2 ▸ hit) ht
      · exact w7 c h2 it hit ht
  · intro p0 v0
    unfold totalQty stockQty cartsQty ordersQty
    simp only [hcid2]
    rw [cartsSum_updateOne cart2 p0 v0 dbS.carts cart w1 hmemS]
    rw [hitems2]
    ring

theorem wf_transport (a b : DB) (hc : b.carts = a.carts) (ho : b.orders = a.orders)
    (hn : b.nextId = a.nextId)
    (hsig : b.products.map (fun x => (x.oid, x.variants.map Variant.id)) =
      a.products.map (fun x => (x.oid, x.variants.map Variant.id)))
    (hwf : Wf a) : Wf b := by
  obtain ⟨w1, w2, w3, w4, w5, w6, w7, w8⟩ := hwf
  refine ⟨?_, ?_, ?_, ?_, ?_, ?_, ?_, ?_⟩
  · rw [hc]; exact w1
  · intro c hcm; rw [hc] at hcm; exact w2 c hcm
  · intro c hcm; rw [hc] at hcm; rw [hn]; exact w3 c hcm
  · intro c hcm it hit; rw [hc] at hcm; rw [hn]; exact w4 c hcm it hit
  · intro c hcm it hit; rw [hc] at hcm; exact w5 c hcm it hit
  · intro o hom it hit; rw [ho] at hom; exact w6 o hom it hit
  · intro c hcm it hit ht
    rw [hc] at hcm
    unfold restoreHits
    rw [hitsL_congr _ _ _ _ hsig]
    exact w7 c hcm it hit ht
  · intro o hom it hit ht
    rw [ho] at hom
    unfold restoreHits
    rw [hitsL_congr _ _ _ _ hsig]
    exact w8 o hom it hit ht

theorem itemMatchesKey_false_of_not_truthy (item : CartItem)
    (hnt : ¬ truthy item.variant_id = true) (p0 v0 : String) (hv0 : v0 ≠ "") :
    itemMatchesKey p0 v0 item = false := by
  cases hvid : item.variant_id with
  | none => simp [itemMatchesKey, hvid]
  | some w =>
    have hw : w = "" := by
      by_contra hw
      exact hnt (by simp [truthy, hvid, hw])
    subst hw
    have hne : some "" ≠ some v0 := by
      intro hcc
      exact hv0 (Option.some.inj hcc).symm
    have hfalse : (some "" == some v0) = false := beq_eq_false_iff_ne.mpr hne
    simp [itemMatchesKey, hvid, hfalse]

/-- `PATCH /cart/item` preserves the invariants and conserved stock totals. -/
theorem updateItem_preserves (now : Nat) (payload : UpdateCartItemRequest) (db : DB)
    (hwf : Wf db) (hq : 0 < payload.quantity) :
    Wf (update_cart_item now payload db).1 ∧
    (∀ p0 v0, v0 ≠ "" →
      totalQty (update_cart_item now payload db).1 p0 v0 = totalQty db p0 v0) := by
  unfold update_cart_item
  obtain ⟨hwf1, htot1, hsig1, hord1, hnext1, hmem1⟩ := gdoc_spec now db payload.user_id hwf
  cases hfind : (get_cart_document now db payload.user_id).1.items.find?
      (fun it => it.id == payload.item_id) with
  | none =>
    simp only [hfind]
    exact ⟨hwf1, htot1⟩
  | some item =>
  simp only [hfind]
  obtain ⟨u1, u2, u3, u4, u5, u6, u7, u8⟩ := hwf1
  have hwf1 : Wf (get_cart_document now db payload.user_id).2 :=
    ⟨u1, u2, u3, u4, u5, u6, u7, u8⟩
  have hitem_mem : item ∈ (get_cart_document now db payload.user_id).1.items :=
    List.mem_of_find?_eq_some hfind
  have hitem_pos : 0 < item.quantity := u5 _ hmem1 item hitem_mem
  have hpersist : ∀ dbS : DB, Wf dbS → dbS.carts = (get_cart_document now db payload.user_id).2.carts →
      dbS.nextId = (get_cart_document now db payload.user_id).2.nextId →
      dbS.products.map (fun x => (x.oid, x.variants.map Variant.id)) =
        (get_cart_document now db payload.user_id).2.products.map
          (fun x => (x.oid, x.variants.map Variant.id)) →
      Wf { dbS with
            carts := cartsUpdateOne
              (recalculate_total { (get_cart_document now db payload.user_id).1 with
                items := setFirstItemQty payload.item_id payload.quantity
                  (get_cart_document now db payload.user_id).1.items,
                updated_at := some now }).cid
              (recalculate_total { (get_cart_document now db payload.user_id).1 with
                items := setFirstItemQty payload.item_id payload.quantity
                  (get_cart_document now db payload.user_id).1.items,
                updated_at := some now })
              dbS.carts } ∧
      (∀ p0 v0,
        totalQty { dbS with
            carts := cartsUpdateOne
              (recalculate_total { (get_cart_document now db payload.user_id).1 with
                items := setFirstItemQty payload.item_id payload.quantity
                  (get_cart_document now db payload.user_id).1.items,
                updated_at := some now }).cid
              (recalculate_total { (get_cart_document now db payload.user_id).1 with
                items := setFirstItemQty payload.item_id payload.quantity
                  (get_cart_document now db payload.user_id).1.items,
                updated_at := some now })
              dbS.carts } p0 v0 =
          totalQty dbS p0 v0 +
            (if itemMatchesKey p0 v0 item then payload.quantity - item.quantity else 0)) := by
    intro dbS hwfS hcS hnS hsigS
    have hmemS : (get_cart_document now db payload.user_id).1 ∈ dbS.carts := by
      rw [hcS]; exact hmem1
    obtain ⟨hwfP, htotP⟩ := persist_cart_spec dbS now
      (get_cart_document now db payload.user_id).1
      (setFirstItemQty payload.item_id payload.quantity
        (get_cart_document now db payload.user_id).1.items)
      hwfS hmemS
      (by rw [setFirstItemQty_ids]; exact u2 _ hmem1)
      (by
        intro it hit
        rcases setFirstItemQty_mem payload.item_id payload.quantity _ it hit with
          ⟨y, hy, rfl⟩ | h2
        · rw [hnS]; exact u4 _ hmem1 y hy
        · rw [hnS]; exact u4 _ hmem1 it h2)
      (by
        intro it hit
        rcases setFirstItemQty_mem payload.item_id payload.quantity _ it hit with
          ⟨y, hy, rfl⟩ | h2
        · exact hq
        · exact u5 _ hmem1 it h2)
      (by
        intro it hit ht
        rw [hitsL_congr _ _ _ _ hsigS]
        rcases setFirstItemQty_mem payload.item_id payload.quantity _ it hit with
          ⟨y, hy, rfl⟩ | h2
        · exact u7 _ hmem1 y hy ht
        · exact u7 _ hmem1 it h2 ht)
    refine ⟨hwfP, ?_⟩
    intro p0 v0
    rw [htotP p0 v0,
      setFirstItemQty_itemsQty payload.item_id payload.quantity _ item hfind p0 v0]
    ring
  by_cases hcond : (truthy item.variant_id &&
      decide (payload.quantity - item.quantity ≠ 0)) = true
  · rw [if_pos hcond]
    simp only [Bool.and_eq_true, decide_eq_true_eq] at hcond
    obtain ⟨ht, hdiff⟩ := hcond
    have hhit_item : hitsL (get_cart_document now db payload.user_id).2.products
        item.product_id (item.variant_id.getD "") = true :=
      u7 _ hmem1 item hitem_mem ht
    have hxi : as_object_id item.product_id = some item.product_id :=
      hitsL_valid _ _ _ hhit_item
    rw [hxi]
    obtain ⟨p, hpfind, hany⟩ := hitsL_elim _ _ _ hxi hhit_item
    simp only [hpfind]
    obtain ⟨v, hvfind2⟩ := find?_variant_of_any p.variants _ hany
    simp only [hvfind2]
    by_cases hdpos : 0 < payload.quantity - item.quantity
    · rw [if_pos hdpos]
      by_cases hlow : v.quantity < payload.quantity - item.quantity
      · rw [if_pos hlow]
        exact ⟨hwf1, htot1⟩
      · rw [if_neg hlow]
        cases hded : deduct_variant_quantity (get_cart_document now db payload.user_id).2
            item.product_id (item.variant_id.getD "")
            (payload.quantity - item.quantity) with
        | error e =>
          simp only [hded]
          exact ⟨hwf1, htot1⟩
        | ok db2 =>
          simp only [hded]
          rcases deduct_cases (get_cart_document now db payload.user_id).2 item.product_id
              (item.variant_id.getD "") (payload.quantity - item.quantity) hxi hhit_item
            with herr | ⟨db2x, hok, hcarts2, hord2, hcust2, hblob2, hnext2, hsleep2,
              hsig2, hstock2⟩
          · rw [herr] at hded
            cases hded
          · rw [hok] at hded
            injection hded with hdb2
            subst hdb2
            obtain ⟨hwfP, htotP⟩ := hpersist db2x
              (wf_transport _ _ hcarts2 hord2 hnext2 hsig2 hwf1) hcarts2 hnext2 hsig2
            refine ⟨hwfP, ?_⟩
            intro p0 v0 hv0
            rw [htotP p0 v0]
            have htot2x : totalQty db2x p0 v0 =
                totalQty (get_cart_document now db payload.user_id).2 p0 v0 +
                  (if item.product_id == p0 && (item.variant_id.getD "") == v0
                   then -(payload.quantity - item.quantity) else 0) := by
              unfold totalQty stockQty cartsQty ordersQty
              rw [hcarts2, hord2, hstock2 p0 v0]
              ring
            rw [htot2x, htot1 p0 v0 hv0]
            unfold itemMatchesKey
            rw [variant_key_cond item.variant_id ht v0]
            by_cases hc1 : (item.product_id == p0) = true
            · by_cases hc2 : ((item.variant_id.getD "") == v0) = true
              · simp only [hc1, hc2, Bool.and_self, if_true]
                ring
              · have hc2f : ((item.variant_id.getD "") == v0) = false := by simpa using hc2
                simp only [hc1, hc2f, Bool.true_and, Bool.false_eq_true, if_false]
                ring
            · have hc1f : (item.product_id == p0) = false := by simpa using hc1
              simp only [hc1f, Bool.false_and, Bool.false_eq_true, if_false]
              ring
    · rw [if_neg hdpos]
      have hneg : 0 < -(payload.quantity - item.quantity) := by omega
      have hsigR := restore_variant_quantity_sig (get_cart_document now db payload.user_id).2
        item.product_id (item.variant_id.getD "") (-(payload.quantity - item.quantity))
      obtain ⟨psR, hpsR⟩ := restore_variant_quantity_shape
        (get_cart_document now db payload.user_id).2 item.product_id
        (item.variant_id.getD "") (-(payload.quantity - item.quantity))
      have hcR : (restore_variant_quantity (get_cart_document now db payload.user_id).2
          item.product_id (item.variant_id.getD "")
          (-(payload.quantity - item.quantity))).carts =
          (get_cart_document now db payload.user_id).2.carts := by rw [hpsR]
      have hnR : (restore_variant_quantity (get_cart_document now db payload.user_id).2
          item.product_id (item.variant_id.getD "")
          (-(payload.quantity - item.quantity))).nextId =
          (get_cart_document now db payload.user_id).2.nextId := by rw [hpsR]
      have hoR : (restore_variant_quantity (get_cart_document now db payload.user_id).2
          item.product_id (item.variant_id.getD "")
          (-(payload.quantity - item.quantity))).orders =
          (get_cart_document now db payload.user_id).2.orders := by rw [hpsR]
      obtain ⟨hwfP, htotP⟩ := hpersist _
        (wf_transport _ _ hcR hoR hnR hsigR hwf1) hcR hnR hsigR
      refine ⟨hwfP, ?_⟩
      intro p0 v0 hv0
      rw [htotP p0 v0]
      have htotR : totalQty (restore_variant_quantity
          (get_cart_document now db payload.user_id).2 item.product_id
          (item.variant_id.getD "") (-(payload.quantity - item.quantity))) p0 v0 =
          totalQty (get_cart_document now db payload.user_id).2 p0 v0 +
            (if item.product_id == p0 && (item.variant_id.getD "") == v0
             then -(payload.quantity - item.quantity) else 0) := by
        unfold totalQty stockQty cartsQty ordersQty
        rw [hcR, hoR,
          restore_stockL (get_cart_document now db payload.user_id).2 item.product_id
            (item.variant_id.getD "") (-(payload.quantity - item.quantity)) hneg
            hhit_item p0 v0]
        ring
      rw [htotR, htot1 p0 v0 hv0]
      unfold itemMatchesKey
      rw [variant_key_cond item.variant_id ht v0]
      by_cases hc1 : (item.product_id == p0) = true
      · by_cases hc2 : ((item.variant_id.getD "") == v0) = true
        · simp only [hc1, hc2, Bool.and_self, if_true]
          ring
        · have hc2f : ((item.variant_id.getD "") == v0) = false := by simpa using hc2
          simp only [hc1, hc2f, Bool.true_and, Bool.false_eq_true, if_false]
          ring
      · have hc1f : (item.product_id == p0) = false := by simpa using hc1
        simp only [hc1f, Bool.false_and, Bool.false_eq_true, if_false]
        ring
  · rw [if_neg hcond]
    obtain ⟨hwfP, htotP⟩ := hpersist (get_cart_document now db payload.user_id).2
      hwf1 rfl rfl rfl
    refine ⟨hwfP, ?_⟩
    intro p0 v0 hv0
    rw [htotP p0 v0]
    by_cases ht : truthy item.variant_id = true
    · have hdz : payload.quantity - item.quantity = 0 := by
        by_contra hdzc
        exact hcond (by simp [ht, hdzc])
      rw [hdz]
      simp only [ite_self]
      rw [add_zero]
      exact htot1 p0 v0 hv0
    · rw [itemMatchesKey_false_of_not_truthy item ht p0 v0 hv0]
      simp only [Bool.false_eq_true, if_false, add_zero]
      exact htot1 p0 v0 hv0

/-- `DELETE /cart/item` preserves the invariants and conserved stock totals. -/
theorem removeItem_preserves (now : Nat) (payload : RemoveFromCartRequest) (db : DB)
    (hwf : Wf db) :
    Wf (remove_from_cart now payload db).1 ∧
    (∀ p0 v0, v0 ≠ "" →
      totalQty (remove_from_cart now payload db).1 p0 v0 = totalQty db p0 v0) := by
  unfold remove_from_cart
  obtain ⟨hwf1, htot1, hsig1, hord1, hnext1, hmem1⟩ := gdoc_spec now db payload.user_id hwf
  cases hfind : (get_cart_document now db payload.user_id).1.items.find?
      (fun it => it.id == payload.item_id) with
  | none =>
    simp only [hfind]
    exact ⟨hwf1, htot1⟩
  | some item =>
  simp only [hfind]
  obtain ⟨u1, u2, u3, u4, u5, u6, u7, u8⟩ := hwf1
  have hwf1 : Wf (get_cart_document now db payload.user_id).2 :=
    ⟨u1, u2, u3, u4, u5, u6, u7, u8⟩
  have hitem_mem : item ∈ (get_cart_document now db payload.user_id).1.items :=
    List.mem_of_find?_eq_some hfind
  have hitem_pos : 0 < item.quantity := u5 _ hmem1 item hitem_mem
  have hsubIt : List.Sublist ((get_cart_document now db payload.user_id).1.items.filter
      (fun it => !(it.id == payload.item_id)))
      (get_cart_document now db payload.user_id).1.items :=
    List.filter_sublist _
  have hpersist : ∀ dbS : DB, Wf dbS →
      dbS.carts = (get_cart_document now db payload.user_id).2.carts →
      dbS.nextId = (get_cart_document now db payload.user_id).2.nextId →
      dbS.products.map (fun x => (x.oid, x.variants.map Variant.id)) =
        (get_cart_document now db payload.user_id).2.products.map
          (fun x => (x.oid, x.variants.map Variant.id)) →
      Wf { dbS with
            carts := cartsUpdateOne
              (recalculate_total { (get_cart_document now db payload.user_id).1 with
                items := (get_cart_document now db payload.user_id).1.items.filter
                  (fun it => !(it.id == payload.item_id)),
                updated_at := some now }).cid
              (recalculate_total { (get_cart_document now db payload.user_id).1 with
                items := (get_cart_document now db payload.user_id).1.items.filter
                  (fun it => !(it.id == payload.item_id)),
                updated_at := some now })
              dbS.carts } ∧
      (∀ p0 v0,
        totalQty { dbS with
            carts := cartsUpdateOne
              (recalculate_total { (get_cart_document now db payload.user_id).1 with
                items := (get_cart_document now db payload.user_id).1.items.filter
                  (fun it => !(it.id == payload.item_id)),
                updated_at := some now }).cid
              (recalculate_total { (get_cart_document now db payload.user_id).1 with
                items := (get_cart_document now db payload.user_id).1.items.filter
                  (fun it => !(it.id == payload.item_id)),
                updated_at := some now })
              dbS.carts } p0 v0 =
          totalQty dbS p0 v0 -
            (if itemMatchesKey p0 v0 item then item.quantity else 0)) := by
    intro dbS hwfS hcS hnS hsigS
    have hmemS : (get_cart_document now db payload.user_id).1 ∈ dbS.carts := by
      rw [hcS]; exact hmem1
    obtain ⟨hwfP, htotP⟩ := persist_cart_spec dbS now
      (get_cart_document now db payload.user_id).1
      ((get_cart_document now db payload.user_id).1.items.filter
        (fun it => !(it.id == payload.item_id)))
      hwfS hmemS
      ((List.Sublist.map CartItem.id hsubIt).nodup (u2 _ hmem1))
      (by
        intro it hit
        rw [hnS]
        exact u4 _ hmem1 it (List.mem_of_mem_filter hit))
      (fun it hit => u5 _ hmem1 it (List.mem_of_mem_filter hit))
      (by
        intro it hit ht
        rw [hitsL_congr _ _ _ _ hsigS]
        exact u7 _ hmem1 it (List.mem_of_mem_filter hit) ht)
    refine ⟨hwfP, ?_⟩
    intro p0 v0
    rw [htotP p0 v0,
      filter_out_itemsQty payload.item_id _ item (u2 _ hmem1) hfind p0 v0]
    ring
  by_cases ht : truthy item.variant_id = true
  · rw [if_pos ht]
    have hhit_item : hitsL (get_cart_document now db payload.user_id).2.products
        item.product_id (item.variant_id.getD "") = true :=
      u7 _ hmem1 item hitem_mem ht
    have hsigR := restore_variant_quantity_sig (get_cart_document now db payload.user_id).2
      item.product_id (item.variant_id.getD "") item.quantity
    obtain ⟨psR, hpsR⟩ := restore_variant_quantity_shape
      (get_cart_document now db payload.user_id).2 item.product_id
      (item.variant_id.getD "") item.quantity
    have hcR : (restore_variant_quantity (get_cart_document now db payload.user_id).2
        item.product_id (item.variant_id.getD "") item.quantity).carts =
        (get_cart_document now db payload.user_id).2.carts := by rw [hpsR]
    have hnR : (restore_variant_quantity (get_cart_document now db payload.user_id).2
        item.product_id (item.variant_id.getD "") item.quantity).nextId =
        (get_cart_document now db payload.user_id).2.nextId := by rw [hpsR]
    have hoR : (restore_variant_quantity (get_cart_document now db payload.user_id).2
        item.product_id (item.variant_id.getD "") item.quantity).orders =
        (get_cart_document now db payload.user_id).2.orders := by rw [hpsR]
    obtain ⟨hwfP, htotP⟩ := hpersist _
      (wf_transport _ _ hcR hoR hnR hsigR hwf1) hcR hnR hsigR
    refine ⟨hwfP, ?_⟩
    intro p0 v0 hv0
    rw [htotP p0 v0]
    have htotR : totalQty (restore_variant_quantity
        (get_cart_document now db payload.user_id).2 item.product_id
        (item.variant_id.getD "") item.quantity) p0 v0 =
        totalQty (get_cart_document now db payload.user_id).2 p0 v0 +
          (if item.product_id == p0 && (item.variant_id.getD "") == v0
           then item.quantity else 0) := by
      unfold totalQty stockQty cartsQty ordersQty
      rw [hcR, hoR,
        restore_stockL (get_cart_document now db payload.user_id).2 item.product_id
          (item.variant_id.getD "") item.quantity hitem_pos hhit_item p0 v0]
      ring
    rw [htotR, htot1 p0 v0 hv0]
    unfold itemMatchesKey
    rw [variant_key_cond item.variant_id ht v0]
    by_cases hc1 : (item.product_id == p0) = true
    · by_cases hc2 : ((item.variant_id.getD "") == v0) = true
      · simp only [hc1, hc2, Bool.and_self, if_true]
        ring
      · have hc2f : ((item.variant_id.getD "") == v0) = false := by simpa using hc2
        simp only [hc1, hc2f, Bool.true_and, Bool.false_eq_true, if_false]
        ring
    · have hc1f : (item.product_id == p0) = false := by simpa using hc1
      simp only [hc1f, Bool.false_and, Bool.false_eq_true, if_false]
      ring
  · rw [if_neg ht]
    obtain ⟨hwfP, htotP⟩ := hpersist (get_cart_document now db payload.user_id).2
      hwf1 rfl rfl rfl
    refine ⟨hwfP, ?_⟩
    intro p0 v0 hv0
    rw [htotP p0 v0, itemMatchesKey_false_of_not_truthy item ht p0 v0 hv0]
    simp only [Bool.false_eq_true, if_false, sub_zero]
    exact htot1 p0 v0 hv0

theorem ordersSum_append (os1 os2 : List OrderDoc) (p0 v0 : String) :
    (((os1 ++ os2).filter (fun x => !(x.status == OrderStatus.CANCELED))).map
        (fun x => itemsQty x.items p0 v0)).sum =
      ((os1.filter (fun x => !(x.status == OrderStatus.CANCELED))).map
        (fun x => itemsQty x.items p0 v0)).sum +
      ((os2.filter (fun x => !(x.status == OrderStatus.CANCELED))).map
        (fun x => itemsQty x.items p0 v0)).sum := by
  simp [List.filter_append]

theorem orders_get_cart_mem (db : DB) (uid : Int) (cart : CartDoc)
    (h : orders_get_cart db uid = some cart) : cart ∈ db.carts := by
  unfold orders_get_cart at h
  cases hf : db.carts.find? (fun c => c.user_id == uid) with
  | none => simp [hf] at h
  | some c =>
    simp only [hf] at h
    by_cases he : c.items.isEmpty = true
    · simp [he] at h
    · rw [if_neg he] at h
      cases h
      exact List.mem_of_find?_eq_some hf

/-- `POST /order` preserves the invariants and conserved stock totals: an
order freezes the cart's reservation without touching stock. -/
theorem createOrder_preserves (now : Nat) (req : CreateOrderRequest) (insertFails : Bool)
    (db : DB) (hwf : Wf db) :
    Wf (create_order now req insertFails db).1 ∧
    (∀ p0 v0, v0 ≠ "" →
      totalQty (create_order now req insertFails db).1 p0 v0 = totalQty db p0 v0) := by
  unfold create_order ensure_store_is_awake
  by_cases hsleep : db.storeSleeping = true
  · rw [if_pos hsleep]
    exact ⟨hwf, fun _ _ _ => rfl⟩
  · rw [if_neg hsleep]
    simp only
    cases hoc : orders_get_cart db req.user_id with
    | none => exact ⟨hwf, fun _ _ _ => rfl⟩
    | some cart =>
    simp only
    by_cases hneg : negativeStockCheckTrips db cart.items = true
    · rw [if_pos hneg]
      exact ⟨hwf, fun _ _ _ => rfl⟩
    · rw [if_neg hneg]
      unfold save_payment_receipt
      by_cases hrc : req.receipt_ok = true
      · rw [if_neg (by simp [hrc])]
        simp only
        obtain ⟨w1, w2, w3, w4, w5, w6, w7, w8⟩ := hwf
        have hmem : cart ∈ db.carts := orders_get_cart_mem db req.user_id cart hoc
        by_cases hif : insertFails = true
        · rw [if_pos hif]
          refine ⟨?_, ?_⟩
          · refine ⟨w1, w2, ?_, ?_, w5, w6, w7, w8⟩
            · intro c hc
              exact Nat.lt_succ_of_lt (w3 c hc)
            · intro c hc it hit
              exact Nat.lt_succ_of_lt (w4 c hc it hit)
          · intro p0 v0 hv0
            exact totalQty_congr db _ rfl rfl rfl p0 v0
        · rw [if_neg hif]
          constructor
          · refine ⟨?_, ?_, ?_, ?_, ?_, ?_, ?_, ?_⟩
            · exact (List.Sublist.map CartDoc.cid (cartsDeleteOne_sublist cart.cid db.carts)).nodup w1
            · intro c hc
              exact w2 c ((cartsDeleteOne_sublist cart.cid db.carts).mem hc)
            · intro c hc
              exact Nat.lt_succ_of_lt (Nat.lt_succ_of_lt
                (w3 c ((cartsDeleteOne_sublist cart.cid db.carts).mem hc)))
            · intro c hc it hit
              exact Nat.lt_succ_of_lt (Nat.lt_succ_of_lt
                (w4 c ((cartsDeleteOne_sublist cart.cid db.carts).mem hc) it hit))
            · intro c hc it hit
              exact w5 c ((cartsDeleteOne_sublist cart.cid db.carts).mem hc) it hit
            · intro o ho it hit
              rcases List.mem_append.mp ho with h1 | h2
              · exact w6 o h1 it hit
              · rw [List.mem_singleton.mp h2] at hit
                exact w5 cart hmem it hit
            · intro c hc it hit ht
              exact w7 c ((cartsDeleteOne_sublist cart.cid db.carts).mem hc) it hit ht
            · intro o ho it hit ht
              rcases List.mem_append.mp ho with h1 | h2
              · exact w8 o h1 it hit ht
              · rw [List.mem_singleton.mp h2] at hit
                exact w7 cart hmem it hit ht
          · intro p0 v0 hv0
            unfold totalQty stockQty cartsQty ordersQty
            simp only
            rw [cartsSum_deleteOne p0 v0 db.carts cart w1 hmem, ordersSum_append]
            have hnewOrder :
                (([({ oid := db.nextId + 1, user_id := req.user_id,
                      status := OrderStatus.PROCESSING, items := cart.items,
                      total_amount := cart.total_amount, can_edit_address := true,
                      delivery_address := req.address, created_at := now,
                      updated_at := now, receipt_file_id := db.nextId } : OrderDoc)].filter
                    (fun x => !(x.status == OrderStatus.CANCELED))).map
                  (fun x => itemsQty x.items p0 v0)).sum = itemsQty cart.items p0 v0 := by
              simp [OrderStatus.PROCESSING, OrderStatus.CANCELED]
            rw [hnewOrder]
            ring
      · rw [if_pos (by simp [hrc])]
        exact ⟨hwf, fun _ _ _ => rfl⟩

/-- Cancellation's restore loop at state level: invariants survive and each
key's total grows by the restored items' reservation. -/
theorem restore_items_db_spec (db : DB) (items : List CartItem) (hwf : Wf db)
    (hhits : ∀ it ∈ items, truthy it.variant_id →
      hitsL db.products it.product_id (it.variant_id.getD "") = true)
    (hpos : ∀ it ∈ items, 0 < it.quantity) :
    Wf (restore_items db items) ∧
    (restore_items db items).carts = db.carts ∧
    (restore_items db items).orders = db.orders ∧
    (restore_items db items).nextId = db.nextId ∧
    (restore_items db items).products.map (fun x => (x.oid, x.variants.map Variant.id)) =
      db.products.map (fun x => (x.oid, x.variants.map Variant.id)) ∧
    (∀ p0 v0, v0 ≠ "" →
      totalQty (restore_items db items) p0 v0 =
        totalQty db p0 v0 + itemsQty items p0 v0) := by
  obtain ⟨ps, hps⟩ := restore_items_shape items db
  have hsig := restore_items_sig items db
  have hc : (restore_items db items).carts = db.carts := by rw [hps]
  have ho : (restore_items db items).orders = db.orders := by rw [hps]
  have hn : (restore_items db items).nextId = db.nextId := by rw [hps]
  refine ⟨wf_transport db _ hc ho hn hsig hwf, hc, ho, hn, hsig, ?_⟩
  intro p0 v0 hv0
  unfold totalQty stockQty cartsQty ordersQty
  rw [hc, ho, restore_items_stockL items db hhits hpos p0 v0 hv0]
  ring

/-- Rewriting an order in place with the same frozen items: invariants
survive and the totals shift by the canceled-ness change of that order. -/
theorem orders_write_spec (db : DB) (order_id : Nat) (o updated : OrderDoc) (hwf : Wf db)
    (hfind : db.orders.find? (fun x => x.oid == order_id) = some o)
    (hitems : updated.items = o.items) :
    Wf { db with orders := ordersUpdateOne order_id updated db.orders } ∧
    (∀ p0 v0,
      totalQty { db with orders := ordersUpdateOne order_id updated db.orders } p0 v0 =
        totalQty db p0 v0
          - (if !(o.status == OrderStatus.CANCELED) then itemsQty o.items p0 v0 else 0)
          + (if !(updated.status == OrderStatus.CANCELED)
             then itemsQty o.items p0 v0 else 0)) := by
  obtain ⟨w1, w2, w3, w4, w5, w6, w7, w8⟩ := hwf
  have hom : o ∈ db.orders := List.mem_of_find?_eq_some hfind
  constructor
  · refine ⟨w1, w2, w3, w4, w5, ?_, w7, ?_⟩
    · intro x hx it hit
      rcases mem_ordersUpdateOne order_id updated db.orders x hx with rfl | h2
      · rw [hitems] at hit
        exact w6 o hom it hit
      · exact w6 x h2 it hit
    · intro x hx it hit ht
      rcases mem_ordersUpdateOne order_id updated db.orders x hx with rfl | h2
      · rw [hitems] at hit
        exact w8 o hom it hit ht
      · exact w8 x h2 it hit ht
  · intro p0 v0
    unfold totalQty stockQty cartsQty ordersQty
    simp only
    rw [ordersSum_updateOne updated p0 v0 db.orders o order_id hfind, hitems]
    ring

/-- The admin status endpoint preserves the invariants and the conserved
totals as long as it does not move an order out of `canceled`. -/
theorem adminStatus_preserves (now : Nat) (order_id : Nat) (new_status : String) (db : DB)
    (hwf : Wf db)
    (hsafe : revivesCanceled db (.adminSetStatus now order_id new_status) = false) :
    Wf (update_order_status now order_id new_status db).1 ∧
    (∀ p0 v0, v0 ≠ "" →
      totalQty (update_order_status now order_id new_status db).1 p0 v0 =
        totalQty db p0 v0) := by
  unfold update_order_status
  cases hfind : db.orders.find? (fun o => o.oid == order_id) with
  | none =>
    simp only [hfind]
    exact ⟨hwf, by simp⟩
  | some old_doc =>
  simp only [hfind]
  simp only [revivesCanceled, hfind] at hsafe
  have hom : old_doc ∈ db.orders := List.mem_of_find?_eq_some hfind
  obtain ⟨w1, w2, w3, w4, w5, w6, w7, w8⟩ := hwf
  have hwf : Wf db := ⟨w1, w2, w3, w4, w5, w6, w7, w8⟩
  by_cases hnc : (new_status == OrderStatus.CANCELED) = true
  · by_cases hoc : (old_doc.status == OrderStatus.CANCELED) = true
    · rw [if_neg (by simp [hoc])]
      simp only [hfind]
      obtain ⟨hwfW, htotW⟩ := orders_write_spec db order_id old_doc
        { old_doc with
            status := new_status
            updated_at := now
            can_edit_address := (new_status == OrderStatus.NEW ||
              new_status == OrderStatus.PROCESSING) } hwf hfind rfl
      refine ⟨hwfW, ?_⟩
      intro p0 v0 hv0
      rw [htotW p0 v0]
      have hncs : new_status = OrderStatus.CANCELED := by simpa using hnc
      simp only [hoc, Bool.not_true, Bool.false_eq_true, if_false, hncs]
      simp only [beq_self_eq_true, Bool.not_true, Bool.false_eq_true, if_false]
      ring
    · rw [if_pos (by simp [hnc, hoc])]
      obtain ⟨hwfR, hcR, hoR, hnR, hsigR, htotR⟩ := restore_items_db_spec db old_doc.items
        hwf (fun it hit ht => w8 old_doc hom it hit ht) (fun it hit => w6 old_doc hom it hit)
      have hfind2 : (restore_items db old_doc.items).orders.find?
          (fun o => o.oid == order_id) = some old_doc := by
        rw [hoR]; exact hfind
      simp only [hfind2]
      obtain ⟨hwfW, htotW⟩ := orders_write_spec (restore_items db old_doc.items) order_id
        old_doc
        { old_doc with
            status := new_status
            updated_at := now
            can_edit_address := (new_status == OrderStatus.NEW ||
              new_status == OrderStatus.PROCESSING) } hwfR hfind2 rfl
      refine ⟨hwfW, ?_⟩
      intro p0 v0 hv0
      rw [htotW p0 v0, htotR p0 v0 hv0]
      have hocf : (old_doc.status == OrderStatus.CANCELED) = false := by simpa using hoc
      have hncs : new_status = OrderStatus.CANCELED := by simpa using hnc
      simp only [hocf, Bool.not_false, if_true, hncs]
      simp only [beq_self_eq_true, Bool.not_true, Bool.false_eq_true, if_false]
      ring
  · have hocf : (old_doc.status == OrderStatus.CANCELED) = false := by
      by_contra hc
      simp only [Bool.not_eq_false] at hc
      rw [hc] at hsafe
      have hncf : (new_status == OrderStatus.CANCELED) = false := by simpa using hnc
      rw [hncf] at hsafe
      simp at hsafe
    rw [if_neg (by simp [hnc])]
    simp only [hfind]
    obtain ⟨hwfW, htotW⟩ := orders_write_spec db order_id old_doc
      { old_doc with
          status := new_status
          updated_at := now
          can_edit_address := (new_status == OrderStatus.NEW ||
            new_status == OrderStatus.PROCESSING) } hwf hfind rfl
    refine ⟨hwfW, ?_⟩
    intro p0 v0 hv0
    rw [htotW p0 v0]
    have hncf : (new_status == OrderStatus.CANCELED) = false := by simpa using hnc
    simp only [hocf, hncf, Bool.not_false, if_true]
    ring

/-- The bot webhook's order callbacks preserve the invariants and conserved
totals as long as they do not move an order out of `canceled`. -/
theorem botCallback_preserves (now : Nat) (is_admin : Bool) (cb : BotCallback) (db : DB)
    (hwf : Wf db)
    (hsafe : revivesCanceled db (.botCallback now is_admin cb) = false) :
    Wf (handle_bot_webhook now is_admin cb db).1 ∧
    (∀ p0 v0, v0 ≠ "" →
      totalQty (handle_bot_webhook now is_admin cb db).1 p0 v0 = totalQty db p0 v0) := by
  unfold handle_bot_webhook
  by_cases hadm : is_admin = true
  · rw [if_neg (by simp [hadm])]
    simp only [revivesCanceled, hadm, Bool.true_and] at hsafe
    obtain ⟨w1, w2, w3, w4, w5, w6, w7, w8⟩ := hwf
    have hwf : Wf db := ⟨w1, w2, w3, w4, w5, w6, w7, w8⟩
    cases cb with
    | status order_id new_status =>
      simp only
      cases hfind : db.orders.find? (fun o => o.oid == order_id) with
      | none =>
        simp only [hfind]
        exact ⟨hwf, by simp⟩
      | some doc =>
      simp only [hfind]
      simp only [hfind] at hsafe
      have hom : doc ∈ db.orders := List.mem_of_find?_eq_some hfind
      by_cases hval : validStatuses.contains new_status = true
      · rw [if_neg (by rw [hval]; simp)]
        by_cases hsame : (doc.status == new_status) = true
        · rw [if_pos hsame]
          exact ⟨hwf, by simp⟩
        · rw [if_neg hsame]
          by_cases hnc : (new_status == OrderStatus.CANCELED) = true
          · have hocf : (doc.status == OrderStatus.CANCELED) = false := by
              have hns : new_status = OrderStatus.CANCELED := by simpa using hnc
              rw [hns] at hsame
              simpa using hsame
            rw [if_pos (by simp [hnc, hocf])]
            obtain ⟨hwfR, hcR, hoR, hnR, hsigR, htotR⟩ := restore_items_db_spec db doc.items
              hwf (fun it hit ht => w8 doc hom it hit ht) (fun it hit => w6 doc hom it hit)
            have hfind2 : (restore_items db doc.items).orders.find?
                (fun o => o.oid == order_id) = some doc := by
              rw [hoR]; exact hfind
            simp only [hfind2]
            obtain ⟨hwfW, htotW⟩ := orders_write_spec (restore_items db doc.items) order_id
              doc
              { doc with
                  status := new_status
                  updated_at := now
                  can_edit_address := (new_status == OrderStatus.NEW ||
                    new_status == OrderStatus.PROCESSING) } hwfR hfind2 rfl
            refine ⟨hwfW, ?_⟩
            intro p0 v0 hv0
            rw [htotW p0 v0, htotR p0 v0 hv0]
            have hncs : new_status = OrderStatus.CANCELED := by simpa using hnc
            simp only [hocf, Bool.not_false, if_true, hncs]
            simp only [beq_self_eq_true, Bool.not_true, Bool.false_eq_true, if_false]
            ring
          · have hocf : (doc.status == OrderStatus.CANCELED) = false := by
              by_contra hc
              simp only [Bool.not_eq_false] at hc
              rw [hval, hc] at hsafe
              have hsf : (doc.status == new_status) = false := by simpa using hsame
              rw [hsf] at hsafe
              simp at hsafe
            rw [if_neg (by simp [hnc])]
            simp only [hfind]
            obtain ⟨hwfW, htotW⟩ := orders_write_spec db order_id doc
              { doc with
                  status := new_status
                  updated_at := now
                  can_edit_address := (new_status == OrderStatus.NEW ||
                    new_status == OrderStatus.PROCESSING) } hwf hfind rfl
            refine ⟨hwfW, ?_⟩
            intro p0 v0 hv0
            rw [htotW p0 v0]
            have hncf : (new_status == OrderStatus.CANCELED) = false := by simpa using hnc
            simp only [hocf, hncf, Bool.not_false, if_true]
            ring
      · have hvf : validStatuses.contains new_status = false := Bool.eq_false_iff.mpr hval
        rw [if_pos (by rw [hvf]; rfl)]
        exact ⟨hwf, by simp⟩
    | accept order_id =>
      simp only
      cases hfind : db.orders.find? (fun o => o.oid == order_id) with
      | none =>
        simp only [hfind]
        exact ⟨hwf, by simp⟩
      | some cur =>
      simp only [hfind]
      simp only [hfind] at hsafe
      have hom : cur ∈ db.orders := List.mem_of_find?_eq_some hfind
      obtain ⟨hwfW, htotW⟩ := orders_write_spec db order_id cur
        { cur with
            status := OrderStatus.ACCEPTED
            updated_at := now
            can_edit_address := false } hwf hfind rfl
      refine ⟨hwfW, ?_⟩
      intro p0 v0 hv0
      rw [htotW p0 v0]
      have hocf : (cur.status == OrderStatus.CANCELED) = false := hsafe
      have haccf : ((OrderStatus.ACCEPTED : String) == OrderStatus.CANCELED) = false := by
        decide
      simp only [hocf, haccf, Bool.not_false, if_true]
      ring
    | cancel order_id =>
      simp only
      cases hfind : db.orders.find? (fun o => o.oid == order_id) with
      | none =>
        simp only [hfind]
        exact ⟨hwf, by simp⟩
      | some doc =>
      simp only [hfind]
      have hom : doc ∈ db.orders := List.mem_of_find?_eq_some hfind
      by_cases hterm : (doc.status == OrderStatus.SHIPPED ||
          doc.status == OrderStatus.DONE || doc.status == OrderStatus.CANCELED) = true
      · rw [if_pos hterm]
        exact ⟨hwf, by simp⟩
      · rw [if_neg hterm]
        have hocf : (doc.status == OrderStatus.CANCELED) = false := by
          simp only [Bool.or_eq_true, not_or, Bool.not_eq_true] at hterm
          exact hterm.2
        obtain ⟨hwfR, hcR, hoR, hnR, hsigR, htotR⟩ := restore_items_db_spec db doc.items
          hwf (fun it hit ht => w8 doc hom it hit ht) (fun it hit => w6 doc hom it hit)
        have hfind2 : (restore_items db doc.items).orders.find?
            (fun o => o.oid == order_id) = some doc := by
          rw [hoR]; exact hfind
        simp only [hfind2]
        obtain ⟨hwfW, htotW⟩ := orders_write_spec (restore_items db doc.items) order_id doc
          { doc with
              status := OrderStatus.CANCELED
              updated_at := now
              can_edit_address := false } hwfR hfind2 rfl
        refine ⟨hwfW, ?_⟩
        intro p0 v0 hv0
        rw [htotW p0 v0, htotR p0 v0 hv0]
        simp only [hocf, Bool.not_false, if_true]
        simp only [beq_self_eq_true, Bool.not_true, Bool.false_eq_true, if_false]
        ring
  · rw [if_pos (by simpa using hadm)]
    exact ⟨hwf, fun _ _ _ => rfl⟩

/-- The address endpoint preserves the invariants and conserved totals. -/
theorem updateAddress_preserves (now : Nat) (order_id : Nat) (user : Int)
    (payload : UpdateAddressRequest) (db : DB) (hwf : Wf db) :
    Wf (update_order_address now order_id user payload db).1 ∧
    (∀ p0 v0, v0 ≠ "" →
      totalQty (update_order_address now order_id user payload db).1 p0 v0 =
        totalQty db p0 v0) := by
  unfold update_order_address
  cases hfind : db.orders.find? (fun o => o.oid == order_id) with
  | none =>
    simp only [hfind]
    exact ⟨hwf, by simp⟩
  | some doc =>
  simp only [hfind]
  by_cases huser : (doc.user_id == user) = true
  · rw [if_neg (by simp [huser])]
    by_cases hst : (doc.status == OrderStatus.PROCESSING) = true
    · rw [if_neg (by simp [hst])]
      obtain ⟨hwfW, htotW⟩ := orders_write_spec db order_id doc
        { doc with
            delivery_address := payload.address
            updated_at := now
            can_edit_address := true } hwf hfind rfl
      refine ⟨hwfW, ?_⟩
      intro p0 v0 hv0
      rw [htotW p0 v0]
      ring
    · rw [if_pos (by simpa using hst)]
      exact ⟨hwf, by simp⟩
  · rw [if_pos (by simpa using huser)]
    exact ⟨hwf, by simp⟩

/-- A single well-formed, non-reviving endpoint invocation preserves the
invariants and the conserved per-variant totals. -/
theorem applyOp_preserves (db : DB) (op : Op) (hwf : Wf db)
    (hpos : posOp op = true) (hrev : revivesCanceled db op = false) :
    Wf (applyOp db op) ∧
    (∀ p0 v0, v0 ≠ "" → totalQty (applyOp db op) p0 v0 = totalQty db p0 v0) := by
  cases op with
  | getCart now uid => exact getCart_preserves now uid db hwf
  | addItem now payload =>
    exact addItem_preserves now payload db hwf (by simpa [posOp] using hpos)
  | updateItem now payload =>
    exact updateItem_preserves now payload db hwf (by simpa [posOp] using hpos)
  | removeItem now payload => exact removeItem_preserves now payload db hwf
  | createOrder now req insertFails => exact createOrder_preserves now req insertFails db hwf
  | adminSetStatus now order_id new_status =>
    exact adminStatus_preserves now order_id new_status db hwf hrev
  | botCallback now is_admin cb => exact botCallback_preserves now is_admin cb db hwf hrev
  | updateAddress now order_id user payload =>
    exact updateAddress_preserves now order_id user payload db hwf

/-- Running a safe trace preserves the invariants and the conserved totals. -/
theorem runOps_preserves (ops : List Op) (db : DB) (hwf : Wf db)
    (hsafe : safeTrace db ops = true) :
    Wf (runOps db ops) ∧
    (∀ p0 v0, v0 ≠ "" → totalQty (runOps db ops) p0 v0 = totalQty db p0 v0) := by
  induction ops generalizing db with
  | nil => exact ⟨hwf, fun _ _ _ => rfl⟩
  | cons op ops ih =>
    simp only [safeTrace, Bool.and_eq_true, Bool.not_eq_true'] at hsafe
    obtain ⟨⟨hpos, hrev⟩, hrest⟩ := hsafe
    obtain ⟨hwf1, htot1⟩ := applyOp_preserves db op hwf hpos hrev
    obtain ⟨hwf2, htot2⟩ := ih (applyOp db op) hwf1 hrest
    refine ⟨hwf2, ?_⟩
    intro p0 v0 hv0
    have hr : runOps db (op :: ops) = runOps (applyOp db op) ops := rfl
    rw [hr, htot2 p0 v0 hv0, htot1 p0 v0 hv0]

/-! ## Concrete fixtures -/

/-- A canonical valid product object id. -/
def pidA : String := "aaaaaaaaaaaaaaaaaaaaaaaa"

/-- A second valid object id, used for dangling references. -/
def pidB : String := "bbbbbbbbbbbbbbbbbbbbbbbb"

def varA : Variant := { id := "v1", name := "Red", quantity := 5, image := none }

def prodA : ProductDoc :=
  { oid := pidA, name := "Shirt", price := 10, image := none, variants := [varA] }

/-- A seeded deployment: one product, one variant with five units in stock. -/
def db0 : DB :=
  { products := [prodA], carts := [], orders := [], customers := [], blobs := [],
    nextId := 100, storeSleeping := false }

/-- A product whose variants array carries two entries with the same id (the
admin catalog endpoints pass variant ids through from the payload unchecked). -/
def prodDup : ProductDoc :=
  { oid := pidA, name := "Shirt", price := 10, image := none,
    variants := [{ id := "v1", name := "Red", quantity := 0, image := none },
                 { id := "v1", name := "Blue", quantity := 5, image := none }] }

def dbDup : DB := { db0 with products := [prodDup] }

def reqAdd : AddToCartRequest :=
  { user_id := 1, product_id := pidA, variant_id := some "v1", quantity := 3 }

/-- A one-unit add-to-cart request for `(prodA, v1)`. -/
def reqAdd1 : AddToCartRequest :=
  { user_id := 1, product_id := pidA, variant_id := some "v1", quantity := 1 }

def reqOrder : CreateOrderRequest :=
  { user_id := 1, name := "n", phone := "p", address := "a", comment := none,
    receipt_ok := true }

def opsAdd : List Op := [.addItem 0 reqAdd]

/-- Add to cart, place the order, cancel it, then set it back to processing. -/
def opsRevive : List Op :=
  [.addItem 0 reqAdd, .createOrder 1 reqOrder false,
   .adminSetStatus 2 103 OrderStatus.CANCELED, .adminSetStatus 3 103 OrderStatus.PROCESSING]

def prodTwo : ProductDoc :=
  { oid := pidA, name := "Shirt", price := 10, image := none,
    variants := [{ id := "v1", name := "Red", quantity := 2, image := none },
                 { id := "v2", name := "Blue", quantity := 7, image := none }] }

def itm3 : CartItem :=
  { id := 11, product_id := pidA, variant_id := some "v1", product_name := "Shirt",
    variant_name := some "Red", quantity := 3, price := 10, image := none }

def itm1 : CartItem :=
  { id := 12, product_id := pidA, variant_id := some "v2", product_name := "Shirt",
    variant_name := some "Blue", quantity := 1, price := 10, image := none }

/-- An order holding two items: three units of `v1` and one unit of `v2`. -/
def ordActive : OrderDoc :=
  { oid := 103, user_id := 1, status := OrderStatus.PROCESSING, items := [itm3, itm1],
    total_amount := 40, can_edit_address := true, delivery_address := "a",
    created_at := 0, updated_at := 0, receipt_file_id := 9 }

def dbOrd : DB :=
  { products := [prodTwo], carts := [], orders := [ordActive], customers := [],
    blobs := [], nextId := 200, storeSleeping := false }

def ordDone : OrderDoc := { ordActive with status := OrderStatus.DONE }

def dbDone : DB := { dbOrd with orders := [ordDone] }

def ordNew : OrderDoc := { ordActive with status := OrderStatus.NEW }

def dbNew : DB := { dbOrd with orders := [ordNew] }

/-- An item-less cart last touched at time 0. -/
def emptyExpiredCart : CartDoc :=
  { cid := 50, user_id := 7, items := [], total_amount := 0,
    created_at := some 0, updated_at := some 0 }

def dbE : DB :=
  { products := [], carts := [emptyExpiredCart], orders := [], customers := [],
    blobs := [], nextId := 60, storeSleeping := false }

/-- A cart holding three reserved units of `v1`, last touched at time 0. -/
def cartR : CartDoc :=
  { cid := 50, user_id := 7, items := [itm3], total_amount := 30,
    created_at := some 0, updated_at := some 0 }

def dbR : DB :=
  { products := [prodTwo], carts := [cartR], orders := [], customers := [],
    blobs := [], nextId := 60, storeSleeping := false }

def prodS3 : ProductDoc :=
  { oid := pidA, name := "Shirt", price := 10, image := none,
    variants := [{ id := "v1", name := "Red", quantity := 3, image := none }] }

def itemM : CartItem :=
  { id := 50, product_id := pidA, variant_id := some "v1", product_name := "Shirt",
    variant_name := some "Red", quantity := 2, price := 10, image := none }

/-- A cart already holding two units of `(prodS3, v1)`. -/
def cartM : CartDoc :=
  { cid := 40, user_id := 1, items := [itemM], total_amount := 20,
    created_at := some 100, updated_at := some 100 }

def dbM : DB :=
  { products := [prodS3], carts := [cartM], orders := [], customers := [],
    blobs := [], nextId := 60, storeSleeping := false }

/-- A cart with one item for order placement. -/
def cartO : CartDoc :=
  { cid := 40, user_id := 1, items := [itm3], total_amount := 30,
    created_at := some 0, updated_at := some 0 }

def dbC8 : DB :=
  { products := [prodTwo], carts := [cartO], orders := [], customers := [],
    blobs := [7], nextId := 60, storeSleeping := false }

/-- A cart item whose referenced product document does not exist. -/
def itemGhost : CartItem :=
  { id := 70, product_id := pidB, variant_id := some "v1", product_name := "Gone",
    variant_name := some "Red", quantity := 2, price := 10, image := none }

def cartG : CartDoc :=
  { cid := 40, user_id := 1, items := [itemGhost], total_amount := 20,
    created_at := some 100, updated_at := some 100 }

def dbG : DB :=
  { products := [], carts := [cartG], orders := [], customers := [],
    blobs := [], nextId := 80, storeSleeping := false }

/-! ## Claim C1 -/

theorem incFirstMatch_isSome_guarded (vid : String) (g diff : Int) :
    ∀ vs : List Variant, ∀ v ∈ vs, v.id = vid → g ≤ v.quantity →
      ∃ vs', incFirstMatch vid (some g) diff vs = some vs' := by
  intro vs
  induction vs with
  | nil => intro v hv; simp at hv
  | cons w rest ih =>
    intro v hv hid hq
    by_cases hg : elemGuard vid (some g) w = true
    · exact ⟨{ w with quantity := w.quantity + diff } :: rest, by simp [incFirstMatch, hg]⟩
    · rcases List.mem_cons.mp hv with rfl | hmem
      · exact absurd (by simp [elemGuard, hid, hq]) hg
      · obtain ⟨tail, htail⟩ := ih v hmem hid hq
        exact ⟨w :: tail, by simp [incFirstMatch, hg, htail]⟩

theorem updateInc_isSome_guarded (oid vid : String) (g diff : Int) :
    ∀ ps : List ProductDoc, ∀ p, ps.find? (fun x => x.oid == oid) = some p →
      ∀ v ∈ p.variants, v.id = vid → g ≤ v.quantity →
      ∃ ps', productsUpdateIncFirst oid vid (some g) diff ps = some ps' := by
  intro ps
  induction ps with
  | nil => intro p h; simp at h
  | cons hd rest ih =>
    intro p h v hv hid hq
    rw [find?_cons_eq] at h
    by_cases hp : (hd.oid == oid) = true
    · rw [if_pos hp] at h
      cases h
      obtain ⟨vs', hvs⟩ := incFirstMatch_isSome_guarded vid g diff hd.variants v hv hid hq
      exact ⟨{ hd with variants := vs' } :: rest, by simp [productsUpdateIncFirst, hp, hvs]⟩
    · rw [if_neg hp] at h
      obtain ⟨tail, htail⟩ := ih p h v hv hid hq
      refine ⟨hd :: tail, ?_⟩
      rw [productsUpdateIncFirst, if_neg hp, htail]
      rfl

/-- C1: corrected. The stock deduction performed at add-to-cart time is
`deduct_variant_quantity`, a read-then-check-then-write: it reads the first
product with the given id, checks the first variant whose id matches against
the requested quantity, raises the insufficient-stock error when that single
element is short, and otherwise writes the whole variants array back with
that element decremented.  It is not the single atomic conditional update of
`decrement_variant_quantity`, whose `$elemMatch` guard admits whenever any
(not just the first) variant with the id has sufficient quantity. -/
theorem c1_add_time_deduction (db : DB) (pid vid : String) (q : Int)
    (product : ProductDoc) (variant : Variant)
    (hx : as_object_id pid = some pid)
    (hfind : db.products.find? (fun p => p.oid == pid) = some product)
    (hvar : product.variants.find? (fun v => v.id == vid) = some variant) :
    deduct_variant_quantity db pid vid q =
      (if variant.quantity < q then
        .error { status_code := 400, detail := "insufficient stock" }
      else
        .ok { db with
              products :=
                productsSetVariants pid
                  (setFirstVariantQty vid (variant.quantity - q) product.variants)
                  db.products }) ∧
    (0 < q → ∀ v ∈ product.variants, v.id = vid → q ≤ v.quantity →
      (decrement_variant_quantity db pid vid q).1 = true) := by
  constructor
  · by_cases h : variant.quantity < q
    · rw [if_pos h]
      exact deduct_insufficient db pid vid q product variant hx hfind hvar h
    · rw [if_neg h]
      exact deduct_spec db pid vid q product variant hx hfind hvar h
  · intro hq v hv hid hvq
    rw [decrement_variant_quantity, if_neg (by omega)]
    rw [update_variant_quantity, if_neg (show ¬ (-q = 0) by omega), hx]
    have hgd : (if -q < 0 && true then some (-(-q)) else none) = some q := by
      rw [if_pos (by simp; omega), neg_neg]
    simp only [hgd]
    obtain ⟨ps', hps⟩ :=
      updateInc_isSome_guarded pid vid q (-q) db.products product hfind v hv hid hvq
    simp only [hps]

/-- C1: counterexample to the claimed atomic-conditional-update semantics.
On a product whose variants array holds two entries with id `v1` (quantities
0 and 5), the add-to-cart path refuses one unit with the insufficient-stock
error (its check reads only the first matching element), while the atomic
conditional update admits the same request by decrementing the second
element.  The two admission controls are observably different, so the
add-to-cart deduction is not the atomic conditional update. -/
theorem c1_counterexample :
    (add_to_cart 0 reqAdd1 dbDup).2 =
      .error { status_code := 400, detail := "insufficient stock" } ∧
    (add_to_cart 0 reqAdd1 dbDup).1 = dbDup ∧
    deduct_variant_quantity dbDup pidA "v1" 1 =
      .error { status_code := 400, detail := "insufficient stock" } ∧
    (decrement_variant_quantity dbDup pidA "v1" 1).1 = true ∧
    (decrement_variant_quantity dbDup pidA "v1" 1).2 ≠ dbDup :=
  ⟨rfl, by decide, rfl, by decide, by decide⟩

/-- C1: witness instantiating the deduction shape on the seeded deployment. -/
theorem c1_witness :
    deduct_variant_quantity db0 pidA "v1" 2 =
      .ok { db0 with
            products :=
              productsSetVariants pidA (setFirstVariantQty "v1" 3 prodA.variants)
                db0.products } ∧
    (decrement_variant_quantity db0 pidA "v1" 2).1 = true :=
  ⟨((c1_add_time_deduction db0 pidA "v1" 2 prodA varA (by decide) (by decide)
      (by decide)).1).trans (by rfl),
   (c1_add_time_deduction db0 pidA "v1" 2 prodA varA (by decide) (by decide)
      (by decide)).2 (by decide) varA (by decide) (by decide) (by decide)⟩

/-! ## Claim C5 -/

/-- C5: corrected.  For a user whose cart HOLDS ITEMS and has been idle longer
than ten minutes (`now` minus `updated_at`, or `created_at` when `updated_at`
is absent, exceeds the window), the next cart access restores the full
reserved quantity of every variant-bearing item back to stock, deletes the old
cart and yields a fresh empty cart; a cart accessed within the window is left
intact.  An item-less idle cart, however, is returned as is (see the
counterexample), so the claim's unrestricted expiry policy does not hold. -/
theorem c5_expiry_reclaim (now : Nat) (uid : Int) (db : DB) (cart : CartDoc)
    (hwf : Wf db)
    (hfind : db.carts.find? (fun c => c.user_id == uid) = some cart)
    (hne : cart.items.isEmpty = false) :
    (cartExpired now cart = true →
      get_cart_document now db uid =
        (freshCart now uid db.nextId,
         { restore_items db cart.items with
             carts := cartsDeleteOne cart.cid (restore_items db cart.items).carts ++
               [freshCart now uid db.nextId]
             nextId := db.nextId + 1 }) ∧
      (∀ p0 v0, v0 ≠ "" →
        stockQty (get_cart_document now db uid).2 p0 v0 =
          stockQty db p0 v0 + itemsQty cart.items p0 v0)) ∧
    (cartExpired now cart = false → get_cart_document now db uid = (cart, db)) := by
  obtain ⟨w1, w2, w3, w4, w5, w6, w7, w8⟩ := hwf
  have hmem : cart ∈ db.carts := List.mem_of_find?_eq_some hfind
  have hcl : cleanup_expired_cart now db cart =
      if cart.items.isEmpty then (false, db)
      else if cartExpired now cart then
        (true,
          { restore_items db cart.items with
            carts := cartsDeleteOne cart.cid (restore_items db cart.items).carts })
      else (false, db) := cleanup_eq now db cart
  rw [hne] at hcl
  simp only [Bool.false_eq_true, if_false] at hcl
  constructor
  · intro hexp
    rw [hexp, if_pos rfl] at hcl
    obtain ⟨ps, hps⟩ := restore_items_shape cart.items db
    have hg : get_cart_document now db uid =
        (freshCart now uid db.nextId,
         { restore_items db cart.items with
             carts := cartsDeleteOne cart.cid (restore_items db cart.items).carts ++
               [freshCart now uid db.nextId]
             nextId := db.nextId + 1 }) := by
      unfold get_cart_document
      rw [hfind]
      simp only [hcl, hps]
      simp
    refine ⟨hg, ?_⟩
    intro p0 v0 hv0
    rw [hg]
    show stockL (restore_items db cart.items).products p0 v0 = _
    exact restore_items_stockL cart.items db
      (fun it hit ht => w7 cart hmem it hit ht) (fun it hit => w5 cart hmem it hit) p0 v0 hv0
  · intro hexp
    rw [hexp] at hcl
    simp only [Bool.false_eq_true, if_false] at hcl
    unfold get_cart_document
    rw [hfind]
    simp only [hcl]
    simp

/-- C5: counterexample.  An item-less cart idle for far longer than the expiry
window is neither deleted nor refreshed on the next access: the endpoint hands
back the stale document itself (timestamps still at 0) and leaves the carts
collection unchanged, where the claim promises deletion plus a fresh cart. -/
theorem c5_counterexample :
    cartExpired 10000 emptyExpiredCart = true ∧
    get_cart_endpoint 10000 7 dbE = (dbE, emptyExpiredCart) ∧
    emptyExpiredCart.updated_at = some 0 :=
  ⟨by decide, by decide, rfl⟩

/-- C5: witness.  A cart holding three reserved units of `v1`, idle since time
0 and accessed at time 10000, is deleted, replaced by a fresh empty cart, and
the three units return to stock. -/
theorem c5_witness :
    Wf dbR ∧ cartExpired 10000 cartR = true ∧
    (get_cart_document 10000 dbR 7 =
      (freshCart 10000 7 dbR.nextId,
       { restore_items dbR cartR.items with
           carts := cartsDeleteOne cartR.cid (restore_items dbR cartR.items).carts ++
             [freshCart 10000 7 dbR.nextId]
           nextId := dbR.nextId + 1 }) ∧
     stockQty (get_cart_document 10000 dbR 7).2 pidA "v1" =
       stockQty dbR pidA "v1" + itemsQty cartR.items pidA "v1") :=
  ⟨by decide, by decide,
   ((c5_expiry_reclaim 10000 7 dbR cartR (by decide) (by decide) (by decide)).1
      (by decide)).1,
   ((c5_expiry_reclaim 10000 7 dbR cartR (by decide) (by decide) (by decide)).1
      (by decide)).2 pidA "v1" (by decide)⟩

/-! ## Claim C7 -/

/-- C7: corrected.  Neither `done` nor `canceled` is enforced as terminal: the
admin status endpoint applies ANY requested status to an order in ANY current
status (it performs no transition validation at all), and the bot `status|`
callback behaves likewise; the only terminal-state guard in the code is the
legacy bot `cancel_order_` branch, which refuses to cancel shipped, done or
already-canceled orders. -/
theorem c7_terminal_statuses (now : Nat) (order_id : Nat) (new_status : String)
    (db : DB) (doc : OrderDoc)
    (hfind : db.orders.find? (fun o => o.oid == order_id) = some doc) :
    (∃ db2, update_order_status now order_id new_status db =
      (db2, .ok { doc with
          status := new_status
          updated_at := now
          can_edit_address := (new_status == OrderStatus.NEW ||
            new_status == OrderStatus.PROCESSING) })) ∧
    ((doc.status == OrderStatus.SHIPPED || doc.status == OrderStatus.DONE ||
        doc.status == OrderStatus.CANCELED) = true →
      handle_bot_webhook now true (.cancel order_id) db =
        (db, .rejected "order can no longer be canceled")) := by
  constructor
  · unfold update_order_status
    simp only [hfind]
    by_cases hc : (new_status == OrderStatus.CANCELED &&
        !(doc.status == OrderStatus.CANCELED)) = true
    · rw [if_pos hc]
      obtain ⟨ps, hps⟩ := restore_items_shape doc.items db
      rw [hps]
      simp only [hfind]
      exact ⟨_, rfl⟩
    · rw [if_neg hc]
      simp only [hfind]
      exact ⟨_, rfl⟩
  · intro hterm
    unfold handle_bot_webhook
    rw [if_neg (by simp)]
    simp only [hfind]
    rw [if_pos hterm]

/-- C7: counterexample.  A `done` order is moved straight back to `processing`
by the admin status endpoint, so `done` is not terminal. -/
theorem c7_counterexample :
    ordDone.status = OrderStatus.DONE ∧
    (update_order_status 5 103 OrderStatus.PROCESSING dbDone).1.orders.map
        OrderDoc.status = [OrderStatus.PROCESSING] ∧
    (update_order_status 5 103 OrderStatus.PROCESSING dbDone).2 =
      .ok { ordDone with
          status := OrderStatus.PROCESSING
          updated_at := 5
          can_edit_address := true } :=
  ⟨rfl, by decide, rfl⟩

/-- C7: witness.  The admin endpoint accepts `processing` on a `done` order,
while the legacy bot cancel refuses that same order. -/
theorem c7_witness :
    dbDone.orders.find? (fun o => o.oid == 103) = some ordDone ∧
    ((∃ db2, update_order_status 5 103 OrderStatus.PROCESSING dbDone =
      (db2, .ok { ordDone with
          status := OrderStatus.PROCESSING
          updated_at := 5
          can_edit_address := (OrderStatus.PROCESSING == OrderStatus.NEW ||
            OrderStatus.PROCESSING == OrderStatus.PROCESSING) })) ∧
    ((ordDone.status == OrderStatus.SHIPPED || ordDone.status == OrderStatus.DONE ||
        ordDone.status == OrderStatus.CANCELED) = true →
      handle_bot_webhook 5 true (.cancel 103) dbDone =
        (dbDone, .rejected "order can no longer be canceled"))) :=
  ⟨by decide, c7_terminal_statuses 5 103 OrderStatus.PROCESSING dbDone ordDone (by decide)⟩

/-! ## Claim C9 -/

/-- C9: corrected.  The editable-status set of the address endpoint is
`{processing}` alone, not `{new, processing}`: for an existing order owned by
the caller, the update succeeds exactly when the status is `processing`, and
any other status (including `new`) is rejected with the domain error, leaving
the state unchanged. -/
theorem c9_address_edit_window (now : Nat) (order_id : Nat) (user : Int)
    (payload : UpdateAddressRequest) (db : DB) (doc : OrderDoc)
    (hfind : db.orders.find? (fun o => o.oid == order_id) = some doc)
    (huser : (doc.user_id == user) = true) :
    ((doc.status == OrderStatus.PROCESSING) = true →
      update_order_address now order_id user payload db =
        ({ db with orders := ordersUpdateOne order_id { doc with delivery_address := payload.address, updated_at := now, can_edit_address := true } db.orders },
         .ok { doc with delivery_address := payload.address, updated_at := now, can_edit_address := true })) ∧
    ((doc.status == OrderStatus.PROCESSING) = false →
      update_order_address now order_id user payload db =
        (db, .error { status_code := 400, detail := "address can no longer be edited" })) := by
  unfold update_order_address
  simp only [hfind]
  constructor
  · intro hst
    rw [if_neg (by simp [huser]), if_neg (by simp [hst])]
  · intro hst
    rw [if_neg (by simp [huser]), if_pos (by simp [hst])]

/-- C9: counterexample.  An order still in status `new` is refused the address
edit with the domain error and the state is unchanged, where the claim
promises success for statuses in `{new, processing}`. -/
theorem c9_counterexample :
    ordNew.status = OrderStatus.NEW ∧
    update_order_address 50 103 1 { address := "b" } dbNew =
      (dbNew, .error { status_code := 400, detail := "address can no longer be edited" }) :=
  ⟨rfl, rfl⟩

/-- C9: witness.  The same edit succeeds on the `processing` twin order. -/
theorem c9_witness :
    dbOrd.orders.find? (fun o => o.oid == 103) = some ordActive ∧
    (ordActive.user_id == (1 : Int)) = true ∧
    (((ordActive.status == OrderStatus.PROCESSING) = true →
      update_order_address 50 103 1 { address := "b" } dbOrd =
        ({ dbOrd with orders := ordersUpdateOne 103 { ordActive with delivery_address := "b", updated_at := 50, can_edit_address := true } dbOrd.orders },
         .ok { ordActive with delivery_address := "b", updated_at := 50, can_edit_address := true })) ∧
    ((ordActive.status == OrderStatus.PROCESSING) = false →
      update_order_address 50 103 1 { address := "b" } dbOrd =
        (dbOrd, .error { status_code := 400, detail := "address can no longer be edited" }))) :=
  ⟨by decide, by decide,
   c9_address_edit_window 50 103 1 { address := "b" } dbOrd ordActive (by decide) (by decide)⟩

/-! ## Claim C10 -/

/-- C10: confirmed.  When the item targeted by `update_cart_item` references a
product document that no longer exists, an unparseable product id, or a
variant no longer present in the product's variants array, the update still
succeeds: the item's quantity is set to the requested value, the cart total is
recomputed and persisted, and the products collection is left entirely
unchanged (the returned state differs from the input state only in `carts`),
even when the quantity increases. -/
theorem c10_update_item_frame (now : Nat) (payload : UpdateCartItemRequest) (db : DB)
    (cart : CartDoc) (item : CartItem)
    (hfind : db.carts.find? (fun c => c.user_id == payload.user_id) = some cart)
    (hcl : cleanup_expired_cart now db cart = (false, db))
    (hfi : cart.items.find? (fun it => it.id == payload.item_id) = some item)
    (hdeg : as_object_id item.product_id = none ∨
      db.products.find? (fun p => p.oid == item.product_id) = none ∨
      ∃ product, db.products.find? (fun p => p.oid == item.product_id) = some product ∧
        product.variants.find? (fun v => v.id == item.variant_id.getD "") = none) :
    update_cart_item now payload db =
      ({ db with carts := cartsUpdateOne cart.cid (recalculate_total { cart with items := setFirstItemQty payload.item_id payload.quantity cart.items, updated_at := some now }) db.carts },
       .ok (recalculate_total { cart with items := setFirstItemQty payload.item_id payload.quantity cart.items, updated_at := some now })) := by
  have hg : get_cart_document now db payload.user_id = (cart, db) := by
    unfold get_cart_document
    rw [hfind]
    simp only [hcl]
    simp
  unfold update_cart_item
  rw [hg]
  simp only [hfi]
  by_cases hcond : (truthy item.variant_id &&
      decide (payload.quantity - item.quantity ≠ 0)) = true
  · rw [if_pos hcond]
    rcases hdeg with h1 | h2 | ⟨product, hp, hv⟩
    · rw [h1]
      simp [recalculate_total]
    · rcases as_object_id_eq item.product_id with hx | hx
      · rw [hx]
        simp [recalculate_total]
      · rw [hx]
        simp only [h2]
        simp [recalculate_total]
    · rcases as_object_id_eq item.product_id with hx | hx
      · rw [hx]
        simp [recalculate_total]
      · rw [hx]
        simp only [hp, hv]
        simp [recalculate_total]
  · rw [if_neg hcond]
    simp [recalculate_total]

/-- C10: witness.  Raising a ghost item (its product document is absent) from
two to seven units succeeds and leaves the (empty) products collection
untouched. -/
theorem c10_witness :
    dbG.carts.find? (fun c => c.user_id == (1 : Int)) = some cartG ∧
    cartG.items.find? (fun it => it.id == 70) = some itemGhost ∧
    update_cart_item 100 { user_id := 1, item_id := 70, quantity := 7 } dbG =
      ({ dbG with carts := cartsUpdateOne cartG.cid (recalculate_total { cartG with items := setFirstItemQty 70 7 cartG.items, updated_at := some 100 }) dbG.carts },
       .ok (recalculate_total { cartG with items := setFirstItemQty 70 7 cartG.items, updated_at := some 100 })) :=
  ⟨by decide, by decide,
   c10_update_item_frame 100 { user_id := 1, item_id := 70, quantity := 7 } dbG cartG
     itemGhost (by decide) (by decide) (by decide) (Or.inr (Or.inl (by decide)))⟩

/-! ## Claim C8 -/

/-- C8: confirmed.  With the store awake, `create_order` rejects an absent or
item-less cart with the cart-is-empty error and no state change; and when the
order insertion fails after the receipt blob was stored, the stored blob is
deleted again (compensating action) and the error propagates, leaving the
orders, carts and products collections — hence the already-reserved stock —
exactly as they were (only the id counter has advanced). -/
theorem c8_create_order_failures (now : Nat) (req : CreateOrderRequest) (db : DB)
    (hawake : db.storeSleeping = false) :
    (orders_get_cart db req.user_id = none →
      ∀ insertFails, create_order now req insertFails db =
        (db, .error { status_code := 400, detail := "cart is empty" })) ∧
    (∀ cart, orders_get_cart db req.user_id = some cart →
      negativeStockCheckTrips db cart.items = false →
      req.receipt_ok = true →
      (∀ b ∈ db.blobs, b < db.nextId) →
      create_order now req true db =
        ({ db with nextId := db.nextId + 1 },
         .error { status_code := 500, detail := "order insert failed" })) := by
  have hok : ensure_store_is_awake db = .ok () := by
    rw [ensure_store_is_awake, hawake]
    simp
  constructor
  · intro hnone insertFails
    unfold create_order
    rw [hok]
    simp only [hnone]
  · intro cart hsome hneg hrc hblob
    unfold create_order
    rw [hok]
    simp only [hsome, hneg, Bool.false_eq_true, if_false]
    have hrcpt : save_payment_receipt db req =
        ({ db with blobs := db.blobs ++ [db.nextId], nextId := db.nextId + 1 },
         .ok db.nextId) := by
      rw [save_payment_receipt, hrc]
      simp
    rw [hrcpt]
    simp only [if_true]
    have hfilter : (db.blobs ++ [db.nextId]).filter (fun b => !(b == db.nextId)) =
        db.blobs := by
      rw [List.filter_append]
      have h1 : db.blobs.filter (fun b => !(b == db.nextId)) = db.blobs := by
        apply List.filter_eq_self.mpr
        intro b hb
        have := hblob b hb
        simp only [Bool.not_eq_eq_eq_not, Bool.not_true, beq_eq_false_iff_ne]
        omega
      have h2 : ([db.nextId] : List Nat).filter (fun b => !(b == db.nextId)) = [] := by
        simp
      rw [h1, h2, List.append_nil]
    rw [hfilter]

/-- C8: witness.  On a concrete one-item cart, the failing insertion leaves
only the advanced id counter behind; and the seeded cart-less deployment is
refused with the cart-is-empty error. -/
theorem c8_witness :
    (orders_get_cart db0 reqOrder.user_id = none ∧
      create_order 5 reqOrder false db0 =
        (db0, .error { status_code := 400, detail := "cart is empty" })) ∧
    (orders_get_cart dbC8 reqOrder.user_id = some cartO ∧
      create_order 5 reqOrder true dbC8 =
        ({ dbC8 with nextId := dbC8.nextId + 1 },
         .error { status_code := 500, detail := "order insert failed" })) :=
  ⟨⟨by decide,
    (c8_create_order_failures 5 reqOrder db0 (by decide)).1 (by decide) false⟩,
   ⟨by decide,
    (c8_create_order_failures 5 reqOrder dbC8 (by decide)).2 cartO (by decide) (by decide)
      (by decide) (by decide)⟩⟩

/-! ## Claim C3 -/

/-- C3: confirmed.  For a user with no pre-existing cart and a variant with
remaining stock `s`: an add-to-cart request for exactly `s` units succeeds and
leaves the variant's stock at 0 (the first matching element is rewritten to
quantity 0), while a request for `s + 1` units fails with the distinct
insufficient-stock error, and on that failure the returned state is exactly
the input state — neither the variant's stock nor the persisted cart has been
modified. -/
theorem c3_exact_stock_boundary (now : Nat) (uid : Int) (pid vid : String) (db : DB)
    (product : ProductDoc) (variant : Variant)
    (hoid : as_object_id pid = some pid)
    (hcart : db.carts.find? (fun c => c.user_id == uid) = none)
    (hfp : db.products.find? (fun p => p.oid == pid) = some product)
    (hne : product.variants.isEmpty = false)
    (hvid : vid ≠ "")
    (hfv : product.variants.find? (fun v => v.id == vid) = some variant) :
    ((add_to_cart now { user_id := uid, product_id := pid, variant_id := some vid, quantity := variant.quantity } db).1.products =
       productsSetVariants pid (setFirstVariantQty vid 0 product.variants) db.products ∧
     ∃ c, (add_to_cart now { user_id := uid, product_id := pid, variant_id := some vid, quantity := variant.quantity } db).2 = .ok c) ∧
    add_to_cart now { user_id := uid, product_id := pid, variant_id := some vid, quantity := variant.quantity + 1 } db =
      (db, .error { status_code := 400, detail := "insufficient stock" }) := by
  have htr : truthy (some vid) = true := by simpa [truthy] using hvid
  have hg : get_cart_document now db uid =
      (freshCart now uid db.nextId,
       { db with carts := db.carts ++ [freshCart now uid db.nextId], nextId := db.nextId + 1 }) := by
    unfold get_cart_document
    rw [hcart]
  constructor
  · unfold add_to_cart
    rw [hoid]
    simp only [hfp, hne, Bool.false_eq_true, if_false, htr, Bool.not_true, Option.getD_some,
      hfv]
    rw [if_neg (lt_irrefl variant.quantity)]
    have hbump : bumpFirstItem pid (some vid) variant.quantity
        (get_cart_document now db uid).1.items = none := by
      rw [hg]
      rfl
    simp only [hbump]
    have hfp1 : ({ (get_cart_document now db uid).2 with nextId := (get_cart_document now db uid).2.nextId + 1 }).products.find? (fun p => p.oid == pid) = some product := by
      show (get_cart_document now db uid).2.products.find? (fun p => p.oid == pid) =
        some product
      rw [hg]
      exact hfp
    have hded := deduct_spec
      { (get_cart_document now db uid).2 with nextId := (get_cart_document now db uid).2.nextId + 1 }
      pid vid variant.quantity product variant hoid hfp1 hfv (lt_irrefl _)
    simp only [hded]
    constructor
    · obtain ⟨cs, hcs⟩ := upsertCustomer_shape now uid _
      rw [hcs]
      show productsSetVariants pid
        (setFirstVariantQty vid (variant.quantity - variant.quantity) product.variants)
        (get_cart_document now db uid).2.products = _
      rw [sub_self, hg]
    · exact ⟨_, rfl⟩
  · unfold add_to_cart
    rw [hoid]
    simp only [hfp, hne, Bool.false_eq_true, if_false, htr, Bool.not_true, Option.getD_some,
      hfv]
    rw [if_pos (lt_add_one variant.quantity)]

/-- C3: witness.  With five units in stock, adding exactly five succeeds and
zeroes the stock, while adding six is refused with no state change. -/
theorem c3_witness :
    varA.quantity = 5 ∧
    (((add_to_cart 7 { user_id := 1, product_id := pidA, variant_id := some "v1", quantity := varA.quantity } db0).1.products =
        productsSetVariants pidA (setFirstVariantQty "v1" 0 prodA.variants) db0.products ∧
      ∃ c, (add_to_cart 7 { user_id := 1, product_id := pidA, variant_id := some "v1", quantity := varA.quantity } db0).2 = .ok c) ∧
     add_to_cart 7 { user_id := 1, product_id := pidA, variant_id := some "v1", quantity := varA.quantity + 1 } db0 =
       (db0, .error { status_code := 400, detail := "insufficient stock" })) :=
  ⟨rfl, c3_exact_stock_boundary 7 1 pidA "v1" db0 prodA varA (by decide) (by decide)
    (by decide) (by decide) (by decide) (by decide)⟩

/-! ## Claim C4 -/

/-- C4: confirmed.  Setting an order's status to `canceled` from any
non-canceled state first restores every variant-bearing item's full quantity
to stock (`restore_items`, which credits each item's own quantity to its own
variant) and only then writes the status — the final state is literally the
status write applied to the restored state.  The Telegram-bot `status|`
callback produces exactly the same state as the admin REST endpoint, and
canceling an already-canceled order performs no stock restore through either
entry point. -/
theorem c4_cancel_restores_then_writes (now : Nat) (order_id : Nat) (db : DB)
    (doc : OrderDoc)
    (hfind : db.orders.find? (fun o => o.oid == order_id) = some doc) :
    ((doc.status == OrderStatus.CANCELED) = false →
      update_order_status now order_id OrderStatus.CANCELED db =
        ({ restore_items db doc.items with orders := ordersUpdateOne order_id { doc with status := OrderStatus.CANCELED, updated_at := now, can_edit_address := false } (restore_items db doc.items).orders },
         .ok { doc with status := OrderStatus.CANCELED, updated_at := now, can_edit_address := false }) ∧
      (handle_bot_webhook now true (.status order_id OrderStatus.CANCELED) db).1 =
        (update_order_status now order_id OrderStatus.CANCELED db).1) ∧
    ((doc.status == OrderStatus.CANCELED) = true →
      (update_order_status now order_id OrderStatus.CANCELED db).1.products = db.products ∧
      handle_bot_webhook now true (.status order_id OrderStatus.CANCELED) db =
        (db, .rejected "status unchanged")) := by
  obtain ⟨ps, hps⟩ := restore_items_shape doc.items db
  constructor
  · intro hnc
    have hcond : (OrderStatus.CANCELED == OrderStatus.CANCELED &&
        !(doc.status == OrderStatus.CANCELED)) = true := by
      rw [hnc]
      rfl
    have hadmin : update_order_status now order_id OrderStatus.CANCELED db =
        ({ restore_items db doc.items with orders := ordersUpdateOne order_id { doc with status := OrderStatus.CANCELED, updated_at := now, can_edit_address := false } (restore_items db doc.items).orders },
         .ok { doc with status := OrderStatus.CANCELED, updated_at := now, can_edit_address := false }) := by
      unfold update_order_status
      simp only [hfind]
      rw [if_pos hcond, hps]
      simp only [hfind]
      rfl
    refine ⟨hadmin, ?_⟩
    have hbot : (handle_bot_webhook now true (.status order_id OrderStatus.CANCELED) db).1 =
        { restore_items db doc.items with orders := ordersUpdateOne order_id { doc with status := OrderStatus.CANCELED, updated_at := now, can_edit_address := false } (restore_items db doc.items).orders } := by
      unfold handle_bot_webhook
      rw [if_neg (by simp)]
      simp only [hfind]
      rw [if_neg (by rw [show validStatuses.contains OrderStatus.CANCELED = true from rfl]; simp)]
      rw [if_neg (by simp [hnc])]
      rw [if_pos hcond, hps]
      simp only [hfind]
      rfl
    rw [hbot, hadmin]
  · intro hc
    constructor
    · unfold update_order_status
      simp only [hfind]
      rw [if_neg (by simp [hc])]
      simp only [hfind]
    · unfold handle_bot_webhook
      rw [if_neg (by simp)]
      simp only [hfind]
      rw [if_neg (by rw [show validStatuses.contains OrderStatus.CANCELED = true from rfl]; simp)]
      rw [if_pos (by simp [hc] : (doc.status == OrderStatus.CANCELED) = true)]

/-- C4: witness.  Canceling an order holding three units of `v1` and one unit
of `v2` restores +3 and +1 to the respective variants through the admin
endpoint, the bot callback yields the identical state, and canceling the
resulting canceled order restores nothing. -/
theorem c4_witness :
    dbOrd.orders.find? (fun o => o.oid == 103) = some ordActive ∧
    (ordActive.status == OrderStatus.CANCELED) = false ∧
    (update_order_status 5 103 OrderStatus.CANCELED dbOrd =
      ({ restore_items dbOrd ordActive.items with orders := ordersUpdateOne 103 { ordActive with status := OrderStatus.CANCELED, updated_at := 5, can_edit_address := false } (restore_items dbOrd ordActive.items).orders },
       .ok { ordActive with status := OrderStatus.CANCELED, updated_at := 5, can_edit_address := false }) ∧
     (handle_bot_webhook 5 true (.status 103 OrderStatus.CANCELED) dbOrd).1 =
       (update_order_status 5 103 OrderStatus.CANCELED dbOrd).1) ∧
    (restore_items dbOrd ordActive.items).products.map
        (fun p => p.variants.map Variant.quantity) = [[5, 8]] ∧
    dbOrd.products.map (fun p => p.variants.map Variant.quantity) = [[2, 7]] :=
  ⟨by decide, by decide,
   (c4_cancel_restores_then_writes 5 103 dbOrd ordActive (by decide)).1 (by decide),
   by decide, by decide⟩

/-! ## Claim C2 -/

/-- C2: corrected.  Conservation holds in the following amended form: along
any trace of endpoint invocations whose requests carry positive quantities
and that never moves an order out of `canceled`, for each variant key the
stored stock plus the quantities reserved in ALL cart items (expired carts
included, for as long as their documents exist) plus the quantities frozen in
non-canceled orders is invariant.  The claim's original accounting is false
on both counts it insists on: items of expired-but-not-yet-accessed carts
must still be counted (their reservation has not been restored), and the
admin/bot status endpoints can move an order out of `canceled`, double-
crediting its items (see the counterexample). -/
theorem c2_stock_conservation (db : DB) (ops : List Op) (hwf : Wf db)
    (hsafe : safeTrace db ops = true) :
    ∀ p0 v0, v0 ≠ "" → totalQty (runOps db ops) p0 v0 = totalQty db p0 v0 := by
  intro p0 v0 hv0
  exact (runOps_preserves ops db hwf hsafe).2 p0 v0 hv0

/-- C2: counterexample to the claimed accounting.  (a) After a single
add-to-cart of three units at time 0, the variant's conservation sum
restricted to non-expired carts is 2 at time 700 (the cart has silently
expired but its reservation is still deducted from stock), not the seeded 5.
(b) Add to cart, place the order, cancel it (stock restored to 5), then set
the canceled order back to `processing`: the order's three units count again
while stock was never re-deducted, and the conservation sum jumps to 8. -/
theorem c2_counterexample :
    (safeTrace db0 opsAdd = true ∧
     totalQtyNonExpired (runOps db0 opsAdd) 700 pidA "v1" = 2 ∧
     totalQty db0 pidA "v1" = 5) ∧
    (totalQty (runOps db0 opsRevive) pidA "v1" = 8 ∧
     (runOps db0 opsRevive).orders.map OrderDoc.status = [OrderStatus.PROCESSING]) :=
  ⟨⟨by decide, by decide, by decide⟩, by decide, by decide⟩

/-- C2: witness. The amended conservation evaluated on the add-to-cart trace. -/
theorem c2_witness :
    Wf db0 ∧ safeTrace db0 opsAdd = true ∧
    totalQty (runOps db0 opsAdd) pidA "v1" = totalQty db0 pidA "v1" :=
  ⟨by decide, by decide,
   c2_stock_conservation db0 opsAdd (by decide) (by decide) pidA "v1" (by decide)⟩

/-! ## Claim C6 -/

theorem find?_append_of_forall_false {α : Type} (p : α → Bool) :
    ∀ l1 l2 : List α, (∀ a ∈ l1, p a = false) → (l1 ++ l2).find? p = l2.find? p := by
  intro l1
  induction l1 with
  | nil => intro l2 _; rfl
  | cons x xs ih =>
    intro l2 h
    rw [List.cons_append, find?_cons_eq,
      if_neg (by simp [h x (List.mem_cons_self x xs)])]
    exact ih l2 (fun a ha => h a (List.mem_cons_of_mem x ha))

/-- Rewriting the (unique) cart found by the user filter keeps it the user
filter's first match. -/
theorem find?_user_cartsUpdateOne (uid : Int) (newc : CartDoc) :
    ∀ cs : List CartDoc, ∀ c, (cs.map CartDoc.cid).Nodup →
      cs.find? (fun x => x.user_id == uid) = some c →
      (newc.user_id == uid) = true →
      (cartsUpdateOne c.cid newc cs).find? (fun x => x.user_id == uid) = some newc := by
  intro cs
  induction cs with
  | nil => intro c _ h _; simp at h
  | cons hd tl ih =>
    intro c hnd hf hnu
    rw [find?_cons_eq] at hf
    rw [List.map_cons, List.nodup_cons] at hnd
    by_cases hu : (hd.user_id == uid) = true
    · rw [if_pos hu] at hf
      cases hf
      rw [cartsUpdateOne, if_pos (by simp), find?_cons_eq, if_pos hnu]
    · rw [if_neg hu] at hf
      have hmem : c ∈ tl := List.mem_of_find?_eq_some hf
      have hne : (hd.cid == c.cid) = false := by
        rw [beq_eq_false_iff_ne]
        intro he
        exact hnd.1 (he ▸ List.mem_map.mpr ⟨c, hmem, rfl⟩)
      rw [cartsUpdateOne, if_neg (by simp [hne]), find?_cons_eq, if_neg hu]
      exact ih c hnd.2 hf hnu

/-- C6: counterexample to the unrestricted round trip.  With two units of
`(prodS3, v1)` already in the cart and three in stock, adding two more merges
into the existing item (total four), deducting two from stock; removing that
item then restores the full merged four, leaving stock at five — two more
than the pre-add three.  The round trip over-restores whenever the add merged
into an existing item. -/
theorem c6_counterexample :
    stockQty dbM pidA "v1" = 3 ∧
    stockQty (remove_from_cart 101 { user_id := 1, item_id := 50 }
      (add_to_cart 100 { user_id := 1, product_id := pidA, variant_id := some "v1", quantity := 2 } dbM).1).1 pidA "v1" = 5 :=
  ⟨by decide, by decide⟩

/-- A cart that is not expired is left alone by the cleanup. -/
theorem cleanup_false_of_not_expired (now : Nat) (d : DB) (ct : CartDoc)
    (hex : cartExpired now ct = false) :
    cleanup_expired_cart now d ct = (false, d) := by
  rw [cleanup_eq]
  by_cases hie : ct.items.isEmpty = true
  · rw [if_pos hie]
  · rw [if_neg hie, hex]
    simp

/-- Fetching the cart of a user whose stored cart is found and not cleaned
returns that cart with the state unchanged. -/
theorem gdoc_of_found (now : Nat) (d : DB) (uid : Int) (ct : CartDoc)
    (hf : d.carts.find? (fun x => x.user_id == uid) = some ct)
    (hcl : cleanup_expired_cart now d ct = (false, d)) :
    get_cart_document now d uid = (ct, d) := by
  unfold get_cart_document
  rw [hf]
  simp only [hcl]
  simp

/-- C6: corrected.  The add-then-remove round trip returns the variant's
stock exactly to its pre-add value PROVIDED the add appended a new cart item
rather than merging into an existing one (no item with the same
`(product_id, variant_id)` pair was already in the cart), the user's cart
fetch at add time did not trigger an expiry cleanup, and the removal happens
within the cart-expiry window.  When the add merges into an existing item the
removal restores the merged total and over-credits the stock (see the
counterexample), so the unrestricted claim is false. -/
theorem c6_round_trip (now now2 : Nat) (uid : Int) (pid vid : String) (q : Int) (db : DB)
    (product : ProductDoc) (variant : Variant)
    (hwf : Wf db)
    (hq : 0 < q)
    (hvid : vid ≠ "")
    (hoid : as_object_id pid = some pid)
    (hfp : db.products.find? (fun p => p.oid == pid) = some product)
    (hne : product.variants.isEmpty = false)
    (hfv : product.variants.find? (fun v => v.id == vid) = some variant)
    (hstock : ¬ variant.quantity < q)
    (hcart : db.carts.find? (fun c => c.user_id == uid) = none ∨
      ∃ c, db.carts.find? (fun x => x.user_id == uid) = some c ∧
        cleanup_expired_cart now db c = (false, db) ∧
        bumpFirstItem pid (some vid) q c.items = none)
    (hwin : now2 ≤ now + CART_EXPIRY_MINUTES * 60) :
    stockQty (remove_from_cart now2 { user_id := uid, item_id := (get_cart_document now db uid).2.nextId } (add_to_cart now { user_id := uid, product_id := pid, variant_id := some vid, quantity := q } db).1).1 pid vid =
      stockQty db pid vid := by
  have htr : truthy (some vid) = true := by simpa [truthy] using hvid
  obtain ⟨w1, w2, w3, w4, w5, w6, w7, w8⟩ := hwf
  have hfacts :
      bumpFirstItem pid (some vid) q (get_cart_document now db uid).1.items = none ∧
      (get_cart_document now db uid).2.carts.find? (fun x => x.user_id == uid) = some (get_cart_document now db uid).1 ∧
      (∀ it ∈ (get_cart_document now db uid).1.items, (it.id == (get_cart_document now db uid).2.nextId) = false) ∧
      (get_cart_document now db uid).2.products = db.products ∧
      ((get_cart_document now db uid).1.user_id == uid) = true ∧
      ((get_cart_document now db uid).2.carts.map CartDoc.cid).Nodup := by
    rcases hcart with hnone | ⟨c, hfc, hclc, hbc⟩
    · have hg : (get_cart_document now db uid) =
          (freshCart now uid db.nextId,
           { db with carts := db.carts ++ [freshCart now uid db.nextId], nextId := db.nextId + 1 }) := by
        unfold get_cart_document
        rw [hnone]
      rw [hg]
      refine ⟨rfl, ?_, ?_, rfl, by simp [freshCart], ?_⟩
      · show (db.carts ++ [freshCart now uid db.nextId]).find? (fun x => x.user_id == uid) =
          some (freshCart now uid db.nextId)
        rw [find?_append_of_forall_false _ _ _ ?_]
        · rw [find?_cons_eq, if_pos (by simp [freshCart])]
        · intro a ha
          have h2 := List.find?_eq_none.mp hnone a ha
          simpa using h2
      · intro it hit
        simp [freshCart] at hit
      · show ((db.carts ++ [freshCart now uid db.nextId]).map CartDoc.cid).Nodup
        rw [List.map_append]
        refine List.Nodup.append w1 (by simp) ?_
        intro a ha1 ha2
        obtain ⟨cx, hcx, rfl⟩ := List.mem_map.mp ha1
        have hlt := w3 cx hcx
        have ha2x : cx.cid = db.nextId := by simpa [freshCart] using ha2
        omega
    · have hg : (get_cart_document now db uid) = (c, db) := gdoc_of_found now db uid c hfc hclc
      rw [hg]
      have hmemc : c ∈ db.carts := List.mem_of_find?_eq_some hfc
      refine ⟨hbc, hfc, ?_, rfl, find?_some_eq _ db.carts c hfc, w1⟩
      intro it hit
      rw [beq_eq_false_iff_ne]
      have hit2 : it ∈ c.items := hit
      have hlt := w4 c hmemc it hit2
      show it.id ≠ db.nextId
      omega
  obtain ⟨hbump, hfindU, hidsF, hprodG, huserF, hndU⟩ := hfacts
  have hfpG : (get_cart_document now db uid).2.products.find? (fun p => p.oid == pid) = some product := by
    rw [hprodG]
    exact hfp
  have hfp1 : ({ (get_cart_document now db uid).2 with nextId := (get_cart_document now db uid).2.nextId + 1 }).products.find? (fun p => p.oid == pid) = some product := by
    show (get_cart_document now db uid).2.products.find? (fun p => p.oid == pid) = some product
    exact hfpG
  have hded := deduct_spec { (get_cart_document now db uid).2 with nextId := (get_cart_document now db uid).2.nextId + 1 } pid vid q product
    variant hoid hfp1 hfv hstock
  have hadd : (add_to_cart now { user_id := uid, product_id := pid, variant_id := some vid, quantity := q } db).1 = upsertCustomer now uid ({ (get_cart_document now db uid).2 with products := productsSetVariants pid (setFirstVariantQty vid (variant.quantity - q) product.variants) (get_cart_document now db uid).2.products, carts := cartsUpdateOne (recalculate_total { (get_cart_document now db uid).1 with items := (get_cart_document now db uid).1.items ++ [({ id := (get_cart_document now db uid).2.nextId, product_id := pid, variant_id := some vid, product_name := product.name, variant_name := some variant.name, quantity := q, price := product.price, image := variant.image } : CartItem)], updated_at := some now }).cid (recalculate_total { (get_cart_document now db uid).1 with items := (get_cart_document now db uid).1.items ++ [({ id := (get_cart_document now db uid).2.nextId, product_id := pid, variant_id := some vid, product_name := product.name, variant_name := some variant.name, quantity := q, price := product.price, image := variant.image } : CartItem)], updated_at := some now }) (get_cart_document now db uid).2.carts, nextId := (get_cart_document now db uid).2.nextId + 1 } : DB) := by
    unfold add_to_cart
    rw [hoid]
    simp only [hfp, hne, Bool.false_eq_true, if_false, htr, Bool.not_true, Option.getD_some,
      hfv]
    rw [if_neg hstock]
    simp only [hbump, hded]
  obtain ⟨cs, hcs⟩ := upsertCustomer_shape now uid ({ (get_cart_document now db uid).2 with products := productsSetVariants pid (setFirstVariantQty vid (variant.quantity - q) product.variants) (get_cart_document now db uid).2.products, carts := cartsUpdateOne (recalculate_total { (get_cart_document now db uid).1 with items := (get_cart_document now db uid).1.items ++ [({ id := (get_cart_document now db uid).2.nextId, product_id := pid, variant_id := some vid, product_name := product.name, variant_name := some variant.name, quantity := q, price := product.price, image := variant.image } : CartItem)], updated_at := some now }).cid (recalculate_total { (get_cart_document now db uid).1 with items := (get_cart_document now db uid).1.items ++ [({ id := (get_cart_document now db uid).2.nextId, product_id := pid, variant_id := some vid, product_name := product.name, variant_name := some variant.name, quantity := q, price := product.price, image := variant.image } : CartItem)], updated_at := some now }) (get_cart_document now db uid).2.carts, nextId := (get_cart_document now db uid).2.nextId + 1 } : DB)
  rw [hadd, hcs]
  show stockQty (remove_from_cart now2 { user_id := uid, item_id := (get_cart_document now db uid).2.nextId } ({ ({ (get_cart_document now db uid).2 with products := productsSetVariants pid (setFirstVariantQty vid (variant.quantity - q) product.variants) (get_cart_document now db uid).2.products, carts := cartsUpdateOne (recalculate_total { (get_cart_document now db uid).1 with items := (get_cart_document now db uid).1.items ++ [({ id := (get_cart_document now db uid).2.nextId, product_id := pid, variant_id := some vid, product_name := product.name, variant_name := some variant.name, quantity := q, price := product.price, image := variant.image } : CartItem)], updated_at := some now }).cid (recalculate_total { (get_cart_document now db uid).1 with items := (get_cart_document now db uid).1.items ++ [({ id := (get_cart_document now db uid).2.nextId, product_id := pid, variant_id := some vid, product_name := product.name, variant_name := some variant.name, quantity := q, price := product.price, image := variant.image } : CartItem)], updated_at := some now }) (get_cart_document now db uid).2.carts, nextId := (get_cart_document now db uid).2.nextId + 1 } : DB) with customers := cs } : DB)).1 pid vid = stockQty db pid vid
  have hfind3 : ({ ({ (get_cart_document now db uid).2 with products := productsSetVariants pid (setFirstVariantQty vid (variant.quantity - q) product.variants) (get_cart_document now db uid).2.products, carts := cartsUpdateOne (recalculate_total { (get_cart_document now db uid).1 with items := (get_cart_document now db uid).1.items ++ [({ id := (get_cart_document now db uid).2.nextId, product_id := pid, variant_id := some vid, product_name := product.name, variant_name := some variant.name, quantity := q, price := product.price, image := variant.image } : CartItem)], updated_at := some now }).cid (recalculate_total { (get_cart_document now db uid).1 with items := (get_cart_document now db uid).1.items ++ [({ id := (get_cart_document now db uid).2.nextId, product_id := pid, variant_id := some vid, product_name := product.name, variant_name := some variant.name, quantity := q, price := product.price, image := variant.image } : CartItem)], updated_at := some now }) (get_cart_document now db uid).2.carts, nextId := (get_cart_document now db uid).2.nextId + 1 } : DB) with customers := cs } : DB).carts.find? (fun x => x.user_id == uid) = some (recalculate_total { (get_cart_document now db uid).1 with items := (get_cart_document now db uid).1.items ++ [({ id := (get_cart_document now db uid).2.nextId, product_id := pid, variant_id := some vid, product_name := product.name, variant_name := some variant.name, quantity := q, price := product.price, image := variant.image } : CartItem)], updated_at := some now }) :=
    find?_user_cartsUpdateOne uid (recalculate_total { (get_cart_document now db uid).1 with items := (get_cart_document now db uid).1.items ++ [({ id := (get_cart_document now db uid).2.nextId, product_id := pid, variant_id := some vid, product_name := product.name, variant_name := some variant.name, quantity := q, price := product.price, image := variant.image } : CartItem)], updated_at := some now }) (get_cart_document now db uid).2.carts (get_cart_document now db uid).1 hndU hfindU huserF
  have hex : cartExpired now2 (recalculate_total { (get_cart_document now db uid).1 with items := (get_cart_document now db uid).1.items ++ [({ id := (get_cart_document now db uid).2.nextId, product_id := pid, variant_id := some vid, product_name := product.name, variant_name := some variant.name, quantity := q, price := product.price, image := variant.image } : CartItem)], updated_at := some now }) = false := by
    show decide (now + CART_EXPIRY_MINUTES * 60 < now2) = false
    simp only [decide_eq_false_iff_not]
    omega
  have hgr : get_cart_document now2 ({ ({ (get_cart_document now db uid).2 with products := productsSetVariants pid (setFirstVariantQty vid (variant.quantity - q) product.variants) (get_cart_document now db uid).2.products, carts := cartsUpdateOne (recalculate_total { (get_cart_document now db uid).1 with items := (get_cart_document now db uid).1.items ++ [({ id := (get_cart_document now db uid).2.nextId, product_id := pid, variant_id := some vid, product_name := product.name, variant_name := some variant.name, quantity := q, price := product.price, image := variant.image } : CartItem)], updated_at := some now }).cid (recalculate_total { (get_cart_document now db uid).1 with items := (get_cart_document now db uid).1.items ++ [({ id := (get_cart_document now db uid).2.nextId, product_id := pid, variant_id := some vid, product_name := product.name, variant_name := some variant.name, quantity := q, price := product.price, image := variant.image } : CartItem)], updated_at := some now }) (get_cart_document now db uid).2.carts, nextId := (get_cart_document now db uid).2.nextId + 1 } : DB) with customers := cs } : DB) uid = ((recalculate_total { (get_cart_document now db uid).1 with items := (get_cart_document now db uid).1.items ++ [({ id := (get_cart_document now db uid).2.nextId, product_id := pid, variant_id := some vid, product_name := product.name, variant_name := some variant.name, quantity := q, price := product.price, image := variant.image } : CartItem)], updated_at := some now }), ({ ({ (get_cart_document now db uid).2 with products := productsSetVariants pid (setFirstVariantQty vid (variant.quantity - q) product.variants) (get_cart_document now db uid).2.products, carts := cartsUpdateOne (recalculate_total { (get_cart_document now db uid).1 with items := (get_cart_document now db uid).1.items ++ [({ id := (get_cart_document now db uid).2.nextId, product_id := pid, variant_id := some vid, product_name := product.name, variant_name := some variant.name, quantity := q, price := product.price, image := variant.image } : CartItem)], updated_at := some now }).cid (recalculate_total { (get_cart_document now db uid).1 with items := (get_cart_document now db uid).1.items ++ [({ id := (get_cart_document now db uid).2.nextId, product_id := pid, variant_id := some vid, product_name := product.name, variant_name := some variant.name, quantity := q, price := product.price, image := variant.image } : CartItem)], updated_at := some now }) (get_cart_document now db uid).2.carts, nextId := (get_cart_document now db uid).2.nextId + 1 } : DB) with customers := cs } : DB)) :=
    gdoc_of_found now2 ({ ({ (get_cart_document now db uid).2 with products := productsSetVariants pid (setFirstVariantQty vid (variant.quantity - q) product.variants) (get_cart_document now db uid).2.products, carts := cartsUpdateOne (recalculate_total { (get_cart_document now db uid).1 with items := (get_cart_document now db uid).1.items ++ [({ id := (get_cart_document now db uid).2.nextId, product_id := pid, variant_id := some vid, product_name := product.name, variant_name := some variant.name, quantity := q, price := product.price, image := variant.image } : CartItem)], updated_at := some now }).cid (recalculate_total { (get_cart_document now db uid).1 with items := (get_cart_document now db uid).1.items ++ [({ id := (get_cart_document now db uid).2.nextId, product_id := pid, variant_id := some vid, product_name := product.name, variant_name := some variant.name, quantity := q, price := product.price, image := variant.image } : CartItem)], updated_at := some now }) (get_cart_document now db uid).2.carts, nextId := (get_cart_document now db uid).2.nextId + 1 } : DB) with customers := cs } : DB) uid (recalculate_total { (get_cart_document now db uid).1 with items := (get_cart_document now db uid).1.items ++ [({ id := (get_cart_document now db uid).2.nextId, product_id := pid, variant_id := some vid, product_name := product.name, variant_name := some variant.name, quantity := q, price := product.price, image := variant.image } : CartItem)], updated_at := some now }) hfind3 (cleanup_false_of_not_expired now2 ({ ({ (get_cart_document now db uid).2 with products := productsSetVariants pid (setFirstVariantQty vid (variant.quantity - q) product.variants) (get_cart_document now db uid).2.products, carts := cartsUpdateOne (recalculate_total { (get_cart_document now db uid).1 with items := (get_cart_document now db uid).1.items ++ [({ id := (get_cart_document now db uid).2.nextId, product_id := pid, variant_id := some vid, product_name := product.name, variant_name := some variant.name, quantity := q, price := product.price, image := variant.image } : CartItem)], updated_at := some now }).cid (recalculate_total { (get_cart_document now db uid).1 with items := (get_cart_document now db uid).1.items ++ [({ id := (get_cart_document now db uid).2.nextId, product_id := pid, variant_id := some vid, product_name := product.name, variant_name := some variant.name, quantity := q, price := product.price, image := variant.image } : CartItem)], updated_at := some now }) (get_cart_document now db uid).2.carts, nextId := (get_cart_document now db uid).2.nextId + 1 } : DB) with customers := cs } : DB) (recalculate_total { (get_cart_document now db uid).1 with items := (get_cart_document now db uid).1.items ++ [({ id := (get_cart_document now db uid).2.nextId, product_id := pid, variant_id := some vid, product_name := product.name, variant_name := some variant.name, quantity := q, price := product.price, image := variant.image } : CartItem)], updated_at := some now }) hex)
  have hfiNI : (recalculate_total { (get_cart_document now db uid).1 with items := (get_cart_document now db uid).1.items ++ [({ id := (get_cart_document now db uid).2.nextId, product_id := pid, variant_id := some vid, product_name := product.name, variant_name := some variant.name, quantity := q, price := product.price, image := variant.image } : CartItem)], updated_at := some now }).items.find? (fun it => it.id == (get_cart_document now db uid).2.nextId) = some ({ id := (get_cart_document now db uid).2.nextId, product_id := pid, variant_id := some vid, product_name := product.name, variant_name := some variant.name, quantity := q, price := product.price, image := variant.image } : CartItem) := by
    show ((get_cart_document now db uid).1.items ++ [({ id := (get_cart_document now db uid).2.nextId, product_id := pid, variant_id := some vid, product_name := product.name, variant_name := some variant.name, quantity := q, price := product.price, image := variant.image } : CartItem)]).find? (fun it => it.id == (get_cart_document now db uid).2.nextId) = some ({ id := (get_cart_document now db uid).2.nextId, product_id := pid, variant_id := some vid, product_name := product.name, variant_name := some variant.name, quantity := q, price := product.price, image := variant.image } : CartItem)
    rw [find?_append_of_forall_false _ _ _ hidsF, find?_cons_eq,
      if_pos (beq_self_eq_true (get_cart_document now db uid).2.nextId)]
  unfold remove_from_cart
  rw [hgr]
  dsimp only at hfiNI ⊢
  simp only [hfiNI]
  rw [if_pos (show truthy (({ id := (get_cart_document now db uid).2.nextId, product_id := pid, variant_id := some vid, product_name := product.name, variant_name := some variant.name, quantity := q, price := product.price, image := variant.image } : CartItem)).variant_id = true from htr)]
  show stockL (restore_variant_quantity ({ ({ (get_cart_document now db uid).2 with products := productsSetVariants pid (setFirstVariantQty vid (variant.quantity - q) product.variants) (get_cart_document now db uid).2.products, carts := cartsUpdateOne (recalculate_total { (get_cart_document now db uid).1 with items := (get_cart_document now db uid).1.items ++ [({ id := (get_cart_document now db uid).2.nextId, product_id := pid, variant_id := some vid, product_name := product.name, variant_name := some variant.name, quantity := q, price := product.price, image := variant.image } : CartItem)], updated_at := some now }).cid (recalculate_total { (get_cart_document now db uid).1 with items := (get_cart_document now db uid).1.items ++ [({ id := (get_cart_document now db uid).2.nextId, product_id := pid, variant_id := some vid, product_name := product.name, variant_name := some variant.name, quantity := q, price := product.price, image := variant.image } : CartItem)], updated_at := some now }) (get_cart_document now db uid).2.carts, nextId := (get_cart_document now db uid).2.nextId + 1 } : DB) with customers := cs } : DB) pid vid q).products pid vid =
    stockL db.products pid vid
  have hsig := productsSetVariants_sig pid (get_cart_document now db uid).2.products product hfpG
    (setFirstVariantQty vid (variant.quantity - q) product.variants)
    (setFirstVariantQty_ids vid (variant.quantity - q) product.variants)
  have hhit : hitsL ({ ({ (get_cart_document now db uid).2 with products := productsSetVariants pid (setFirstVariantQty vid (variant.quantity - q) product.variants) (get_cart_document now db uid).2.products, carts := cartsUpdateOne (recalculate_total { (get_cart_document now db uid).1 with items := (get_cart_document now db uid).1.items ++ [({ id := (get_cart_document now db uid).2.nextId, product_id := pid, variant_id := some vid, product_name := product.name, variant_name := some variant.name, quantity := q, price := product.price, image := variant.image } : CartItem)], updated_at := some now }).cid (recalculate_total { (get_cart_document now db uid).1 with items := (get_cart_document now db uid).1.items ++ [({ id := (get_cart_document now db uid).2.nextId, product_id := pid, variant_id := some vid, product_name := product.name, variant_name := some variant.name, quantity := q, price := product.price, image := variant.image } : CartItem)], updated_at := some now }) (get_cart_document now db uid).2.carts, nextId := (get_cart_document now db uid).2.nextId + 1 } : DB) with customers := cs } : DB).products pid vid = true := by
    show hitsL (productsSetVariants pid (setFirstVariantQty vid (variant.quantity - q) product.variants) (get_cart_document now db uid).2.products) pid vid = true
    rw [hitsL_congr pid vid _ _ hsig, hprodG]
    exact hitsL_intro db.products pid vid product hoid hfp
      (any_of_find?_variant product.variants vid variant hfv)
  rw [restore_stockL ({ ({ (get_cart_document now db uid).2 with products := productsSetVariants pid (setFirstVariantQty vid (variant.quantity - q) product.variants) (get_cart_document now db uid).2.products, carts := cartsUpdateOne (recalculate_total { (get_cart_document now db uid).1 with items := (get_cart_document now db uid).1.items ++ [({ id := (get_cart_document now db uid).2.nextId, product_id := pid, variant_id := some vid, product_name := product.name, variant_name := some variant.name, quantity := q, price := product.price, image := variant.image } : CartItem)], updated_at := some now }).cid (recalculate_total { (get_cart_document now db uid).1 with items := (get_cart_document now db uid).1.items ++ [({ id := (get_cart_document now db uid).2.nextId, product_id := pid, variant_id := some vid, product_name := product.name, variant_name := some variant.name, quantity := q, price := product.price, image := variant.image } : CartItem)], updated_at := some now }) (get_cart_document now db uid).2.carts, nextId := (get_cart_document now db uid).2.nextId + 1 } : DB) with customers := cs } : DB) pid vid q hq hhit pid vid]
  rw [show ({ ({ (get_cart_document now db uid).2 with products := productsSetVariants pid (setFirstVariantQty vid (variant.quantity - q) product.variants) (get_cart_document now db uid).2.products, carts := cartsUpdateOne (recalculate_total { (get_cart_document now db uid).1 with items := (get_cart_document now db uid).1.items ++ [({ id := (get_cart_document now db uid).2.nextId, product_id := pid, variant_id := some vid, product_name := product.name, variant_name := some variant.name, quantity := q, price := product.price, image := variant.image } : CartItem)], updated_at := some now }).cid (recalculate_total { (get_cart_document now db uid).1 with items := (get_cart_document now db uid).1.items ++ [({ id := (get_cart_document now db uid).2.nextId, product_id := pid, variant_id := some vid, product_name := product.name, variant_name := some variant.name, quantity := q, price := product.price, image := variant.image } : CartItem)], updated_at := some now }) (get_cart_document now db uid).2.carts, nextId := (get_cart_document now db uid).2.nextId + 1 } : DB) with customers := cs } : DB).products = productsSetVariants pid (setFirstVariantQty vid (variant.quantity - q) product.variants) (get_cart_document now db uid).2.products from rfl]
  rw [productsSetVariants_stockL pid (get_cart_document now db uid).2.products product hfpG _ pid vid]
  rw [setFirstVariantQty_varSum vid (variant.quantity - q) product.variants variant hfv vid]
  rw [hprodG]
  simp only [beq_self_eq_true, Bool.and_self, if_true]
  ring

/-- C6: witness.  A fresh user adds three units of `(prodA, v1)` and removes
the created item; the stock returns to its pre-add value of five. -/
theorem c6_witness :
    Wf db0 ∧ (0 : Int) < 3 ∧
    stockQty (remove_from_cart 1 { user_id := 1, item_id := (get_cart_document 0 db0 1).2.nextId } (add_to_cart 0 { user_id := 1, product_id := pidA, variant_id := some "v1", quantity := 3 } db0).1).1 pidA "v1" =
      stockQty db0 pidA "v1" :=
  ⟨by decide, by decide,
   c6_round_trip 0 1 1 pidA "v1" 3 db0 prodA varA (by decide) (by decide) (by decide)
     (by decide) (by decide) (by decide) (by decide) (by decide) (Or.inl (by decide))
     (by decide)⟩
